import Mathlib

/-!
# Verification development for the generic code-generation engine (`lib/backend/templates/base.cpp`)

Shallow embedding of the template base class of the atidlas backend: device-constraint
validation, kernel naming, neutral elements, the map functor, the argument-binding functor and
the code-emission utilities (fetch loops, vector loads and stores, index reductions, alignment).

Conventions of the embedding

* `unsigned int` values are natural numbers; where the source increments or converts one
  (`current_arg_++`, `cl_uint(...)`) the reduction modulo `2^32` is written out.
* `size_t` values reported by the device are natural numbers.
* `int_t` (a typedef declared in `types.h`) carries sizes, extents, strides and offsets. The
  extents, strides and offsets of arrays are embedded as natural numbers. The local sizes of
  the template parameters are integers, and `check_invalid` computes on them as the machine
  does, for an `int_t` of 32 or of 64 bits (`int_t_bits`), a `size_t` of 64 bits and an
  `unsigned int` of 32 bits: a product that overflows wraps around, and a signed value compared
  with a `size_t` is converted to `size_t` first.
* C++ exceptions are values of `exception`. A fallible function without state returns
  `Except exception _`; a fallible member of a functor returns the state it leaves together with
  the condition it raised, if any (`_ × Option exception`), so that what a failing call did
  before it threw stays visible.
* Virtual member functions (`lmem_usage`, `check_invalid_impl`, `generate_impl`, the binder's
  `bind` and `get`) are fields of a record, so every theorem holds for every override.
* A loop whose end depends on the data (`is_node_trans`) takes a bound on its iterations and
  tells a return from a read outside the container and from a run that the bound cut short;
  the theorems give the bound from which the result no longer changes.
-/

namespace atidlas

/-! ## Data model -/

/-- The element types named in `base.cpp` (enumeration `numeric_type`). -/
inductive numeric_type
  | INVALID_NUMERIC_TYPE
  | CHAR_TYPE
  | UCHAR_TYPE
  | SHORT_TYPE
  | USHORT_TYPE
  | INT_TYPE
  | UINT_TYPE
  | LONG_TYPE
  | ULONG_TYPE
  | FLOAT_TYPE
  | DOUBLE_TYPE
  deriving DecidableEq, Repr

/-- The operand type families. The four named in `base.cpp`, and `INVALID_TYPE_FAMILY` for every
family that reaches the `default:` label of the two `switch(lhs_rhs.type_family)` statements. -/
inductive symbolic_expression_node_type_family
  | INVALID_TYPE_FAMILY
  | COMPOSITE_OPERATOR_FAMILY
  | VALUE_TYPE_FAMILY
  | ARRAY_TYPE_FAMILY
  | INFOS_TYPE_FAMILY
  deriving DecidableEq, Repr

/-- The operator type families named in `base.cpp`; `OPERATOR_OTHER_TYPE_FAMILY` stands for the
families the file never tests for. -/
inductive operation_node_type_family
  | OPERATOR_VECTOR_REDUCTION_TYPE_FAMILY
  | OPERATOR_COLUMNS_REDUCTION_TYPE_FAMILY
  | OPERATOR_ROWS_REDUCTION_TYPE_FAMILY
  | OPERATOR_MATRIX_PRODUCT_TYPE_FAMILY
  | OPERATOR_OTHER_TYPE_FAMILY (tag : Nat)
  deriving DecidableEq, Repr

/-- The operator types named in `base.cpp`; `OPERATOR_OTHER_TYPE tag` stands for every operator
of the vocabulary that the file never names (subtraction, assignment, casts, ...). -/
inductive operation_node_type
  | OPERATOR_ADD_TYPE
  | OPERATOR_MULT_TYPE
  | OPERATOR_DIV_TYPE
  | OPERATOR_ELEMENT_FMAX_TYPE
  | OPERATOR_ELEMENT_ARGFMAX_TYPE
  | OPERATOR_ELEMENT_MAX_TYPE
  | OPERATOR_ELEMENT_ARGMAX_TYPE
  | OPERATOR_ELEMENT_FMIN_TYPE
  | OPERATOR_ELEMENT_ARGFMIN_TYPE
  | OPERATOR_ELEMENT_MIN_TYPE
  | OPERATOR_ELEMENT_ARGMIN_TYPE
  | OPERATOR_VDIAG_TYPE
  | OPERATOR_MATRIX_DIAG_TYPE
  | OPERATOR_MATRIX_ROW_TYPE
  | OPERATOR_MATRIX_COLUMN_TYPE
  | OPERATOR_REPEAT_TYPE
  | OPERATOR_OUTER_PROD_TYPE
  | OPERATOR_TRANS_TYPE
  | OPERATOR_OTHER_TYPE (tag : Nat)
  deriving DecidableEq, Repr

/-- An operator descriptor: `op.type_family` and `op.type`. -/
structure op_element where
  type_family : operation_node_type_family
  type : operation_node_type
  deriving DecidableEq, Repr

/-- A device buffer handle (`cl_mem`): `none` is the `NULL` handle. -/
abbrev cl_mem := Option Nat

/-- The fields of `array_infos` read by `base.cpp`. -/
structure array_infos where
  dtype : numeric_type
  data : cl_mem
  shape1 : Nat
  shape2 : Nat
  start1 : Nat
  start2 : Nat
  stride1 : Nat
  stride2 : Nat
  ld : Nat
  deriving DecidableEq, Repr

/-- The four fields of `repeat_infos`. -/
structure repeat_infos where
  sub1 : Nat
  sub2 : Nat
  rep1 : Nat
  rep2 : Nat
  deriving DecidableEq, Repr

/-- The ten fields of `values_holder` read by `set_arguments`; the two floating-point fields are
kept as their bit patterns. -/
structure values_holder where
  int8 : Int
  uint8 : Nat
  int16 : Int
  uint16 : Nat
  int32 : Int
  uint32 : Nat
  int64 : Int
  uint64 : Nat
  float32 : Nat
  float64 : Nat
  deriving DecidableEq, Repr

/-- An operand of a node (`lhs_rhs_element`): its family, its element type and the payloads
`node_index`, `vscalar`, `array` and `tuple`. -/
structure lhs_rhs_element where
  type_family : symbolic_expression_node_type_family
  dtype : numeric_type
  node_index : Nat
  vscalar : values_holder
  array : array_infos
  tuple : repeat_infos
  deriving DecidableEq, Repr

/-- A node of the expression tree. -/
structure symbolic_expression_node where
  lhs : lhs_rhs_element
  op : op_element
  rhs : lhs_rhs_element
  deriving DecidableEq, Repr

/-- The role under which a functor visits a node (`leaf_t`). -/
inductive leaf_t
  | LHS_NODE_TYPE
  | PARENT_NODE_TYPE
  | RHS_NODE_TYPE
  deriving DecidableEq, Repr

/-- An expression: its node container `tree()`, its entry index `root()` and its `dtype()`. -/
structure symbolic_expression where
  tree : List symbolic_expression_node
  root : Nat
  dtype : numeric_type
  deriving DecidableEq, Repr

/-- A batch of expressions (`symbolic_expressions_container::data()`). -/
abbrev symbolic_expressions_container := List symbolic_expression

/-- The conditions `base.cpp` raises. `c_string` is the `throw ""` of `map_functor::create`. -/
inductive exception
  | operation_not_supported_exception (message : String)
  | unknown_datatype (dtype : numeric_type)
  | invalid_exception (message : String)
  | c_string (message : String)
  deriving DecidableEq, Repr

/-! ## Device constraint validation -/

/-- Modelled from the spec: the validity codes, integer constants declared in the header
`base.h`. The spec asks for "a validity error code distinguishing which constraint
failed", so the seven codes are pairwise different. -/
structure validity_codes where
  TEMPLATE_VALID : Int
  TEMPLATE_LOCAL_MEMORY_OVERFLOW : Int
  TEMPLATE_WORK_GROUP_SIZE_OVERFLOW : Int
  TEMPLATE_LOCAL_SIZE_0_OVERFLOW : Int
  TEMPLATE_LOCAL_SIZE_1_OVERFLOW : Int
  TEMPLATE_LOCAL_SIZE_NOT_WARP_MULTIPLE : Int
  TEMPLATE_INVALID_SIMD_WIDTH : Int
  distinguishing : List.Nodup [TEMPLATE_VALID, TEMPLATE_LOCAL_MEMORY_OVERFLOW,
    TEMPLATE_WORK_GROUP_SIZE_OVERFLOW, TEMPLATE_LOCAL_SIZE_0_OVERFLOW,
    TEMPLATE_LOCAL_SIZE_1_OVERFLOW, TEMPLATE_LOCAL_SIZE_NOT_WARP_MULTIPLE,
    TEMPLATE_INVALID_SIMD_WIDTH]

/-- The OpenCL constant `CL_DEVICE_TYPE_GPU` (`1 << 2`). -/
def CL_DEVICE_TYPE_GPU : Nat := 4

/-- Modelled from the spec: the target-device descriptor, "exposing at minimum: local-memory
capacity, max work-group size, max per-axis item sizes, device class and a vendor identifier".
Each field is the answer of `device.getInfo` to the query of the same name. OpenCL devices report
at least three work-item dimensions, so axes 0 and 1 exist. -/
structure Device where
  CL_DEVICE_LOCAL_MEM_SIZE : Nat
  CL_DEVICE_MAX_WORK_GROUP_SIZE : Nat
  CL_DEVICE_MAX_WORK_ITEM_SIZES : List Nat
  CL_DEVICE_TYPE : Nat
  CL_DEVICE_VENDOR_ID : Nat
  two_axes : 2 ≤ CL_DEVICE_MAX_WORK_ITEM_SIZES.length

/-- Entry `max_work_item_sizes[0]`. -/
def Device.max_work_item_size_0 (d : Device) : Nat :=
  d.CL_DEVICE_MAX_WORK_ITEM_SIZES.get ⟨0, by have := d.two_axes; omega⟩

/-- Entry `max_work_item_sizes[1]`. -/
def Device.max_work_item_size_1 (d : Device) : Nat :=
  d.CL_DEVICE_MAX_WORK_ITEM_SIZES.get ⟨1, by have := d.two_axes; omega⟩

/-- The template parameters (`base::parameters_type`): `simd_width` is an `unsigned int`, the
three other members are `int_t` values, which may be negative. -/
structure parameters_type where
  simd_width : Nat
  local_size_0 : Int
  local_size_1 : Int
  num_kernels : Int
  deriving DecidableEq, Repr

/-- The `int_t` of `int_t_bits` bits that an arithmetic result `x` is stored as: `x` itself when
it is representable, and otherwise the representable value that differs from `x` by a multiple
of `2^int_t_bits` (an overflowing product wraps around in two's complement). -/
def to_int_t (int_t_bits : Nat) (x : Int) : Int :=
  (x + 2 ^ (int_t_bits - 1)) % 2 ^ int_t_bits - 2 ^ (int_t_bits - 1)

/-- The conversion of a signed value to `size_t`, which the comparison of an `int_t` with a
`size_t` applies to the `int_t`: the value modulo `2^64`. -/
def to_size_t (x : Int) : Nat := (x % 2 ^ 64).toNat

/-- The conversion of a signed value to `unsigned int`: the value modulo `2^32`. -/
def to_unsigned_int (x : Int) : Nat := (x % 2 ^ 32).toNat

/-- The remainder `product % warp_size` of an `int_t` by an `unsigned int`. An `int_t` of 32
bits is converted to `unsigned int` and the remainder is the unsigned one; for a wider `int_t`
the divisor is converted to `int_t` and the remainder takes the sign of `product`. -/
def int_t_remainder (int_t_bits : Nat) (product : Int) (divisor : Nat) : Int :=
  if int_t_bits ≤ 32 then ((to_unsigned_int product % divisor : Nat) : Int)
  else Int.tmod product (divisor : Int)

/-- The binding policy of a template. -/
inductive binding_policy_t
  | BIND_ALL_UNIQUE
  | BIND_TO_HANDLE
  deriving DecidableEq, Repr

/-- The warp size chosen inside `check_invalid`: 8, 32 on a GPU, 64 on a GPU of vendor 4098. -/
def warp_size (device : Device) : Nat :=
  if device.CL_DEVICE_TYPE = CL_DEVICE_TYPE_GPU then
    if device.CL_DEVICE_VENDOR_ID = 4098 then 64 else 32
  else 8

/-- The default `base::lmem_usage`. -/
def base_lmem_usage (_ : symbolic_expressions_container) : Nat := 0

/-- The default `base::registers_usage`. -/
def base_registers_usage (_ : symbolic_expressions_container) : Nat := 0

/-- The default `base_impl::check_invalid_impl`. -/
def base_impl_check_invalid_impl (codes : validity_codes) (_ : Device)
    (_ : symbolic_expressions_container) : Int :=
  codes.TEMPLATE_VALID

/-- Function `base_impl::check_invalid`. The two virtual members it calls are arguments:
`lmem_usage` and the family hook `check_invalid_impl`; `int_t_bits` is the width of the typedef
`int_t`. The product of the local sizes is an `int_t`; in the comparisons with the `size_t`
limits of the device the `int_t` side is converted to `size_t`. -/
def check_invalid (codes : validity_codes) (int_t_bits : Nat)
    (lmem_usage : symbolic_expressions_container → Nat)
    (check_invalid_impl : Device → symbolic_expressions_container → Int)
    (p_ : parameters_type)
    (symbolic_expressions : symbolic_expressions_container) (device : Device) : Int :=
  let lmem_available := device.CL_DEVICE_LOCAL_MEM_SIZE
  let lmem_used := lmem_usage symbolic_expressions
  if lmem_used > lmem_available then codes.TEMPLATE_LOCAL_MEMORY_OVERFLOW
  else
    let max_workgroup_size := device.CL_DEVICE_MAX_WORK_GROUP_SIZE
    if to_size_t (to_int_t int_t_bits (p_.local_size_0 * p_.local_size_1))
        > max_workgroup_size then
      codes.TEMPLATE_WORK_GROUP_SIZE_OVERFLOW
    else if to_size_t p_.local_size_0 > device.max_work_item_size_0 then
      codes.TEMPLATE_LOCAL_SIZE_0_OVERFLOW
    else if to_size_t p_.local_size_1 > device.max_work_item_size_1 then
      codes.TEMPLATE_LOCAL_SIZE_1_OVERFLOW
    else if int_t_remainder int_t_bits
        (to_int_t int_t_bits (p_.local_size_0 * p_.local_size_1)) (warp_size device) > 0 then
      codes.TEMPLATE_LOCAL_SIZE_NOT_WARP_MULTIPLE
    else if p_.simd_width ≠ 1 ∧ p_.simd_width ≠ 2 ∧ p_.simd_width ≠ 4 ∧ p_.simd_width ≠ 8
        ∧ p_.simd_width ≠ 16 then
      codes.TEMPLATE_INVALID_SIMD_WIDTH
    else check_invalid_impl device symbolic_expressions

/-! ## Neutral elements and kernel names -/

/-- Function `base::neutral_element`. -/
def neutral_element (op : op_element) : Except exception String :=
  match op.type with
  | .OPERATOR_ADD_TYPE => .ok "0"
  | .OPERATOR_MULT_TYPE => .ok "1"
  | .OPERATOR_DIV_TYPE => .ok "1"
  | .OPERATOR_ELEMENT_FMAX_TYPE => .ok "-INFINITY"
  | .OPERATOR_ELEMENT_ARGFMAX_TYPE => .ok "-INFINITY"
  | .OPERATOR_ELEMENT_MAX_TYPE => .ok "-INFINITY"
  | .OPERATOR_ELEMENT_ARGMAX_TYPE => .ok "-INFINITY"
  | .OPERATOR_ELEMENT_FMIN_TYPE => .ok "INFINITY"
  | .OPERATOR_ELEMENT_ARGFMIN_TYPE => .ok "INFINITY"
  | .OPERATOR_ELEMENT_MIN_TYPE => .ok "INFINITY"
  | .OPERATOR_ELEMENT_ARGMIN_TYPE => .ok "INFINITY"
  | _ => .error (.operation_not_supported_exception
      "Unsupported reduction operator : no neutral element known")

/-- The terminating character of a C string. -/
def NUL : Char := Char.ofNat 0

/-- The `while (label>0)` loop of `fill_kernel_name`: the characters it stores through `ptr`,
in the order in which it stores them. -/
def fill_kernel_name_while (label : Nat) : List Char :=
  if 0 < label then Char.ofNat ('0'.toNat + label % 10) :: fill_kernel_name_while (label / 10) else []
termination_by label
decreasing_by omega

/-- The `for` loop of `fill_kernel_name` from index `i` on; `suffix` holds the characters of the
C string before its terminator, so `strlen(suffix)` is its length. -/
def fill_kernel_name_for (suffix : List Char) (i : Nat) : List Char :=
  if h : i < suffix.length then suffix.get ⟨i, h⟩ :: fill_kernel_name_for suffix (i + 1) else []
termination_by suffix.length - i

/-- Function `base::fill_kernel_name`: the characters stored at `ptr[0]`, `ptr[1]`, ... -/
def fill_kernel_name (label : Nat) (suffix : List Char) : List Char :=
  ['k']
    ++ (if label = 0 then ['0'] else fill_kernel_name_while label)
    ++ fill_kernel_name_for suffix 0
    ++ [NUL]

/-- The usual decimal representation of a label, most significant digit first. -/
def decimal_digits (label : Nat) : List Char := Nat.toDigits 10 label

/-! ## The binder protocol -/

/-- The virtual interface of `symbolic_binder` over the binder state `β`: `bind` tells whether
the handle is seen for the first time, `get` yields the identifier of the handle. Both may
change the binder. -/
structure symbolic_binder (β : Type) where
  bind : β → cl_mem → Bool × β
  get : β → cl_mem → Nat × β

/-- The state of the two binders built by `make_binder`. -/
structure binder_object where
  policy : binding_policy_t
  current_arg_ : Nat
  memory : List (Nat × Nat)
  deriving DecidableEq, Repr

/-- Modelled from the spec: `bind` of the two binder policies, whose code is in `binder.cpp`.
"The binder's bind operation returns whether this is the first sighting" under the per-handle
policy; under the always-unique policy every occurrence is a first one; the null handle of
scalars is never recorded. -/
def binder_object.bind (b : binder_object) (ph : cl_mem) : Bool × binder_object :=
  match b.policy, ph with
  | .BIND_ALL_UNIQUE, _ => (true, b)
  | .BIND_TO_HANDLE, none => (true, b)
  | .BIND_TO_HANDLE, some h =>
    if b.memory.any (fun e => e.1 == h) then (false, b)
    else (true, { b with memory := b.memory ++ [(h, b.current_arg_)] })

/-- Modelled from the spec: `get` of the two binder policies, whose code is in `binder.cpp`.
The table maps a buffer identity "to a monotonically increasing integer id": equal identities
resolve to the same identifier under the per-handle policy, and every occurrence gets a fresh
identifier under the always-unique policy. -/
def binder_object.get (b : binder_object) (ph : cl_mem) : Nat × binder_object :=
  match b.bind ph with
  | (true, b1) => (b1.current_arg_, { b1 with current_arg_ := b1.current_arg_ + 1 })
  | (false, b1) =>
    match ph with
    | some h => (((b1.memory.find? (fun e => e.1 == h)).map Prod.snd).getD 0, b1)
    | none => (0, b1)

/-- The method table shared by the two binders. -/
def binder_vtable : symbolic_binder binder_object where
  bind := binder_object.bind
  get := binder_object.get

/-- Function `base::make_binder`: a fresh binder of the template's policy. -/
def make_binder (binding_policy_ : binding_policy_t) : binder_object :=
  if binding_policy_ = .BIND_TO_HANDLE then
    { policy := .BIND_TO_HANDLE, current_arg_ := 0, memory := [] }
  else
    { policy := .BIND_ALL_UNIQUE, current_arg_ := 0, memory := [] }

/-- Helper `traverse_with f s visits` calls the functor `f` on the visits in order and stops at
the first one that throws; the state reached is returned with the condition thrown, if any. -/
def traverse_with {σ ν : Type} (f : σ → ν → σ × Option exception) : σ → List ν →
    σ × Option exception
  | s, [] => (s, none)
  | s, v :: vs =>
    match f s v with
    | (s1, none) => traverse_with f s1 vs
    | (s1, some e) => (s1, some e)

/-- The calls that `traverse(e, e.root(), fun, true)` (declared in `parse.h`) makes to its
functor: for each expression the sequence of `(root_idx, leaf)` it passes, every index being
one of a node of the tree. -/
abbrev traversal := (e : symbolic_expression) → List (Fin e.tree.length × leaf_t)

/-! ## Argument binding (`set_arguments_functor`) -/

/-- A value handed to `cl::Kernel::setArg`: a buffer handle, a `cl_uint`, or one of the ten
fields of a `values_holder`. -/
inductive kernel_arg
  | mem (data : cl_mem)
  | cl_uint (value : Nat)
  | int8 (value : Int)
  | uint8 (value : Nat)
  | int16 (value : Int)
  | uint16 (value : Nat)
  | int32 (value : Int)
  | uint32 (value : Nat)
  | int64 (value : Int)
  | uint64 (value : Nat)
  | float32 (bits : Nat)
  | float64 (bits : Nat)
  deriving DecidableEq, Repr

/-- The conversion `cl_uint(x)` to an unsigned 32-bit value. -/
def to_cl_uint (x : Nat) : kernel_arg := .cl_uint (x % 2 ^ 32)

/-- What a `set_arguments_functor` refers to: the binder `binder_`, the caller's cursor
`current_arg_`, and the kernel `kernel_`, kept as the list of the calls `setArg(index, value)`
made on it, oldest first. -/
structure set_arguments_functor (β : Type) where
  binder_ : β
  current_arg_ : Nat
  kernel_ : List (Nat × kernel_arg)

/-- The statement `kernel_.setArg(current_arg_++, value)`; the cursor is an `unsigned int`. -/
def set_arguments_functor.setArg_next {β : Type} (f : set_arguments_functor β)
    (value : kernel_arg) : set_arguments_functor β :=
  { f with kernel_ := f.kernel_ ++ [(f.current_arg_, value)]
           current_arg_ := (f.current_arg_ + 1) % 2 ^ 32 }

/-- Overload `set_arguments(numeric_type, values_holder const &)`. -/
def set_arguments_value {β : Type} (f : set_arguments_functor β) (dtype : numeric_type)
    (scal : values_holder) : set_arguments_functor β × Option exception :=
  match dtype with
  | .CHAR_TYPE => (f.setArg_next (.int8 scal.int8), none)
  | .UCHAR_TYPE => (f.setArg_next (.uint8 scal.uint8), none)
  | .SHORT_TYPE => (f.setArg_next (.int16 scal.int16), none)
  | .USHORT_TYPE => (f.setArg_next (.uint16 scal.uint16), none)
  | .INT_TYPE => (f.setArg_next (.int32 scal.int32), none)
  | .UINT_TYPE => (f.setArg_next (.uint32 scal.uint32), none)
  | .LONG_TYPE => (f.setArg_next (.int64 scal.int64), none)
  | .ULONG_TYPE => (f.setArg_next (.uint64 scal.uint64), none)
  | .FLOAT_TYPE => (f.setArg_next (.float32 scal.float32), none)
  | .DOUBLE_TYPE => (f.setArg_next (.float64 scal.float64), none)
  | _ => (f, some (.unknown_datatype dtype))

/-- Overload `set_arguments(array_infos const &)`. -/
def set_arguments_array {β : Type} (B : symbolic_binder β) (f : set_arguments_functor β)
    (x : array_infos) : set_arguments_functor β :=
  let is_bound := B.bind f.binder_ x.data
  let f0 : set_arguments_functor β := { f with binder_ := is_bound.2 }
  if is_bound.1 then
    let f1 := f0.setArg_next (.mem x.data)
    if x.shape1 = 1 ∧ x.shape2 = 1 then
      f1.setArg_next (to_cl_uint x.start1)
    else if x.shape1 = 1 ∨ x.shape2 = 1 then
      (f1.setArg_next (to_cl_uint (max x.start1 x.start2))).setArg_next
        (to_cl_uint (max x.stride1 x.stride2))
    else
      ((((f1.setArg_next (to_cl_uint x.ld)).setArg_next (to_cl_uint x.start1)).setArg_next
        (to_cl_uint x.start2)).setArg_next (to_cl_uint x.stride1)).setArg_next
        (to_cl_uint x.stride2)
  else f0

/-- Overload `set_arguments(repeat_infos const &)`. -/
def set_arguments_tuple {β : Type} (f : set_arguments_functor β) (i : repeat_infos) :
    set_arguments_functor β :=
  (((f.setArg_next (to_cl_uint i.sub1)).setArg_next (to_cl_uint i.sub2)).setArg_next
    (to_cl_uint i.rep1)).setArg_next (to_cl_uint i.rep2)

/-- Overload `set_arguments(lhs_rhs_element const &)`. -/
def set_arguments_element {β : Type} (B : symbolic_binder β) (f : set_arguments_functor β)
    (lhs_rhs : lhs_rhs_element) : set_arguments_functor β × Option exception :=
  match lhs_rhs.type_family with
  | .VALUE_TYPE_FAMILY => set_arguments_value f lhs_rhs.dtype lhs_rhs.vscalar
  | .ARRAY_TYPE_FAMILY => (set_arguments_array B f lhs_rhs.array, none)
  | .INFOS_TYPE_FAMILY => (set_arguments_tuple f lhs_rhs.tuple, none)
  | _ => (f, some (.invalid_exception "Unrecognized type family"))

/-- Member `set_arguments_functor::operator()`. -/
def set_arguments_functor_call {β : Type} (B : symbolic_binder β)
    (symbolic_expression : symbolic_expression) (f : set_arguments_functor β)
    (visit : Fin symbolic_expression.tree.length × leaf_t) :
    set_arguments_functor β × Option exception :=
  let root_node := symbolic_expression.tree.get visit.1
  if visit.2 = .LHS_NODE_TYPE ∧ root_node.lhs.type_family ≠ .COMPOSITE_OPERATOR_FAMILY then
    set_arguments_element B f root_node.lhs
  else if visit.2 = .RHS_NODE_TYPE ∧ root_node.rhs.type_family ≠ .COMPOSITE_OPERATOR_FAMILY then
    set_arguments_element B f root_node.rhs
  else (f, none)

/-- The loop of `base::set_arguments` over the batch, for a binder of any class: every
expression is traversed with the same functor state, and a throw ends the loop. -/
def set_arguments_loop {β : Type} (B : symbolic_binder β) (traverse : traversal) :
    set_arguments_functor β → symbolic_expressions_container →
    set_arguments_functor β × Option exception
  | f, [] => (f, none)
  | f, e :: rest =>
    match traverse_with (set_arguments_functor_call B e) f (traverse e) with
    | (f1, none) => set_arguments_loop B traverse f1 rest
    | (f1, some ex) => (f1, some ex)

/-- Function `base::set_arguments`: a fresh binder of the template's policy, then the loop. The
result holds the kernel and the cursor as the call leaves them. -/
def set_arguments (binding_policy_ : binding_policy_t) (traverse : traversal)
    (symbolic_expressions : symbolic_expressions_container)
    (kernel : List (Nat × kernel_arg)) (current_arg : Nat) :
    set_arguments_functor binder_object × Option exception :=
  set_arguments_loop binder_vtable traverse
    { binder_ := make_binder binding_policy_, current_arg_ := current_arg, kernel_ := kernel }
    symbolic_expressions

/-- The arguments `values` placed at the consecutive `unsigned int` indices that start at
`cursor`. -/
def placed_from (cursor : Nat) : List kernel_arg → List (Nat × kernel_arg)
  | [] => []
  | v :: vs => (cursor, v) :: placed_from ((cursor + 1) % 2 ^ 32) vs

/-! ## Mapping construction (`map_functor`) -/

/-- The wrapper classes that `binary_leaf<T>` is instantiated with. -/
inductive binary_leaf_class
  | mapped_vdiag
  | mapped_matrix_diag
  | mapped_matrix_row
  | mapped_matrix_column
  | mapped_scalar_reduction
  | mapped_mreduction
  | mapped_mproduct
  | mapped_repeat
  | mapped_outer
  deriving DecidableEq, Repr

/-- A codegen-binding object, as the constructor calls of `base.cpp` build it: the class and the
constructor arguments (element type name, binder identifier, and the rank tag, the tuple size
or the node of a wrapper). -/
inductive mapped_object
  | mapped_host_scalar (scalartype : String) (id : Nat)
  | mapped_array (scalartype : String) (id : Nat) (type : Char)
  | mapped_tuple (scalartype : String) (id : Nat) (size : Nat)
  | binary_leaf (T : binary_leaf_class) (scalartype : String) (id : Nat) (root_idx : Nat)
  deriving DecidableEq, Repr

/-- The key of a mapping entry: node index and role. -/
abbrev mapping_key := Nat × leaf_t

/-- A mapping (`mapping_type`, a `std::map`), kept as its entries in order of insertion. -/
abbrev mapping_type := List (mapping_key × mapped_object)

/-- The call `mapping_.insert(value_type(key, object))`: an existing key keeps its entry. -/
def mapping_insert (mapping : mapping_type) (key : mapping_key) (object : mapped_object) :
    mapping_type :=
  if mapping.any (fun entry => entry.1 == key) then mapping else mapping ++ [(key, object)]

/-- The helpers of other translation units that the map functor calls: the element type name
`numeric_type_to_string` (which may refuse a type) and the two predicates of `parse.h`. -/
structure helpers where
  numeric_type_to_string : numeric_type → Except exception String
  is_scalar_reduction : symbolic_expression_node → Bool
  is_vector_reduction : symbolic_expression_node → Bool

/-- What a `map_functor` refers to: the binder `binder_` and the mapping `mapping_`. -/
structure map_functor (β : Type) where
  binder_ : β
  mapping_ : mapping_type

/-- Overload `map_functor::create(numeric_type, values_holder)`. -/
def create_value {β : Type} (H : helpers) (B : symbolic_binder β) (binder_ : β)
    (dtype : numeric_type) (_ : values_holder) : Except exception mapped_object × β :=
  match H.numeric_type_to_string dtype with
  | .error ex => (.error ex, binder_)
  | .ok strdtype =>
    let id := B.get binder_ none
    (.ok (.mapped_host_scalar strdtype id.1), id.2)

/-- Overload `map_functor::create(array_infos const &)`. -/
def create_array {β : Type} (H : helpers) (B : symbolic_binder β) (binder_ : β)
    (a : array_infos) : Except exception mapped_object × β :=
  match H.numeric_type_to_string a.dtype with
  | .error ex => (.error ex, binder_)
  | .ok dtype =>
    let id := B.get binder_ a.data
    if a.shape1 = 1 ∧ a.shape2 = 1 then (.ok (.mapped_array dtype id.1 's'), id.2)
    else if a.shape1 > 1 ∧ a.shape2 = 1 then (.ok (.mapped_array dtype id.1 'c'), id.2)
    else if a.shape1 = 1 ∧ a.shape2 > 1 then (.ok (.mapped_array dtype id.1 'r'), id.2)
    else (.ok (.mapped_array dtype id.1 'm'), id.2)

/-- Overload `map_functor::create(repeat_infos const &)`. -/
def create_tuple {β : Type} (B : symbolic_binder β) (binder_ : β) (_ : repeat_infos) :
    Except exception mapped_object × β :=
  let id := B.get binder_ none
  (.ok (.mapped_tuple "int" id.1 4), id.2)

/-- Overload `map_functor::create(lhs_rhs_element const &)`. -/
def create_element {β : Type} (H : helpers) (B : symbolic_binder β) (binder_ : β)
    (lhs_rhs : lhs_rhs_element) : Except exception mapped_object × β :=
  match lhs_rhs.type_family with
  | .INFOS_TYPE_FAMILY => create_tuple B binder_ lhs_rhs.tuple
  | .VALUE_TYPE_FAMILY => create_value H B binder_ lhs_rhs.dtype lhs_rhs.vscalar
  | .ARRAY_TYPE_FAMILY => create_array H B binder_ lhs_rhs.array
  | _ => (.error (.c_string ""), binder_)

/-- Member `map_functor::binary_leaf<T>`. -/
def binary_leaf {β : Type} (H : helpers) (B : symbolic_binder β) (binder_ : β)
    (T : binary_leaf_class) (symbolic_expression : symbolic_expression) (root_idx : Nat) :
    Except exception mapped_object × β :=
  match H.numeric_type_to_string symbolic_expression.dtype with
  | .error ex => (.error ex, binder_)
  | .ok scalartype =>
    let id := B.get binder_ none
    (.ok (.binary_leaf T scalartype id.1 root_idx), id.2)

/-- The statement `mapping_.insert(value_type(key, created))`, where building `created` may have
changed the binder or thrown. -/
def map_functor.insert_created {β : Type} (f : map_functor β) (key : mapping_key)
    (created : Except exception mapped_object × β) : map_functor β × Option exception :=
  match created with
  | (.ok object, binder) =>
    ({ binder_ := binder, mapping_ := mapping_insert f.mapping_ key object }, none)
  | (.error ex, binder) => ({ f with binder_ := binder }, some ex)

/-- The wrapper class that `map_functor::operator()` builds for a node visited as parent, if
its operator asks for one. -/
def parent_leaf_class (H : helpers) (root_node : symbolic_expression_node) :
    Option binary_leaf_class :=
  if root_node.op.type = .OPERATOR_VDIAG_TYPE then some .mapped_vdiag
  else if root_node.op.type = .OPERATOR_MATRIX_DIAG_TYPE then some .mapped_matrix_diag
  else if root_node.op.type = .OPERATOR_MATRIX_ROW_TYPE then some .mapped_matrix_row
  else if root_node.op.type = .OPERATOR_MATRIX_COLUMN_TYPE then some .mapped_matrix_column
  else if H.is_scalar_reduction root_node then some .mapped_scalar_reduction
  else if H.is_vector_reduction root_node then some .mapped_mreduction
  else if root_node.op.type_family = .OPERATOR_MATRIX_PRODUCT_TYPE_FAMILY then
    some .mapped_mproduct
  else if root_node.op.type = .OPERATOR_REPEAT_TYPE then some .mapped_repeat
  else if root_node.op.type = .OPERATOR_OUTER_PROD_TYPE then some .mapped_outer
  else none

/-- Member `map_functor::operator()`. -/
def map_functor_call {β : Type} (H : helpers) (B : symbolic_binder β)
    (symbolic_expression : symbolic_expression) (f : map_functor β)
    (visit : Fin symbolic_expression.tree.length × leaf_t) : map_functor β × Option exception :=
  let key : mapping_key := (visit.1.val, visit.2)
  let root_node := symbolic_expression.tree.get visit.1
  if visit.2 = .LHS_NODE_TYPE ∧ root_node.lhs.type_family ≠ .COMPOSITE_OPERATOR_FAMILY then
    f.insert_created key (create_element H B f.binder_ root_node.lhs)
  else if visit.2 = .RHS_NODE_TYPE ∧ root_node.rhs.type_family ≠ .COMPOSITE_OPERATOR_FAMILY then
    f.insert_created key (create_element H B f.binder_ root_node.rhs)
  else if visit.2 = .PARENT_NODE_TYPE then
    match parent_leaf_class H root_node with
    | some T =>
      f.insert_created key (binary_leaf H B f.binder_ T symbolic_expression visit.1.val)
    | none => (f, none)
  else (f, none)

/-! ## Declared kernel parameters -/

/-- The declaration templates that the second overload of `base::generate_arguments` passes on,
keyed by binding kind. -/
def generate_arguments_accessors (data_type : String) : List (String × String) :=
  [("array0", "__global #scalartype* #pointer, uint #start,"),
   ("host_scalar", "#scalartype #name,"),
   ("array1", "__global " ++ data_type ++ "* #pointer, uint #start, uint #stride,"),
   ("array2", "__global " ++ data_type
      ++ "* #pointer, uint #ld, uint #start1, uint #start2, uint #stride1, uint #stride2,"),
   ("tuple4", "#scalartype #name0, #scalartype #name1, #scalartype #name2, #scalartype #name3,")]

/-- The number of parameters a declaration template declares: each declared parameter is closed
by a comma (the first overload of `generate_arguments` erases the last comma of the list). -/
def declared_parameters (declaration : String) : Nat := declaration.data.count ','

/-- The number of parameters declared for a binding kind, if the kind has a template. -/
def declared_parameters_of (data_type : String) (kind : String) : Option Nat :=
  ((generate_arguments_accessors data_type).lookup kind).map declared_parameters

/-! ## `generate` -/

/-- Modelled from the spec: `tools::to_string` on an `int` (header `to_string.hpp`), the decimal
text of the value, with a leading minus sign when it is negative. -/
def to_string (err : Int) : String :=
  if err < 0 then "-" ++ Nat.repr err.natAbs else Nat.repr err.natAbs

/-- A template: the members of `base` and `base_impl` that `generate` and `check_invalid` read,
and the virtual members they call. -/
structure base_impl where
  p_ : parameters_type
  binding_policy_ : binding_policy_t
  lmem_usage : symbolic_expressions_container → Nat
  check_invalid_impl : Device → symbolic_expressions_container → Int
  generate_impl : Nat → symbolic_expressions_container → List mapping_type →
    Except exception (List String)

/-- The loop of `base::generate` over the batch: expression number `i` is traversed with a map
functor on the shared binder and on entry `i` of the vector `mappings`, which starts empty. A
throw ends the loop and leaves the later entries empty. -/
def generate_loop {β : Type} (H : helpers) (B : symbolic_binder β) (traverse : traversal) :
    β → symbolic_expressions_container → (List mapping_type × β) × Option exception
  | binder, [] => (([], binder), none)
  | binder, e :: rest =>
    match traverse_with (map_functor_call H B e) { binder_ := binder, mapping_ := [] }
        (traverse e) with
    | (f1, none) =>
      let r := generate_loop H B traverse f1.binder_ rest
      ((f1.mapping_ :: r.1.1, r.1.2), r.2)
    | (f1, some ex) => ((f1.mapping_ :: rest.map (fun _ => []), f1.binder_), some ex)

/-- What a call of `generate` did: the binder it made, as the call leaves it; the vector of
mappings, as the call leaves it; the arguments of its call of `generate_impl`; and what the
caller receives. The first three are `none` when the call never came to them. -/
structure generate_outcome where
  binder : Option binder_object
  mappings : Option (List mapping_type)
  generate_impl_arguments : Option (Nat × symbolic_expressions_container × List mapping_type)
  result : Except exception (List String)

/-- Function `base::generate`. -/
def generate (codes : validity_codes) (int_t_bits : Nat) (H : helpers) (traverse : traversal)
    (T : base_impl) (label : Nat) (symbolic_expressions : symbolic_expressions_container)
    (device : Device) : generate_outcome :=
  let err := check_invalid codes int_t_bits T.lmem_usage T.check_invalid_impl T.p_
    symbolic_expressions device
  if err ≠ 0 then
    { binder := none, mappings := none, generate_impl_arguments := none,
      result := .error (.operation_not_supported_exception
        ("The supplied parameters for this template are invalid : err " ++ to_string err)) }
  else
    match generate_loop H binder_vtable traverse (make_binder T.binding_policy_)
        symbolic_expressions with
    | ((mappings, binder), none) =>
      { binder := some binder, mappings := some mappings,
        generate_impl_arguments := some (label, symbolic_expressions, mappings),
        result := T.generate_impl label symbolic_expressions mappings }
    | ((mappings, binder), some ex) =>
      { binder := some binder, mappings := some mappings, generate_impl_arguments := none,
        result := .error ex }

/-! ## Code emission utilities -/

/-- The values of `fetching_policy_type`: the two that `base.cpp` names, and
`FETCH_OTHER_POLICY tag` for every value of the enumeration that the file never names (the
`else if` of `fetching_loop_info` leaves them without a branch). -/
inductive fetching_policy_type
  | FETCH_FROM_GLOBAL_STRIDED
  | FETCH_FROM_GLOBAL_CONTIGUOUS
  | FETCH_OTHER_POLICY (tag : Nat)
  deriving DecidableEq, Repr

/-- What a `kernel_generation_stream` received, oldest first: a line closed by `std::endl`, or a
change of the indentation. -/
inductive stream_event
  | line (text : String)
  | inc_tab
  | dec_tab
  deriving DecidableEq, Repr

/-- A `kernel_generation_stream` (class of `stream.h`), kept as the record of what `base.cpp`
does to it: the events so far, and the text of the line that is still open. -/
structure kernel_generation_stream where
  emitted : List stream_event
  current : String
  deriving DecidableEq, Repr

/-- The statement `stream << text`. -/
def kernel_generation_stream.put (stream : kernel_generation_stream) (text : String) :
    kernel_generation_stream :=
  { stream with current := stream.current ++ text }

/-- The statement `stream << std::endl`. -/
def kernel_generation_stream.endl (stream : kernel_generation_stream) :
    kernel_generation_stream :=
  { emitted := stream.emitted ++ [.line stream.current], current := "" }

/-- The statement `stream.inc_tab()`. -/
def kernel_generation_stream.inc_tab (stream : kernel_generation_stream) :
    kernel_generation_stream :=
  { stream with emitted := stream.emitted ++ [.inc_tab] }

/-- The statement `stream.dec_tab()`. -/
def kernel_generation_stream.dec_tab (stream : kernel_generation_stream) :
    kernel_generation_stream :=
  { stream with emitted := stream.emitted ++ [.dec_tab] }

/-- Modelled from the spec: `tools::to_string` on an `unsigned int` (header `to_string.hpp`),
the decimal text of the value. -/
def to_string_unsigned (value : Nat) : String := Nat.repr value

/-- The stream and the three output variables as `fetching_loop_info` leaves them. -/
structure fetching_loop_outputs where
  stream : kernel_generation_stream
  init : String
  upper_bound : String
  inc : String
  deriving DecidableEq, Repr

/-- Function `base::fetching_loop_info`; `stream`, `init`, `upper_bound` and `inc` are passed
by reference and come back in the result. -/
def fetching_loop_info (policy : fetching_policy_type) (bound : String)
    (stream : kernel_generation_stream) (init upper_bound inc : String)
    (domain_id domain_size : String) : fetching_loop_outputs :=
  if policy = .FETCH_FROM_GLOBAL_STRIDED then
    { stream := stream, init := domain_id, upper_bound := bound, inc := domain_size }
  else if policy = .FETCH_FROM_GLOBAL_CONTIGUOUS then
    let chunk_size := "chunk_size"
    let chunk_start := "chunk_start"
    let chunk_end := "chunk_end"
    let stream1 :=
      (((((((((stream.put "unsigned int ").put chunk_size).put " = (").put bound).put
        "+").put domain_size).put "-1)/").put domain_size).put ";").endl
    let stream2 :=
      (((((((stream1.put "unsigned int ").put chunk_start).put " =").put
        domain_id).put "*").put chunk_size).put ";").endl
    let stream3 :=
      (((((((((stream2.put "unsigned int ").put chunk_end).put " = min(").put
        chunk_start).put "+").put chunk_size).put ", ").put bound).put ");").endl
    { stream := stream3, init := chunk_start, upper_bound := chunk_end, inc := "1" }
  else
    { stream := stream, init := init, upper_bound := upper_bound, inc := inc }

/-- Function `base::element_wise_loop_1D`; `loop_body` is the functor `loop_body_base`, which
writes the body for a given width to the stream. -/
def element_wise_loop_1D (stream : kernel_generation_stream)
    (loop_body : kernel_generation_stream → Nat → kernel_generation_stream)
    (fetch : fetching_policy_type) (simd_width : Nat) (i bound domain_id domain_size : String) :
    kernel_generation_stream :=
  let strwidth := to_string_unsigned simd_width
  let boundround := bound ++ "/" ++ strwidth
  let info := fetching_loop_info fetch boundround stream "" "" "" domain_id domain_size
  let stream1 :=
    (((((((((((((info.stream.put "for(unsigned int ").put i).put " = ").put
      info.init).put "; ").put i).put " < ").put info.upper_bound).put "; ").put i).put
      " += ").put info.inc).put ")").endl
  let stream2 := (stream1.put "\x7b").endl
  let stream3 := stream2.inc_tab
  let stream4 := loop_body stream3 simd_width
  let stream5 := stream4.dec_tab
  let stream6 := (stream5.put "\x7d").endl
  if simd_width > 1 then
    let stream7 :=
      (((((((((((((((stream6.put "for(unsigned int ").put i).put " = ").put
        boundround).put "*").put strwidth).put " + ").put domain_id).put "; ").put
        i).put " < ").put bound).put "; ").put i).put
        (" += " ++ domain_size ++ ")")).endl
    let stream8 := (stream7.put "\x7b").endl
    let stream9 := stream8.inc_tab
    let stream10 := loop_body stream9 1
    let stream11 := stream10.dec_tab
    (stream11.put "\x7d").endl
  else stream6

/-- Function `base::compute_index_reduction`. -/
def compute_index_reduction (os : kernel_generation_stream) (acc cur acc_value cur_value : String)
    (op : op_element) : kernel_generation_stream :=
  let os1 :=
    ((((((((((os.put acc).put "= select(").put acc).put ",").put cur).put ",").put
      cur_value).put ">").put acc_value).put ");").endl
  let os2 := (os1.put acc_value).put "="
  let os3 := if op.type = .OPERATOR_ELEMENT_ARGFMAX_TYPE then os2.put "fmax" else os2
  let os4 := if op.type = .OPERATOR_ELEMENT_ARGMAX_TYPE then os3.put "max" else os3
  let os5 := if op.type = .OPERATOR_ELEMENT_ARGFMIN_TYPE then os4.put "fmin" else os4
  let os6 := if op.type = .OPERATOR_ELEMENT_ARGMIN_TYPE then os5.put "min" else os5
  (((((os6.put "(").put acc_value).put ",").put cur_value).put ");").endl

/-- Function `base::append_width`. -/
def append_width (str : String) (width : Nat) : String :=
  if width = 1 then str else str ++ to_string_unsigned width

/-- Function `base::vstore`. -/
def vstore (simd_width : Nat) (value offset ptr : String) : String :=
  if simd_width = 1 then "(" ++ ptr ++ ")[" ++ offset ++ "] = " ++ value
  else append_width "vstore" simd_width ++ "(" ++ value ++ ", " ++ offset ++ ", " ++ ptr ++ ")"

/-- Function `base::vload`. -/
def vload (simd_width : Nat) (offset ptr : String) : String :=
  if simd_width = 1 then "(" ++ ptr ++ ")[" ++ offset ++ "]"
  else append_width "vload" simd_width ++ "(" ++ offset ++ ", " ++ ptr ++ ")"

/-- Function `base::align` on `unsigned int`: the sum, the subtraction and the product wrap
modulo `2^32`. The arguments are values of `unsigned int`, and `base` is not 0. -/
def align (to_round base : Nat) : Nat :=
  if to_round % base = 0 then to_round
  else
    let sum := (to_round + base) % 2 ^ 32
    let minus_one := (sum + 2 ^ 32 - 1) % 2 ^ 32
    (minus_one / base * base) % 2 ^ 32

/-! ## Transposition of a node -/

/-- What a run of `is_node_trans` comes to: it returns `res`, or it reads the container outside
its range, or its loop has not ended after the iterations allowed to it. -/
inductive is_node_trans_result
  | returned (res : Bool)
  | out_of_range
  | unfinished
  deriving DecidableEq, Repr

/-- The operand that the member pointer `ptr` of `is_node_trans` selects in a node: `lhs` for
the role `LHS_NODE_TYPE`, `rhs` for every other role. -/
def is_node_trans_ptr (leaf_type : leaf_t) (node : symbolic_expression_node) : lhs_rhs_element :=
  if leaf_type = .LHS_NODE_TYPE then node.lhs else node.rhs

/-- The `while` loop of `is_node_trans`, started at `node` with the value `res`; `fuel` is the
number of iterations of the body that the run may make. -/
def is_node_trans_while (array : List symbolic_expression_node) (leaf_type : leaf_t) :
    Nat → symbolic_expression_node → Bool → is_node_trans_result
  | 0, node, res =>
    if (is_node_trans_ptr leaf_type node).type_family = .COMPOSITE_OPERATOR_FAMILY then
      .unfinished
    else .returned res
  | fuel + 1, node, res =>
    if (is_node_trans_ptr leaf_type node).type_family = .COMPOSITE_OPERATOR_FAMILY then
      match array[(is_node_trans_ptr leaf_type node).node_index]? with
      | none => .out_of_range
      | some next =>
        is_node_trans_while array leaf_type fuel next
          (if next.op.type = .OPERATOR_TRANS_TYPE then !res else res)
    else .returned res

/-- Function `base::is_node_trans`. -/
def is_node_trans (array : List symbolic_expression_node) (root_idx : Nat) (leaf_type : leaf_t)
    (fuel : Nat) : is_node_trans_result :=
  match array[root_idx]? with
  | none => .out_of_range
  | some node => is_node_trans_while array leaf_type fuel node false

/-! ## Vocabulary of the statements -/

/-- The cursor after `k` statements `setArg(current_arg_++, _)` started at `cursor`. -/
def cursor_after (cursor : Nat) : Nat → Nat
  | 0 => cursor
  | k + 1 => cursor_after ((cursor + 1) % 2 ^ 32) k

/-- The calls of `setArg` made between two states of a bind functor. -/
def written {β : Type} (before after : set_arguments_functor β) : List (Nat × kernel_arg) :=
  after.kernel_.drop before.kernel_.length

/-- Between `before` and `after` the kernel only received new arguments, and, when the cursor
stays in the range of `unsigned int`, the `k` arguments written went to the indices `c`, `c+1`,
..., `c+k-1` in that order and the cursor moved from `c` to `c+k`. -/
def written_consecutively {β : Type} (before after : set_arguments_functor β) : Prop :=
  after.kernel_ = before.kernel_ ++ written before after
  ∧ (before.current_arg_ + (written before after).length < 2 ^ 32 →
      (written before after).map Prod.fst
          = List.range' before.current_arg_ (written before after).length
        ∧ after.current_arg_ = before.current_arg_ + (written before after).length)

/-- The rank tag that the spec gives an array by its shape: `(1,1)` scalar-shaped, `(>1,1)`
column, `(1,>1)` row, else matrix. -/
def rank_tag (shape1 shape2 : Nat) : Char :=
  if shape1 = 1 ∧ shape2 = 1 then 's'
  else if 1 < shape1 ∧ shape2 = 1 then 'c'
  else if shape1 = 1 ∧ 1 < shape2 then 'r'
  else 'm'

/-- The offset and stride fields that the spec lists after the device pointer of an array:
scalar `(start)`, vector `(start, stride)`, matrix `(ld, start1, start2, stride1, stride2)`,
each as an unsigned 32-bit value; a vector has exactly one extent equal to 1. -/
def rank_fields (x : array_infos) : List kernel_arg :=
  if x.shape1 = 1 ∧ x.shape2 = 1 then [.cl_uint (x.start1 % 2 ^ 32)]
  else if (x.shape1 = 1 ∧ x.shape2 ≠ 1) ∨ (x.shape1 ≠ 1 ∧ x.shape2 = 1) then
    [.cl_uint (max x.start1 x.start2 % 2 ^ 32), .cl_uint (max x.stride1 x.stride2 % 2 ^ 32)]
  else
    [.cl_uint (x.ld % 2 ^ 32), .cl_uint (x.start1 % 2 ^ 32), .cl_uint (x.start2 % 2 ^ 32),
     .cl_uint (x.stride1 % 2 ^ 32), .cl_uint (x.stride2 % 2 ^ 32)]

/-- The relation kept by every piece of the bind traversal: the kernel received the values
`vs` at the cursor, and the cursor was post-incremented once per value. -/
def appended {β : Type} (before after : set_arguments_functor β) (vs : List kernel_arg) : Prop :=
  after.kernel_ = before.kernel_ ++ placed_from before.current_arg_ vs
  ∧ after.current_arg_ = cursor_after before.current_arg_ vs.length

/-- A whole line sent to a stream: `stream << text << std::endl`. -/
def emit_line (stream : kernel_generation_stream) (text : String) : kernel_generation_stream :=
  (stream.put text).endl

/-- A loop sent to a stream: the header `for(unsigned int i = init; i < upper_bound; i += inc)`,
an opening brace, the body of the given width one tab deeper, and a closing brace. -/
def emit_loop (stream : kernel_generation_stream) (i init upper_bound inc : String)
    (loop_body : kernel_generation_stream → Nat → kernel_generation_stream) (width : Nat) :
    kernel_generation_stream :=
  let header := emit_line stream ("for(unsigned int " ++ i ++ " = " ++ init ++ "; " ++ i ++ " < "
    ++ upper_bound ++ "; " ++ i ++ " += " ++ inc ++ ")")
  let opened := (emit_line header "\x7b").inc_tab
  emit_line (loop_body opened width).dec_tab "\x7d"

/-- The field of a value holder that matches an element type, for the ten supported types. -/
def matching_field (dtype : numeric_type) (scal : values_holder) : Option kernel_arg :=
  match dtype with
  | .CHAR_TYPE => some (.int8 scal.int8)
  | .UCHAR_TYPE => some (.uint8 scal.uint8)
  | .SHORT_TYPE => some (.int16 scal.int16)
  | .USHORT_TYPE => some (.uint16 scal.uint16)
  | .INT_TYPE => some (.int32 scal.int32)
  | .UINT_TYPE => some (.uint32 scal.uint32)
  | .LONG_TYPE => some (.int64 scal.int64)
  | .ULONG_TYPE => some (.uint64 scal.uint64)
  | .FLOAT_TYPE => some (.float32 scal.float32)
  | .DOUBLE_TYPE => some (.float64 scal.float64)
  | .INVALID_NUMERIC_TYPE => none

/-! ### Reading the emitted expressions as arithmetic -/

/-- The three texts that a caller hands to `fetching_loop_info` and `element_wise_loop_1D`. -/
inductive caller_text
  | bound
  | domain_id
  | domain_size
  deriving DecidableEq, Repr

/-- The four operators of the emitted expressions. -/
inductive c_operator
  | plus
  | minus
  | times
  | over
  deriving DecidableEq, Repr

/-- The character of an operator. -/
def c_operator.symbol : c_operator → String
  | .plus => "+"
  | .minus => "-"
  | .times => "*"
  | .over => "/"

/-- An operator on natural numbers. -/
def c_operator.apply : c_operator → Nat → Nat → Nat
  | .plus, a, b => a + b
  | .minus, a, b => a - b
  | .times, a, b => a * b
  | .over, a, b => a / b

/-- The expressions that `base.cpp` emits for loop bounds, as terms: a text of the caller, a
variable declared by the emitted code, a literal, a parenthesis, a binary operation (written
with or without blanks around the operator) and a call of `min`. -/
inductive c_expr
  | given (text : caller_text)
  | declared (name : String)
  | literal (value : Nat)
  | paren (inner : c_expr)
  | binary (left : c_expr) (op : c_operator) (spaced : Bool) (right : c_expr)
  | minimum (left right : c_expr)
  deriving DecidableEq, Repr

/-- The text of a term, for given texts of the caller. -/
def c_expr.render (texts : caller_text → String) : c_expr → String
  | .given text => texts text
  | .declared name => name
  | .literal value => Nat.repr value
  | .paren inner => "(" ++ inner.render texts ++ ")"
  | .binary left op spaced right =>
    left.render texts ++ (if spaced then " " ++ op.symbol ++ " " else op.symbol)
      ++ right.render texts
  | .minimum left right => "min(" ++ left.render texts ++ ", " ++ right.render texts ++ ")"

/-- The value of a term in natural-number arithmetic, for given values of the texts of the
caller and of the declared variables. -/
def c_expr.eval (values : caller_text → Nat) (scope : String → Nat) : c_expr → Nat
  | .given text => values text
  | .declared name => scope name
  | .literal value => value
  | .paren inner => inner.eval values scope
  | .binary left op _ right => op.apply (left.eval values scope) (right.eval values scope)
  | .minimum left right => min (left.eval values scope) (right.eval values scope)

/-- The variables after a declaration `unsigned int name = value;`. -/
def declare (scope : String → Nat) (name : String) (value : Nat) : String → Nat :=
  fun x => if x = name then value else scope x

/-- The values of the three texts of the caller. -/
def caller_values (bound domain_id domain_size : Nat) : caller_text → Nat
  | .bound => bound
  | .domain_id => domain_id
  | .domain_size => domain_size

/-- The term emitted for `chunk_size`: `(bound+domain_size-1)/domain_size`. -/
def chunk_size_expr : c_expr :=
  .binary (.paren (.binary (.binary (.given .bound) .plus false (.given .domain_size)) .minus
    false (.literal 1))) .over false (.given .domain_size)

/-- The term emitted for `chunk_start`: `domain_id*chunk_size`. -/
def chunk_start_expr : c_expr :=
  .binary (.given .domain_id) .times false (.declared "chunk_size")

/-- The term emitted for `chunk_end`: `min(chunk_start+chunk_size, bound)`. -/
def chunk_end_expr : c_expr :=
  .minimum (.binary (.declared "chunk_start") .plus false (.declared "chunk_size"))
    (.given .bound)

/-- The term emitted for the start of the remainder loop of `element_wise_loop_1D`:
`bound/width*width + domain_id`. -/
def remainder_init_expr (simd_width : Nat) : c_expr :=
  .binary (.binary (.binary (.given .bound) .over false (.literal simd_width)) .times false
    (.literal simd_width)) .plus true (.given .domain_id)

/-- The values that the variable of `for(unsigned int i = init; i < upper_bound; i += inc)`
takes, in order, within `fuel` iterations from the value `i`. -/
def for_loop_fuel (upper_bound inc : Nat) : Nat → Nat → List Nat
  | 0, _ => []
  | fuel + 1, i =>
    if i < upper_bound then i :: for_loop_fuel upper_bound inc fuel (i + inc) else []

/-- The values that the variable of `for(unsigned int i = init; i < upper_bound; i += inc)`
takes, in order, in natural-number arithmetic. For a positive increment `upper_bound - init`
iterations are never exceeded. -/
def for_loop (init upper_bound inc : Nat) : List Nat :=
  for_loop_fuel upper_bound inc (upper_bound - init) init

/-- The indices visited by the worker `domain_id` in the loop that the strided policy yields. -/
def strided_visits (bound domain_id domain_size : Nat) : List Nat :=
  let values := caller_values bound domain_id domain_size
  let scope : String → Nat := fun _ => 0
  for_loop ((c_expr.given .domain_id).eval values scope)
    ((c_expr.given .bound).eval values scope)
    ((c_expr.given .domain_size).eval values scope)

/-- The variables after the three declarations that the contiguous policy emits. -/
def contiguous_variables (bound domain_id domain_size : Nat) : String → Nat :=
  let values := caller_values bound domain_id domain_size
  let scope0 : String → Nat := fun _ => 0
  let scope1 := declare scope0 "chunk_size" (chunk_size_expr.eval values scope0)
  let scope2 := declare scope1 "chunk_start" (chunk_start_expr.eval values scope1)
  declare scope2 "chunk_end" (chunk_end_expr.eval values scope2)

/-- The indices visited by the worker `domain_id` in the loop that the contiguous policy
yields, after its three declarations. -/
def contiguous_visits (bound domain_id domain_size : Nat) : List Nat :=
  let values := caller_values bound domain_id domain_size
  let scope := contiguous_variables bound domain_id domain_size
  for_loop ((c_expr.declared "chunk_start").eval values scope)
    ((c_expr.declared "chunk_end").eval values scope)
    ((c_expr.literal 1).eval values scope)

/-- The indices visited by the worker `domain_id` in the remainder loop of
`element_wise_loop_1D`. -/
def remainder_visits (bound simd_width domain_id domain_size : Nat) : List Nat :=
  let values := caller_values bound domain_id domain_size
  let scope : String → Nat := fun _ => 0
  for_loop ((remainder_init_expr simd_width).eval values scope)
    ((c_expr.given .bound).eval values scope)
    ((c_expr.given .domain_size).eval values scope)

/-- The indices visited by all the workers `0`, ..., `domain_size - 1`, worker after worker. -/
def all_workers (domain_size : Nat) (visits : Nat → List Nat) : List Nat :=
  (List.range domain_size).flatMap visits

/-! ### The chain of composite operands -/

/-- The indices of the nodes reached from `node` by following the composite operand of the
chosen side again and again, `steps` of them at most. -/
def followed_nodes (array : List symbolic_expression_node) (leaf_type : leaf_t) :
    Nat → symbolic_expression_node → List Nat
  | 0, _ => []
  | steps + 1, node =>
    if (is_node_trans_ptr leaf_type node).type_family = .COMPOSITE_OPERATOR_FAMILY then
      (is_node_trans_ptr leaf_type node).node_index ::
        (match array[(is_node_trans_ptr leaf_type node).node_index]? with
         | some next => followed_nodes array leaf_type steps next
         | none => [])
    else []

/-- The chain reached from the node `root_idx`, the root itself not included; a chain that never
revisits a node has fewer nodes than the tree. -/
def chain_from_root (array : List symbolic_expression_node) (root_idx : Nat)
    (leaf_type : leaf_t) : List Nat :=
  match array[root_idx]? with
  | some node => followed_nodes array leaf_type array.length node
  | none => []

/-- Whether the node at `index` carries the transpose operator. -/
def is_transpose_node (array : List symbolic_expression_node) (index : Nat) : Bool :=
  match array[index]? with
  | some node => decide (node.op.type = .OPERATOR_TRANS_TYPE)
  | none => false

/-- The number of transpose nodes on the chain reached from the root. -/
def transposes_on_chain (array : List symbolic_expression_node) (root_idx : Nat)
    (leaf_type : leaf_t) : Nat :=
  (chain_from_root array root_idx leaf_type).countP (is_transpose_node array)

/-! ### Reading the emitted index reduction -/

/-- The four names that a caller hands to `compute_index_reduction`. -/
inductive reduction_text
  | acc
  | cur
  | acc_value
  | cur_value
  deriving DecidableEq, Repr

/-- The four primitives that `compute_index_reduction` can name. -/
inductive reduction_primitive
  | fmax
  | max
  | fmin
  | min
  deriving DecidableEq, Repr

/-- The name of a primitive in the emitted text. -/
def reduction_primitive.name : reduction_primitive → String
  | .fmax => "fmax"
  | .max => "max"
  | .fmin => "fmin"
  | .min => "min"

/-- The primitive on numbers: the greater of two values for `fmax` and `max`, the smaller one
for `fmin` and `min`. -/
def reduction_primitive.apply : reduction_primitive → Int → Int → Int
  | .fmax, a, b => Max.max a b
  | .max, a, b => Max.max a b
  | .fmin, a, b => Min.min a b
  | .min, a, b => Min.min a b

/-- The primitive that goes with each of the four index-reduction operators. -/
def index_reduction_primitive (op : op_element) : Option reduction_primitive :=
  match op.type with
  | .OPERATOR_ELEMENT_ARGFMAX_TYPE => some .fmax
  | .OPERATOR_ELEMENT_ARGMAX_TYPE => some .max
  | .OPERATOR_ELEMENT_ARGFMIN_TYPE => some .fmin
  | .OPERATOR_ELEMENT_ARGMIN_TYPE => some .min
  | _ => none

/-- The expressions of the two statements that `compute_index_reduction` emits, as terms: a
name of the caller, a comparison `left>right`, a call `select(a,b,c)` and a call of a
primitive. -/
inductive reduction_expr
  | name (text : reduction_text)
  | greater (left right : reduction_expr)
  | select (a b c : reduction_expr)
  | call (primitive : reduction_primitive) (left right : reduction_expr)
  deriving DecidableEq, Repr

/-- The text of a term, for given names of the caller. -/
def reduction_expr.render (texts : reduction_text → String) : reduction_expr → String
  | .name text => texts text
  | .greater left right => left.render texts ++ ">" ++ right.render texts
  | .select a b c =>
    "select(" ++ a.render texts ++ "," ++ b.render texts ++ "," ++ c.render texts ++ ")"
  | .call primitive left right =>
    primitive.name ++ "(" ++ left.render texts ++ "," ++ right.render texts ++ ")"

/-- The value of a term on numbers: a comparison is 1 when it holds and 0 otherwise, and
`select(a,b,c)` is `b` when `c` is not 0 and `a` otherwise. -/
def reduction_expr.eval (values : reduction_text → Int) : reduction_expr → Int
  | .name text => values text
  | .greater left right => if left.eval values > right.eval values then 1 else 0
  | .select a b c => if c.eval values ≠ 0 then b.eval values else a.eval values
  | .call primitive left right => primitive.apply (left.eval values) (right.eval values)

/-- The term assigned to `acc`: `select(acc,cur,cur_value>acc_value)`. -/
def select_expr : reduction_expr :=
  .select (.name .acc) (.name .cur) (.greater (.name .cur_value) (.name .acc_value))

/-- The term assigned to `acc_value`: `P(acc_value,cur_value)`. -/
def update_expr (primitive : reduction_primitive) : reduction_expr :=
  .call primitive (.name .acc_value) (.name .cur_value)

/-- The values of the four names after an assignment to one of them. -/
def assign (values : reduction_text → Int) (target : reduction_text) (value : Int) :
    reduction_text → Int :=
  fun text => if text = target then value else values text

/-- The values of the four names after the two emitted statements, read on numbers: first
`acc = select(acc,cur,cur_value>acc_value);`, then `acc_value = P(acc_value,cur_value);`. -/
def after_index_reduction (primitive : reduction_primitive) (values : reduction_text → Int) :
    reduction_text → Int :=
  let values1 := assign values .acc (select_expr.eval values)
  assign values1 .acc_value ((update_expr primitive).eval values1)

/-- The values of the four names: index accumulator, current index, accumulated value, current
value. -/
def reduction_values (acc cur acc_value cur_value : Int) : reduction_text → Int
  | .acc => acc
  | .cur => cur
  | .acc_value => acc_value
  | .cur_value => cur_value

/-- The texts of the four names, as a caller of `compute_index_reduction` hands them over. -/
def reduction_names (acc cur acc_value cur_value : String) : reduction_text → String
  | .acc => acc
  | .cur => cur
  | .acc_value => acc_value
  | .cur_value => cur_value

/-! ### A tree with transposed operands -/

/-- An operand that refers to the node `node_index` of the tree. -/
def composite_operand (node_index : Nat) : lhs_rhs_element :=
  { type_family := .COMPOSITE_OPERATOR_FAMILY, dtype := .FLOAT_TYPE, node_index := node_index,
    vscalar := ⟨0, 0, 0, 0, 0, 0, 0, 0, 0, 0⟩, array := ⟨.FLOAT_TYPE, none, 1, 1, 0, 0, 1, 1, 1⟩,
    tuple := ⟨0, 0, 0, 0⟩ }

/-- An operand that is the array of 4 by 4 elements on the buffer `data`. -/
def array_operand (data : Nat) : lhs_rhs_element :=
  { type_family := .ARRAY_TYPE_FAMILY, dtype := .FLOAT_TYPE, node_index := 0,
    vscalar := ⟨0, 0, 0, 0, 0, 0, 0, 0, 0, 0⟩,
    array := ⟨.FLOAT_TYPE, some data, 4, 4, 0, 0, 1, 1, 4⟩, tuple := ⟨0, 0, 0, 0⟩ }

/-- The operand that a unary operator leaves empty. -/
def invalid_operand : lhs_rhs_element :=
  { type_family := .INVALID_TYPE_FAMILY, dtype := .FLOAT_TYPE, node_index := 0,
    vscalar := ⟨0, 0, 0, 0, 0, 0, 0, 0, 0, 0⟩, array := ⟨.FLOAT_TYPE, none, 1, 1, 0, 0, 1, 1, 1⟩,
    tuple := ⟨0, 0, 0, 0⟩ }

/-- The tree of `trans(A * B) + trans(trans(C))`: node 0 is the sum, node 1 the transpose of
the product at node 2, node 3 the transpose of the transpose at node 4. -/
def transposed_operands_tree : List symbolic_expression_node :=
  [ ⟨composite_operand 1, ⟨.OPERATOR_OTHER_TYPE_FAMILY 0, .OPERATOR_ADD_TYPE⟩,
      composite_operand 3⟩,
    ⟨composite_operand 2, ⟨.OPERATOR_OTHER_TYPE_FAMILY 0, .OPERATOR_TRANS_TYPE⟩,
      invalid_operand⟩,
    ⟨array_operand 7, ⟨.OPERATOR_OTHER_TYPE_FAMILY 0, .OPERATOR_MULT_TYPE⟩, array_operand 8⟩,
    ⟨composite_operand 4, ⟨.OPERATOR_OTHER_TYPE_FAMILY 0, .OPERATOR_TRANS_TYPE⟩,
      invalid_operand⟩,
    ⟨array_operand 9, ⟨.OPERATOR_OTHER_TYPE_FAMILY 0, .OPERATOR_TRANS_TYPE⟩, invalid_operand⟩ ]

/-! ### Operands of a visit and work of the map functor -/

/-- The record of the first `k` traversals of a batch, none of which threw: traversal `i` runs
the map functor over expression `i`, on an empty mapping and on the binder `binders[i]`; it
builds `mappings[i]` and leaves the binder `binders[i+1]`. -/
def traversals_thread {β : Type} (H : helpers) (B : symbolic_binder β) (traverse : traversal)
    (symbolic_expressions : symbolic_expressions_container) (k : Nat) (binders : List β)
    (mappings : List mapping_type) : Prop :=
  binders.length = k + 1 ∧ mappings.length = k
  ∧ ∀ i : Nat, i < k → ∃ (e : symbolic_expression) (binder binder1 : β) (mapping : mapping_type),
      symbolic_expressions[i]? = some e ∧ binders[i]? = some binder
      ∧ binders[i + 1]? = some binder1 ∧ mappings[i]? = some mapping
      ∧ traverse_with (map_functor_call H B e) { binder_ := binder, mapping_ := [] }
          (traverse e) = ({ binder_ := binder1, mapping_ := mapping }, none)

/-! ### A batch of two sums -/

/-- The validity codes `0, -1, ..., -6`. -/
def example_codes : validity_codes := ⟨0, -1, -2, -3, -4, -5, -6, by decide⟩

/-- A GPU of another vendor than 4098 with limits `(1024; 1024, 1024, 64)`. -/
def example_device : Device :=
  ⟨32768, 1024, [1024, 1024, 64], CL_DEVICE_TYPE_GPU, 4318, by decide⟩

/-- Helpers that name the element types as OpenCL does and refuse the invalid type; no node is
a reduction. -/
def example_helpers : helpers where
  numeric_type_to_string := fun dtype =>
    match dtype with
    | .INVALID_NUMERIC_TYPE => .error (.unknown_datatype dtype)
    | .CHAR_TYPE => .ok "char"
    | .UCHAR_TYPE => .ok "uchar"
    | .SHORT_TYPE => .ok "short"
    | .USHORT_TYPE => .ok "ushort"
    | .INT_TYPE => .ok "int"
    | .UINT_TYPE => .ok "uint"
    | .LONG_TYPE => .ok "long"
    | .ULONG_TYPE => .ok "ulong"
    | .FLOAT_TYPE => .ok "float"
    | .DOUBLE_TYPE => .ok "double"
  is_scalar_reduction := fun _ => false
  is_vector_reduction := fun _ => false

/-- A traversal that visits the root node of every expression as left operand, as parent and
as right operand. -/
def visit_root : traversal := fun e =>
  if h : 0 < e.tree.length then
    [(⟨0, h⟩, .LHS_NODE_TYPE), (⟨0, h⟩, .PARENT_NODE_TYPE), (⟨0, h⟩, .RHS_NODE_TYPE)]
  else []

/-- The expression `A + B` of the arrays on the buffers `a` and `b`. -/
def sum_of_arrays (a b : Nat) : symbolic_expression :=
  { tree := [⟨array_operand a, ⟨.OPERATOR_OTHER_TYPE_FAMILY 0, .OPERATOR_ADD_TYPE⟩,
      array_operand b⟩],
    root := 0, dtype := .FLOAT_TYPE }

/-- The expression `trans(A)` of the array on the buffer `a`, whose right operand is empty. -/
def transposed_array (a : Nat) : symbolic_expression :=
  { tree := [⟨array_operand a, ⟨.OPERATOR_OTHER_TYPE_FAMILY 0, .OPERATOR_TRANS_TYPE⟩,
      invalid_operand⟩],
    root := 0, dtype := .FLOAT_TYPE }

/-- A template with valid parameters for `example_device`, the per-handle binder, the default
hooks, and a `generate_impl` that returns one source per mapping. -/
def example_template : base_impl where
  p_ := ⟨1, 16, 16, 1⟩
  binding_policy_ := .BIND_TO_HANDLE
  lmem_usage := base_lmem_usage
  check_invalid_impl := base_impl_check_invalid_impl example_codes
  generate_impl := fun _ _ mappings => .ok (mappings.map (fun _ => "__kernel"))

end atidlas

/-! # Theorems -/

namespace atidlas

/-! ## Validation ordering -/

/-- A representable value is stored unchanged in an `int_t`. -/
theorem to_int_t_of_representable (int_t_bits : Nat)
    (h_bits : int_t_bits = 32 ∨ int_t_bits = 64) (x : Int) (h0 : 0 ≤ x)
    (h : x < 2 ^ (int_t_bits - 1)) : to_int_t int_t_bits x = x := by
  rcases h_bits with rfl | rfl <;> simp only [to_int_t] <;> norm_num at h ⊢ <;> omega

/-- A representable value that is not negative is converted unchanged to `size_t`. -/
theorem to_size_t_of_representable (int_t_bits : Nat)
    (h_bits : int_t_bits = 32 ∨ int_t_bits = 64) (x : Int) (h0 : 0 ≤ x)
    (h : x < 2 ^ (int_t_bits - 1)) : ((to_size_t x : Nat) : Int) = x := by
  rcases h_bits with rfl | rfl <;> simp only [to_size_t] <;> norm_num at h ⊢ <;> omega

/-- For a representable value that is not negative the remainder computed by the machine is
the remainder of the integers, for both widths of `int_t`. -/
theorem int_t_remainder_of_representable (int_t_bits : Nat)
    (h_bits : int_t_bits = 32 ∨ int_t_bits = 64) (x : Int) (h0 : 0 ≤ x)
    (h : x < 2 ^ (int_t_bits - 1)) (divisor : Nat) :
    int_t_remainder int_t_bits x divisor = x % (divisor : Int) := by
  rcases h_bits with rfl | rfl
  · norm_num at h
    have hx : to_unsigned_int x = x.toNat := by
      simp only [to_unsigned_int]
      congr 1
      norm_num
      omega
    simp only [int_t_remainder, hx]
    rw [if_pos (by decide), Int.natCast_mod, Int.toNat_of_nonneg h0]
  · simp only [int_t_remainder]
    rw [if_neg (by decide)]
    exact Int.tmod_eq_emod h0 (Int.ofNat_nonneg _)

/-- The warp size is 8, 32 or 64, so it is not 0. -/
theorem warp_size_pos (device : Device) : 0 < warp_size device := by
  unfold warp_size
  split_ifs <;> decide

/-- The checks of `check_invalid` on local sizes that are not negative and whose product is
representable in `int_t`: each test of the machine is the test on the integers. -/
theorem check_invalid_of_representable (codes : validity_codes) (int_t_bits : Nat)
    (lmem_usage : symbolic_expressions_container → Nat)
    (check_invalid_impl : Device → symbolic_expressions_container → Int)
    (p_ : parameters_type) (symbolic_expressions : symbolic_expressions_container)
    (device : Device) (h_bits : int_t_bits = 32 ∨ int_t_bits = 64)
    (h0 : 0 ≤ p_.local_size_0) (h1 : 0 ≤ p_.local_size_1)
    (hproduct : p_.local_size_0 * p_.local_size_1 < 2 ^ (int_t_bits - 1)) :
    check_invalid codes int_t_bits lmem_usage check_invalid_impl p_ symbolic_expressions device
      = (if lmem_usage symbolic_expressions > device.CL_DEVICE_LOCAL_MEM_SIZE then
          codes.TEMPLATE_LOCAL_MEMORY_OVERFLOW
        else if p_.local_size_0 * p_.local_size_1
            > (device.CL_DEVICE_MAX_WORK_GROUP_SIZE : Int) then
          codes.TEMPLATE_WORK_GROUP_SIZE_OVERFLOW
        else if to_size_t p_.local_size_0 > device.max_work_item_size_0 then
          codes.TEMPLATE_LOCAL_SIZE_0_OVERFLOW
        else if to_size_t p_.local_size_1 > device.max_work_item_size_1 then
          codes.TEMPLATE_LOCAL_SIZE_1_OVERFLOW
        else if ¬ (warp_size device : Int) ∣ p_.local_size_0 * p_.local_size_1 then
          codes.TEMPLATE_LOCAL_SIZE_NOT_WARP_MULTIPLE
        else if p_.simd_width ∉ [1, 2, 4, 8, 16] then codes.TEMPLATE_INVALID_SIMD_WIDTH
        else check_invalid_impl device symbolic_expressions) := by
  have hq0 : 0 ≤ p_.local_size_0 * p_.local_size_1 := Int.mul_nonneg h0 h1
  have hstore := to_int_t_of_representable int_t_bits h_bits _ hq0 hproduct
  have hsize := to_size_t_of_representable int_t_bits h_bits _ hq0 hproduct
  have hrem := int_t_remainder_of_representable int_t_bits h_bits _ hq0 hproduct
    (warp_size device)
  have hnonneg := Int.emod_nonneg (p_.local_size_0 * p_.local_size_1)
    (Int.natCast_ne_zero.2 (Nat.pos_iff_ne_zero.1 (warp_size_pos device)))
  have hgroup : to_size_t (p_.local_size_0 * p_.local_size_1)
        > device.CL_DEVICE_MAX_WORK_GROUP_SIZE
      ↔ p_.local_size_0 * p_.local_size_1 > (device.CL_DEVICE_MAX_WORK_GROUP_SIZE : Int) := by
    omega
  have hwarp : p_.local_size_0 * p_.local_size_1 % (warp_size device : Int) > 0
      ↔ ¬ (warp_size device : Int) ∣ p_.local_size_0 * p_.local_size_1 := by
    rw [Int.dvd_iff_emod_eq_zero]
    omega
  have hsimd : (p_.simd_width ≠ 1 ∧ p_.simd_width ≠ 2 ∧ p_.simd_width ≠ 4 ∧ p_.simd_width ≠ 8
        ∧ p_.simd_width ≠ 16) ↔ p_.simd_width ∉ [1, 2, 4, 8, 16] := by
    simp
  simp only [check_invalid, hstore, hrem, hgroup, hwarp, hsimd]

/-- C1 as stated fails where the product of the local sizes overflows `int_t`. For an `int_t` of
32 bits and local sizes `(65536, 65536)` the product `2^32` exceeds the work-group limit 1024,
but it is stored as 0 and passes the work-group test, so the axis-0 code `-3` is returned and
not the work-group code `-2`; for an `int_t` of 64 bits the same happens at `(2^32, 2^32)`. -/
theorem check_invalid_product_wraps :
    (65536 * 65536 : Int) > 1024
    ∧ check_invalid ⟨0, -1, -2, -3, -4, -5, -6, by decide⟩ 32 base_lmem_usage
        (base_impl_check_invalid_impl ⟨0, -1, -2, -3, -4, -5, -6, by decide⟩)
        ⟨1, 65536, 65536, 1⟩ [] ⟨32768, 1024, [1024, 1024, 64], CL_DEVICE_TYPE_GPU, 4318,
          by decide⟩ = -3
    ∧ (4294967296 * 4294967296 : Int) > 1024
    ∧ check_invalid ⟨0, -1, -2, -3, -4, -5, -6, by decide⟩ 64 base_lmem_usage
        (base_impl_check_invalid_impl ⟨0, -1, -2, -3, -4, -5, -6, by decide⟩)
        ⟨1, 4294967296, 4294967296, 1⟩ [] ⟨32768, 1024, [1024, 1024, 64], CL_DEVICE_TYPE_GPU,
          4318, by decide⟩ = -3 := by
  decide

/-- C1, amended. Whenever the estimated local memory exceeds the capacity of the device,
`check_invalid` returns the local-memory code, for every parameter set. For an `int_t` of 32
or 64 bits and local sizes that are not negative, are `int_t` values and have a product
representable in `int_t`, `check_invalid` returns the code of the first violated constraint,
in the fixed order local memory, work-group size, axis 0, axis 1, warp multiple, SIMD width,
and otherwise the result of the family hook `check_invalid_impl`, which is `TEMPLATE_VALID` by
default. -/
theorem check_invalid_first_violated (codes : validity_codes) (int_t_bits : Nat)
    (lmem_usage : symbolic_expressions_container → Nat)
    (check_invalid_impl : Device → symbolic_expressions_container → Int)
    (p_ : parameters_type) (symbolic_expressions : symbolic_expressions_container)
    (device : Device) :
    let result := check_invalid codes int_t_bits lmem_usage check_invalid_impl p_
      symbolic_expressions device
    let lmem_ok := lmem_usage symbolic_expressions ≤ device.CL_DEVICE_LOCAL_MEM_SIZE
    let group_ok :=
      p_.local_size_0 * p_.local_size_1 ≤ (device.CL_DEVICE_MAX_WORK_GROUP_SIZE : Int)
    let axis0_ok := p_.local_size_0 ≤ (device.max_work_item_size_0 : Int)
    let axis1_ok := p_.local_size_1 ≤ (device.max_work_item_size_1 : Int)
    let warp_ok := (warp_size device : Int) ∣ p_.local_size_0 * p_.local_size_1
    let simd_ok := p_.simd_width ∈ [1, 2, 4, 8, 16]
    let representable := (int_t_bits = 32 ∨ int_t_bits = 64)
      ∧ 0 ≤ p_.local_size_0 ∧ p_.local_size_0 < 2 ^ (int_t_bits - 1)
      ∧ 0 ≤ p_.local_size_1 ∧ p_.local_size_1 < 2 ^ (int_t_bits - 1)
      ∧ p_.local_size_0 * p_.local_size_1 < 2 ^ (int_t_bits - 1)
    (¬ lmem_ok → result = codes.TEMPLATE_LOCAL_MEMORY_OVERFLOW)
    ∧ (representable →
        (lmem_ok → ¬ group_ok → result = codes.TEMPLATE_WORK_GROUP_SIZE_OVERFLOW)
        ∧ (lmem_ok → group_ok → ¬ axis0_ok → result = codes.TEMPLATE_LOCAL_SIZE_0_OVERFLOW)
        ∧ (lmem_ok → group_ok → axis0_ok → ¬ axis1_ok →
            result = codes.TEMPLATE_LOCAL_SIZE_1_OVERFLOW)
        ∧ (lmem_ok → group_ok → axis0_ok → axis1_ok → ¬ warp_ok →
            result = codes.TEMPLATE_LOCAL_SIZE_NOT_WARP_MULTIPLE)
        ∧ (lmem_ok → group_ok → axis0_ok → axis1_ok → warp_ok → ¬ simd_ok →
            result = codes.TEMPLATE_INVALID_SIMD_WIDTH)
        ∧ (lmem_ok → group_ok → axis0_ok → axis1_ok → warp_ok → simd_ok →
            result = check_invalid_impl device symbolic_expressions))
    ∧ base_impl_check_invalid_impl codes device symbolic_expressions = codes.TEMPLATE_VALID := by
  refine ⟨fun h => ?_, fun hrep => ?_, rfl⟩
  · simp only [check_invalid]
    rw [if_pos (by omega)]
  · obtain ⟨h_bits, h0, hr0, h1, hr1, hproduct⟩ := hrep
    have hsize0 := to_size_t_of_representable int_t_bits h_bits _ h0 hr0
    have hsize1 := to_size_t_of_representable int_t_bits h_bits _ h1 hr1
    rw [check_invalid_of_representable codes int_t_bits lmem_usage check_invalid_impl p_
      symbolic_expressions device h_bits h0 h1 hproduct]
    refine ⟨?_, ?_, ?_, ?_, ?_, ?_⟩
    · intro h1 h2
      rw [if_neg (by omega), if_pos (by omega)]
    · intro h1 h2 h3
      rw [if_neg (by omega), if_neg (by omega), if_pos (by omega)]
    · intro h1 h2 h3 h4
      rw [if_neg (by omega), if_neg (by omega), if_neg (by omega), if_pos (by omega)]
    · intro h1 h2 h3 h4 h5
      rw [if_neg (by omega), if_neg (by omega), if_neg (by omega), if_neg (by omega),
        if_pos h5]
    · intro h1 h2 h3 h4 h5 h6
      rw [if_neg (by omega), if_neg (by omega), if_neg (by omega), if_neg (by omega),
        if_neg (not_not.2 h5), if_pos h6]
    · intro h1 h2 h3 h4 h5 h6
      rw [if_neg (by omega), if_neg (by omega), if_neg (by omega), if_neg (by omega),
        if_neg (not_not.2 h5), if_neg (not_not.2 h6)]

/-- C1 at an instance: on a GPU with limits `(1024; 1024, 1024, 64)`, for an `int_t` of 32 bits,
local size `(64, 32)` violates the work-group limit first and local size `(16, 16)` is valid. -/
theorem check_invalid_first_violated_witness :
    check_invalid ⟨0, -1, -2, -3, -4, -5, -6, by decide⟩ 32 base_lmem_usage
        (base_impl_check_invalid_impl ⟨0, -1, -2, -3, -4, -5, -6, by decide⟩)
        ⟨1, 64, 32, 1⟩ [] ⟨32768, 1024, [1024, 1024, 64], CL_DEVICE_TYPE_GPU, 4318,
          by decide⟩ = -2
    ∧ check_invalid ⟨0, -1, -2, -3, -4, -5, -6, by decide⟩ 32 base_lmem_usage
        (base_impl_check_invalid_impl ⟨0, -1, -2, -3, -4, -5, -6, by decide⟩)
        ⟨1, 16, 16, 1⟩ [] ⟨32768, 1024, [1024, 1024, 64], CL_DEVICE_TYPE_GPU, 4318,
          by decide⟩ = 0 :=
  ⟨((check_invalid_first_violated ⟨0, -1, -2, -3, -4, -5, -6, by decide⟩ 32 base_lmem_usage
      (base_impl_check_invalid_impl ⟨0, -1, -2, -3, -4, -5, -6, by decide⟩)
      ⟨1, 64, 32, 1⟩ [] ⟨32768, 1024, [1024, 1024, 64], CL_DEVICE_TYPE_GPU, 4318,
        by decide⟩).2.1 (by decide)).1 (by decide) (by decide),
   ((check_invalid_first_violated ⟨0, -1, -2, -3, -4, -5, -6, by decide⟩ 32 base_lmem_usage
      (base_impl_check_invalid_impl ⟨0, -1, -2, -3, -4, -5, -6, by decide⟩)
      ⟨1, 16, 16, 1⟩ [] ⟨32768, 1024, [1024, 1024, 64], CL_DEVICE_TYPE_GPU, 4318,
        by decide⟩).2.1 (by decide)).2.2.2.2.2 (by decide) (by decide) (by decide)
        (by decide) (by decide) (by decide)⟩

/-- The SIMD-width code differs from the warp-multiple code. -/
theorem validity_codes.simd_ne_warp (codes : validity_codes) :
    codes.TEMPLATE_INVALID_SIMD_WIDTH ≠ codes.TEMPLATE_LOCAL_SIZE_NOT_WARP_MULTIPLE := by
  have h := codes.distinguishing
  simp only [List.nodup_cons, List.mem_cons, List.mem_singleton, not_or] at h
  exact fun e => h.2.2.2.2.2.1.1 e.symm

/-- The code of a valid template differs from the warp-multiple code. -/
theorem validity_codes.valid_ne_warp (codes : validity_codes) :
    codes.TEMPLATE_VALID ≠ codes.TEMPLATE_LOCAL_SIZE_NOT_WARP_MULTIPLE := by
  have h := codes.distinguishing
  simp only [List.nodup_cons, List.mem_cons, List.mem_singleton, not_or] at h
  exact h.1.2.2.2.2.1

/-- C2 as stated fails off the GPU class: the vendor id is only read for a GPU. On a CPU
(`CL_DEVICE_TYPE_CPU` is 2) of vendor 4098 the warp size stays 8, so local size `(8, 1)` passes
the warp check although 8 is not a multiple of 64. -/
theorem check_invalid_vendor_4098_off_gpu :
    ¬ (check_invalid ⟨0, -1, -2, -3, -4, -5, -6, by decide⟩ 32 base_lmem_usage
          (base_impl_check_invalid_impl ⟨0, -1, -2, -3, -4, -5, -6, by decide⟩) ⟨1, 8, 1, 1⟩ []
          ⟨32768, 1024, [1024, 1024, 1024], 2, 4098, by decide⟩ = -5
        ↔ ¬ (64 : Int) ∣ 8 * 1)
    ∧ ¬ (check_invalid ⟨0, -1, -2, -3, -4, -5, -6, by decide⟩ 64 base_lmem_usage
          (base_impl_check_invalid_impl ⟨0, -1, -2, -3, -4, -5, -6, by decide⟩) ⟨1, 8, 1, 1⟩ []
          ⟨32768, 1024, [1024, 1024, 1024], 2, 4098, by decide⟩ = -5
        ↔ ¬ (64 : Int) ∣ 8 * 1) := by
  decide

/-- C2, amended. For an `int_t` of 32 or 64 bits and local sizes that are not negative and have
a product representable in `int_t`: when the local-memory, work-group-size and per-axis checks
pass (and the family hook does not itself answer with the warp-multiple code, as the default
hook never does), `check_invalid` returns `TEMPLATE_LOCAL_SIZE_NOT_WARP_MULTIPLE` if and only
if `local_size_0*local_size_1` is not a multiple of the warp size, which is 8 for a device that
is not a GPU, whatever its vendor, 32 for a GPU and 64 for a GPU of vendor 4098. -/
theorem check_invalid_warp_multiple (codes : validity_codes) (int_t_bits : Nat)
    (lmem_usage : symbolic_expressions_container → Nat)
    (check_invalid_impl : Device → symbolic_expressions_container → Int)
    (p_ : parameters_type) (symbolic_expressions : symbolic_expressions_container)
    (device : Device)
    (h_bits : int_t_bits = 32 ∨ int_t_bits = 64)
    (h_size0 : 0 ≤ p_.local_size_0) (h_size1 : 0 ≤ p_.local_size_1)
    (h_product : p_.local_size_0 * p_.local_size_1 < 2 ^ (int_t_bits - 1))
    (h_lmem : lmem_usage symbolic_expressions ≤ device.CL_DEVICE_LOCAL_MEM_SIZE)
    (h_group :
      p_.local_size_0 * p_.local_size_1 ≤ (device.CL_DEVICE_MAX_WORK_GROUP_SIZE : Int))
    (h_axis0 : p_.local_size_0 ≤ (device.max_work_item_size_0 : Int))
    (h_axis1 : p_.local_size_1 ≤ (device.max_work_item_size_1 : Int))
    (h_hook : check_invalid_impl device symbolic_expressions
      ≠ codes.TEMPLATE_LOCAL_SIZE_NOT_WARP_MULTIPLE) :
    let result := check_invalid codes int_t_bits lmem_usage check_invalid_impl p_
      symbolic_expressions device
    let warp_code := codes.TEMPLATE_LOCAL_SIZE_NOT_WARP_MULTIPLE
    (device.CL_DEVICE_TYPE ≠ CL_DEVICE_TYPE_GPU →
        (result = warp_code ↔ ¬ (8 : Int) ∣ p_.local_size_0 * p_.local_size_1))
    ∧ (device.CL_DEVICE_TYPE = CL_DEVICE_TYPE_GPU → device.CL_DEVICE_VENDOR_ID ≠ 4098 →
        (result = warp_code ↔ ¬ (32 : Int) ∣ p_.local_size_0 * p_.local_size_1))
    ∧ (device.CL_DEVICE_TYPE = CL_DEVICE_TYPE_GPU → device.CL_DEVICE_VENDOR_ID = 4098 →
        (result = warp_code ↔ ¬ (64 : Int) ∣ p_.local_size_0 * p_.local_size_1))
    ∧ base_impl_check_invalid_impl codes device symbolic_expressions ≠ warp_code := by
  have hle0 : to_size_t p_.local_size_0 ≤ device.max_work_item_size_0 := by
    unfold to_size_t
    omega
  have hle1 : to_size_t p_.local_size_1 ≤ device.max_work_item_size_1 := by
    unfold to_size_t
    omega
  have key : ∀ w : Nat, warp_size device = w →
      (check_invalid codes int_t_bits lmem_usage check_invalid_impl p_ symbolic_expressions
          device = codes.TEMPLATE_LOCAL_SIZE_NOT_WARP_MULTIPLE
        ↔ ¬ (w : Int) ∣ p_.local_size_0 * p_.local_size_1) := by
    intro w hw
    rw [check_invalid_of_representable codes int_t_bits lmem_usage check_invalid_impl p_
      symbolic_expressions device h_bits h_size0 h_size1 h_product, hw]
    rw [if_neg (by omega), if_neg (by omega), if_neg (by omega), if_neg (by omega)]
    by_cases hdvd : (w : Int) ∣ p_.local_size_0 * p_.local_size_1
    · rw [if_neg (not_not.2 hdvd)]
      split
      · simp [hdvd, codes.simd_ne_warp]
      · simp [hdvd, h_hook]
    · rw [if_pos hdvd]
      simp [hdvd]
  refine ⟨fun h => key 8 ?_, fun h hv => key 32 ?_, fun h hv => key 64 ?_, ?_⟩
  · simp [warp_size, h]
  · simp [warp_size, h, hv]
  · simp [warp_size, h, hv]
  · exact codes.valid_ne_warp

/-- A GPU of another vendor than 4098 with limits `(1024; 1024, 1024, 64)`, validity codes
`0, -1, ..., -6`, the default hooks, an `int_t` of 32 bits: local size `(16, 16)` passes the
warp check and local size `(15, 15)` is answered with the warp-multiple code. -/
theorem check_invalid_warp_multiple_witness :
    check_invalid ⟨0, -1, -2, -3, -4, -5, -6, by decide⟩ 32 base_lmem_usage
        (base_impl_check_invalid_impl ⟨0, -1, -2, -3, -4, -5, -6, by decide⟩) ⟨1, 16, 16, 1⟩ []
        ⟨32768, 1024, [1024, 1024, 64], CL_DEVICE_TYPE_GPU, 4318, by decide⟩ ≠ -5
    ∧ check_invalid ⟨0, -1, -2, -3, -4, -5, -6, by decide⟩ 32 base_lmem_usage
        (base_impl_check_invalid_impl ⟨0, -1, -2, -3, -4, -5, -6, by decide⟩) ⟨1, 15, 15, 1⟩ []
        ⟨32768, 1024, [1024, 1024, 64], CL_DEVICE_TYPE_GPU, 4318, by decide⟩ = -5 := by
  constructor
  · have h := (check_invalid_warp_multiple ⟨0, -1, -2, -3, -4, -5, -6, by decide⟩ 32
      base_lmem_usage
      (base_impl_check_invalid_impl ⟨0, -1, -2, -3, -4, -5, -6, by decide⟩) ⟨1, 16, 16, 1⟩ []
      ⟨32768, 1024, [1024, 1024, 64], CL_DEVICE_TYPE_GPU, 4318, by decide⟩
      (by decide) (by decide) (by decide) (by decide)
      (by decide) (by decide) (by decide) (by decide) (by decide)).2.1 rfl (by decide)
    exact fun e => (h.mp e) (by decide)
  · have h := (check_invalid_warp_multiple ⟨0, -1, -2, -3, -4, -5, -6, by decide⟩ 32
      base_lmem_usage
      (base_impl_check_invalid_impl ⟨0, -1, -2, -3, -4, -5, -6, by decide⟩) ⟨1, 15, 15, 1⟩ []
      ⟨32768, 1024, [1024, 1024, 64], CL_DEVICE_TYPE_GPU, 4318, by decide⟩
      (by decide) (by decide) (by decide) (by decide)
      (by decide) (by decide) (by decide) (by decide) (by decide)).2.1 rfl (by decide)
    exact h.mpr (by decide)

/-- The warp-multiple equivalence needs a product that is representable. For an `int_t` of 32
bits and local sizes `(46341, 46341)` on a GPU whose limits `(2^40; 2^20, 2^20, 64)` admit the
sizes and their product, the product `2147488281` is not a multiple of 32, but it is stored as
a negative `int_t`, its conversion to `size_t` exceeds the work-group limit, and the
work-group code `-2` is returned, not the warp-multiple code `-5`. -/
theorem check_invalid_product_wraps_negative :
    (46341 * 46341 : Int) ≤ 1099511627776
    ∧ ¬ (32 : Int) ∣ 46341 * 46341
    ∧ check_invalid ⟨0, -1, -2, -3, -4, -5, -6, by decide⟩ 32 base_lmem_usage
        (base_impl_check_invalid_impl ⟨0, -1, -2, -3, -4, -5, -6, by decide⟩)
        ⟨1, 46341, 46341, 1⟩ []
        ⟨32768, 1099511627776, [1048576, 1048576, 64], CL_DEVICE_TYPE_GPU, 4318, by decide⟩
      = -2 := by
  decide

/-! ## `generate` and the validity code -/

/-- The record of `k` traversals of a batch is extended at the front by a traversal that did
not throw. -/
theorem traversals_thread_cons {β : Type} (H : helpers) (B : symbolic_binder β)
    (traverse : traversal) (e : symbolic_expression) (rest : symbolic_expressions_container)
    (k : Nat) (binder binder1 : β) (mapping : mapping_type) (binders : List β)
    (mappings : List mapping_type)
    (hrun : traverse_with (map_functor_call H B e) { binder_ := binder, mapping_ := [] }
      (traverse e) = ({ binder_ := binder1, mapping_ := mapping }, none))
    (hfirst : binders[0]? = some binder1)
    (h : traversals_thread H B traverse rest k binders mappings) :
    traversals_thread H B traverse (e :: rest) (k + 1) (binder :: binders)
      (mapping :: mappings) := by
  obtain ⟨hb, hm, hall⟩ := h
  refine ⟨by simp [hb], by simp [hm], fun i hi => ?_⟩
  cases i with
  | zero =>
    exact ⟨e, binder, binder1, mapping, List.getElem?_cons_zero, List.getElem?_cons_zero,
      by simpa using hfirst, List.getElem?_cons_zero, hrun⟩
  | succ j =>
    obtain ⟨e1, b, b1, m, h1, h2, h3, h4, h5⟩ := hall j (by omega)
    exact ⟨e1, b, b1, m, by simpa using h1, by simpa using h2, by simpa using h3,
      by simpa using h4, h5⟩

/-- The loop of `generate` over the batch. Either no traversal throws: then the mappings are
built one per expression, each on an empty mapping and on the binder that the traversal before
left. Or traversal `k` is the first to throw: then the loop ends there with what it threw. -/
theorem generate_loop_threads {β : Type} (H : helpers) (B : symbolic_binder β)
    (traverse : traversal) :
    ∀ (symbolic_expressions : symbolic_expressions_container) (binder : β),
      (∃ (binders : List β) (mappings : List mapping_type),
          traversals_thread H B traverse symbolic_expressions symbolic_expressions.length
            binders mappings
          ∧ binders[0]? = some binder
          ∧ binders[symbolic_expressions.length]?
              = some (generate_loop H B traverse binder symbolic_expressions).1.2
          ∧ (generate_loop H B traverse binder symbolic_expressions).1.1 = mappings
          ∧ (generate_loop H B traverse binder symbolic_expressions).2 = none)
      ∨ (∃ (k : Nat) (e : symbolic_expression) (binders : List β)
            (mappings : List mapping_type) (b : β) (f : map_functor β) (ex : exception),
          symbolic_expressions[k]? = some e
          ∧ traversals_thread H B traverse symbolic_expressions k binders mappings
          ∧ binders[0]? = some binder
          ∧ binders[k]? = some b
          ∧ traverse_with (map_functor_call H B e) { binder_ := b, mapping_ := [] }
              (traverse e) = (f, some ex)
          ∧ (generate_loop H B traverse binder symbolic_expressions).1.2 = f.binder_
          ∧ (generate_loop H B traverse binder symbolic_expressions).2 = some ex) := by
  intro symbolic_expressions
  induction symbolic_expressions with
  | nil =>
    intro binder
    exact Or.inl ⟨[binder], [], ⟨rfl, rfl, fun i hi => absurd hi (Nat.not_lt_zero i)⟩,
      List.getElem?_cons_zero, List.getElem?_cons_zero, rfl, rfl⟩
  | cons e rest ih =>
    intro binder
    rcases hrun : traverse_with (map_functor_call H B e) { binder_ := binder, mapping_ := [] }
      (traverse e) with ⟨f1, thrown⟩
    cases thrown with
    | none =>
      have hloop : generate_loop H B traverse binder (e :: rest)
          = ((f1.mapping_ :: (generate_loop H B traverse f1.binder_ rest).1.1,
              (generate_loop H B traverse f1.binder_ rest).1.2),
             (generate_loop H B traverse f1.binder_ rest).2) := by
        rw [generate_loop, hrun]
      rw [hloop]
      rcases ih f1.binder_ with ⟨binders, mappings, hthread, hfirst, hlast, hmaps, hnone⟩
        | ⟨k, e1, binders, mappings, b, f, ex, he, hthread, hfirst, hb, hthrow, hbinder, hsome⟩
      · refine Or.inl ⟨binder :: binders, f1.mapping_ :: mappings,
          traversals_thread_cons H B traverse e rest _ binder f1.binder_ f1.mapping_ binders
            mappings hrun hfirst hthread, List.getElem?_cons_zero, by simpa using hlast,
          by simp [hmaps], hnone⟩
      · refine Or.inr ⟨k + 1, e1, binder :: binders, f1.mapping_ :: mappings, b, f, ex,
          by simpa using he,
          traversals_thread_cons H B traverse e rest _ binder f1.binder_ f1.mapping_ binders
            mappings hrun hfirst hthread, List.getElem?_cons_zero, by simpa using hb, hthrow,
          hbinder, hsome⟩
    | some ex =>
      have hloop : generate_loop H B traverse binder (e :: rest)
          = ((f1.mapping_ :: rest.map (fun _ => []), f1.binder_), some ex) := by
        rw [generate_loop, hrun]
      rw [hloop]
      exact Or.inr ⟨0, e, [binder], [], binder, f1, ex, List.getElem?_cons_zero,
        ⟨rfl, rfl, fun i hi => absurd hi (Nat.not_lt_zero i)⟩, List.getElem?_cons_zero,
        List.getElem?_cons_zero, hrun, rfl, rfl⟩

/-- What `generate` does when validation fails. -/
theorem generate_of_invalid (codes : validity_codes) (int_t_bits : Nat) (H : helpers)
    (traverse : traversal) (T : base_impl) (label : Nat)
    (symbolic_expressions : symbolic_expressions_container) (device : Device)
    (h : check_invalid codes int_t_bits T.lmem_usage T.check_invalid_impl T.p_
      symbolic_expressions device ≠ 0) :
    generate codes int_t_bits H traverse T label symbolic_expressions device =
      { binder := none, mappings := none, generate_impl_arguments := none,
        result := .error (.operation_not_supported_exception
          ("The supplied parameters for this template are invalid : err " ++ to_string
            (check_invalid codes int_t_bits T.lmem_usage T.check_invalid_impl T.p_
              symbolic_expressions device))) } := by
  unfold generate
  simp only []
  rw [if_pos h]

/-- What `generate` does when validation succeeds. -/
theorem generate_of_valid (codes : validity_codes) (int_t_bits : Nat) (H : helpers)
    (traverse : traversal) (T : base_impl) (label : Nat)
    (symbolic_expressions : symbolic_expressions_container) (device : Device)
    (h : check_invalid codes int_t_bits T.lmem_usage T.check_invalid_impl T.p_
      symbolic_expressions device = 0) :
    generate codes int_t_bits H traverse T label symbolic_expressions device =
      match generate_loop H binder_vtable traverse (make_binder T.binding_policy_)
          symbolic_expressions with
      | ((mappings, binder), none) =>
        { binder := some binder, mappings := some mappings,
          generate_impl_arguments := some (label, symbolic_expressions, mappings),
          result := T.generate_impl label symbolic_expressions mappings }
      | ((mappings, binder), some ex) =>
        { binder := some binder, mappings := some mappings, generate_impl_arguments := none,
          result := .error ex } := by
  unfold generate
  simp only []
  rw [if_neg (by simpa using h)]

/-- C3 as stated fails when a traversal throws. With valid parameters `check_invalid` returns 0,
but on the batch `A + B`, `trans(A)` the map functor is handed the empty right operand of the
transpose, `create` throws, and `generate` ends with that condition: `generate_impl` is not
called and its result is not returned. The same happens when the element type of an array has
no name. -/
theorem generate_valid_but_create_throws :
    check_invalid example_codes 32 example_template.lmem_usage
        example_template.check_invalid_impl example_template.p_
        [sum_of_arrays 7 8, transposed_array 7] example_device = 0
    ∧ (generate example_codes 32 example_helpers visit_root example_template 0
        [sum_of_arrays 7 8, transposed_array 7] example_device).result = .error (.c_string "")
    ∧ (generate example_codes 32 example_helpers visit_root example_template 0
        [sum_of_arrays 7 8, transposed_array 7] example_device).generate_impl_arguments = none
    ∧ (generate example_codes 32 example_helpers visit_root example_template 0
        [sum_of_arrays 7 8, transposed_array 7] example_device).result
        ≠ example_template.generate_impl 0 [sum_of_arrays 7 8, transposed_array 7]
            [[((0, .LHS_NODE_TYPE), .mapped_array "float" 0 'm'),
              ((0, .RHS_NODE_TYPE), .mapped_array "float" 1 'm')],
             [((0, .LHS_NODE_TYPE), .mapped_array "float" 0 'm')]]
    ∧ (generate example_codes 32
        ⟨fun dtype => .error (.unknown_datatype dtype), fun _ => false, fun _ => false⟩
        visit_root example_template 0 [sum_of_arrays 7 8] example_device).result
        = .error (.unknown_datatype .FLOAT_TYPE) := by
  refine ⟨by decide, rfl, rfl, ?_, rfl⟩
  change (Except.error (exception.c_string "") : Except exception (List String))
    ≠ Except.ok ["__kernel", "__kernel"]
  exact fun h => nomatch h

/-- C3, amended. `generate` fails at validation, with the operation-not-supported condition
whose message ends with the decimal value of the validity code, if and only if `check_invalid`
returns a non-zero code; then no binder is made, no mapping is built and `generate_impl` is not
called. When `check_invalid` returns 0, one binder is made by `make_binder` and one of two
things happens. Either no call of the map functor throws: then the mappings are built one per
expression of the batch, expression `i` being traversed on an empty mapping and on the binder
as the traversal of expression `i-1` left it, `generate_impl` is called on these mappings and
its result is the result of `generate`. Or the traversal of some expression `k` is the first to
throw: then `generate` ends with the condition thrown and `generate_impl` is not called. -/
theorem generate_validity (codes : validity_codes) (int_t_bits : Nat) (H : helpers)
    (traverse : traversal) (T : base_impl) (label : Nat)
    (symbolic_expressions : symbolic_expressions_container) (device : Device) :
    let err := check_invalid codes int_t_bits T.lmem_usage T.check_invalid_impl T.p_
      symbolic_expressions device
    let run := generate codes int_t_bits H traverse T label symbolic_expressions device
    ((run.result = .error (.operation_not_supported_exception
          ("The supplied parameters for this template are invalid : err " ++ to_string err))
        ∧ run.binder = none ∧ run.mappings = none ∧ run.generate_impl_arguments = none)
      ↔ err ≠ 0)
    ∧ (err = 0 →
        (∃ (binders : List binder_object) (mappings : List mapping_type),
            traversals_thread H binder_vtable traverse symbolic_expressions
              symbolic_expressions.length binders mappings
            ∧ binders[0]? = some (make_binder T.binding_policy_)
            ∧ run.binder = binders[symbolic_expressions.length]?
            ∧ run.mappings = some mappings
            ∧ run.generate_impl_arguments = some (label, symbolic_expressions, mappings)
            ∧ run.result = T.generate_impl label symbolic_expressions mappings)
        ∨ (∃ (k : Nat) (e : symbolic_expression) (binders : List binder_object)
              (mappings : List mapping_type) (b : binder_object)
              (f : map_functor binder_object) (ex : exception),
            symbolic_expressions[k]? = some e
            ∧ traversals_thread H binder_vtable traverse symbolic_expressions k binders
                mappings
            ∧ binders[0]? = some (make_binder T.binding_policy_)
            ∧ binders[k]? = some b
            ∧ traverse_with (map_functor_call H binder_vtable e)
                { binder_ := b, mapping_ := [] } (traverse e) = (f, some ex)
            ∧ run.binder = some f.binder_
            ∧ run.generate_impl_arguments = none
            ∧ run.result = .error ex)) := by
  by_cases h : check_invalid codes int_t_bits T.lmem_usage T.check_invalid_impl T.p_
      symbolic_expressions device = 0
  · have hrun := generate_of_valid codes int_t_bits H traverse T label symbolic_expressions
      device h
    refine ⟨?_, fun _ => ?_⟩
    · rcases hloop : generate_loop H binder_vtable traverse (make_binder T.binding_policy_)
        symbolic_expressions with ⟨⟨mappings, binder⟩, thrown⟩
      rw [hloop] at hrun
      cases thrown with
      | none =>
        simp only at hrun
        simp [hrun, h]
      | some ex =>
        simp only at hrun
        simp [hrun, h]
    · rcases generate_loop_threads H binder_vtable traverse symbolic_expressions
          (make_binder T.binding_policy_) with
        ⟨binders, mappings, hthread, hfirst, hlast, hmaps, hnone⟩
        | ⟨k, e, binders, mappings, b, f, ex, he, hthread, hfirst, hb, hthrow, hbinder, hsome⟩
      · rcases hloop : generate_loop H binder_vtable traverse (make_binder T.binding_policy_)
          symbolic_expressions with ⟨⟨mappings1, binder⟩, thrown⟩
        rw [hloop] at hrun hlast hmaps hnone
        simp only at hlast hmaps hnone
        subst hmaps hnone
        simp only at hrun
        exact Or.inl ⟨binders, mappings1, hthread, hfirst, by rw [hrun, hlast], by rw [hrun],
          by rw [hrun], by rw [hrun]⟩
      · rcases hloop : generate_loop H binder_vtable traverse (make_binder T.binding_policy_)
          symbolic_expressions with ⟨⟨mappings1, binder⟩, thrown⟩
        rw [hloop] at hrun hbinder hsome
        simp only at hbinder hsome
        subst hbinder hsome
        simp only at hrun
        exact Or.inr ⟨k, e, binders, mappings, b, f, ex, he, hthread, hfirst, hb, hthrow,
          by rw [hrun], by rw [hrun], by rw [hrun]⟩
  · have hrun := generate_of_invalid codes int_t_bits H traverse T label symbolic_expressions
      device h
    simp [hrun, h]

/-- C3 at two instances with the codes `0, -1, ..., -6` on a GPU of warp size 32. Local size
`(15, 15)` is answered with code `-5`, and `generate` fails with the message that ends in `-5`.
With local size `(16, 16)`, a per-handle binder and the batch `A + B`, `B + A`, `generate`
builds two mappings in which the arrays on the buffers 7 and 8 keep their identifiers 0 and 1
across the two expressions, and returns what `generate_impl` returns. -/
theorem generate_validity_witness :
    (generate example_codes 32 example_helpers visit_root
        { example_template with p_ := ⟨1, 15, 15, 1⟩ } 0 [sum_of_arrays 7 8, sum_of_arrays 8 7]
        example_device).result
      = .error (.operation_not_supported_exception
          "The supplied parameters for this template are invalid : err -5")
    ∧ (generate example_codes 32 example_helpers visit_root example_template 0
        [sum_of_arrays 7 8, sum_of_arrays 8 7] example_device).mappings
      = some [[((0, .LHS_NODE_TYPE), .mapped_array "float" 0 'm'),
               ((0, .RHS_NODE_TYPE), .mapped_array "float" 1 'm')],
              [((0, .LHS_NODE_TYPE), .mapped_array "float" 1 'm'),
               ((0, .RHS_NODE_TYPE), .mapped_array "float" 0 'm')]]
    ∧ (generate example_codes 32 example_helpers visit_root example_template 0
        [sum_of_arrays 7 8, sum_of_arrays 8 7] example_device).result
      = .ok ["__kernel", "__kernel"] := by
  have h := (generate_validity example_codes 32 example_helpers visit_root
      { example_template with p_ := ⟨1, 15, 15, 1⟩ } 0 [sum_of_arrays 7 8, sum_of_arrays 8 7]
      example_device).1.mpr (by decide)
  refine ⟨?_, rfl, rfl⟩
  rw [h.1]
  rfl

/-! ## Kernel names -/

/-- The characters the `for` loop of `fill_kernel_name` stores from index `i` on are the suffix
from `i` on. -/
theorem fill_kernel_name_for_eq_drop (suffix : List Char) :
    ∀ (k i : Nat), suffix.length - i = k → fill_kernel_name_for suffix i = suffix.drop i := by
  intro k
  induction k with
  | zero =>
    intro i hk
    rw [fill_kernel_name_for, dif_neg (by omega), List.drop_eq_nil_of_le (by omega)]
  | succ k ih =>
    intro i hk
    have hi : i < suffix.length := by omega
    rw [fill_kernel_name_for, dif_pos hi, ih (i + 1) (by omega)]
    exact (List.drop_eq_getElem_cons hi).symm

/-- The character `'0' + d` of a decimal digit `d` is the digit character of `d`. -/
theorem digit_char_eq (d : Nat) (h : d < 10) :
    Nat.digitChar d = Char.ofNat ('0'.toNat + d) := by
  interval_cases d <;> rfl

/-- The `while` loop of `fill_kernel_name` stores the decimal digits of a positive label last
digit first. -/
theorem toDigitsCore_eq_while :
    ∀ (fuel label : Nat) (ds : List Char), 0 < label → label < fuel →
      Nat.toDigitsCore 10 fuel label ds = (fill_kernel_name_while label).reverse ++ ds := by
  intro fuel
  induction fuel with
  | zero => intro label ds _ h; omega
  | succ fuel ih =>
    intro label ds hpos hlt
    rw [fill_kernel_name_while, if_pos hpos]
    simp only [Nat.toDigitsCore]
    by_cases hq : label / 10 = 0
    · rw [if_pos hq, hq, fill_kernel_name_while, if_neg (by omega)]
      simp [digit_char_eq (label % 10) (Nat.mod_lt _ (by omega))]
    · rw [if_neg hq, ih (label / 10) _ (by omega) (by omega)]
      simp [digit_char_eq (label % 10) (Nat.mod_lt _ (by omega))]

/-- The buffer written by `fill_kernel_name`, in terms of the decimal representation. -/
theorem fill_kernel_name_eq (label : Nat) (suffix : List Char) :
    fill_kernel_name label suffix
      = ['k'] ++ (Nat.toDigits 10 label).reverse ++ suffix ++ [NUL] := by
  have hfor : fill_kernel_name_for suffix 0 = suffix := by
    rw [fill_kernel_name_for_eq_drop suffix _ 0 rfl, List.drop_zero]
  unfold fill_kernel_name
  rw [hfor]
  by_cases h0 : label = 0
  · subst h0
    rfl
  · rw [if_neg h0]
    have h := toDigitsCore_eq_while (label + 1) label [] (by omega) (by omega)
    rw [List.append_nil] at h
    rw [Nat.toDigits, h, List.reverse_reverse]

/-- C4 as stated fails: for label 12 and the empty suffix the buffer receives `k21`, not `k12`. -/
theorem fill_kernel_name_not_most_significant_first :
    fill_kernel_name 12 [] ≠ ['k'] ++ decimal_digits 12 ++ [] ++ [NUL] := by
  rw [fill_kernel_name_eq]
  decide

/-- C4, amended. For every label and every suffix `fill_kernel_name` writes the letter `k`, then
the decimal digits of the label from the least significant digit to the most significant one
(`0` for label 0), then the suffix, then a terminating NUL. -/
theorem fill_kernel_name_least_significant_first (label : Nat) (suffix : List Char) :
    fill_kernel_name label suffix
      = ['k'] ++ (decimal_digits label).reverse ++ suffix ++ [NUL] :=
  fill_kernel_name_eq label suffix

/-! ## Neutral elements -/

/-- C5. `neutral_element` returns "0" for add, "1" for multiply and divide, "-INFINITY" for the
four max operators and "INFINITY" for the four min operators; for every other operator it fails
with the operation-not-supported condition, so it succeeds exactly on these eleven. -/
theorem neutral_element_table (op : op_element) :
    (op.type = .OPERATOR_ADD_TYPE → neutral_element op = .ok "0")
    ∧ (op.type = .OPERATOR_MULT_TYPE → neutral_element op = .ok "1")
    ∧ (op.type = .OPERATOR_DIV_TYPE → neutral_element op = .ok "1")
    ∧ (op.type ∈ [operation_node_type.OPERATOR_ELEMENT_FMAX_TYPE,
          .OPERATOR_ELEMENT_ARGFMAX_TYPE, .OPERATOR_ELEMENT_MAX_TYPE,
          .OPERATOR_ELEMENT_ARGMAX_TYPE] → neutral_element op = .ok "-INFINITY")
    ∧ (op.type ∈ [operation_node_type.OPERATOR_ELEMENT_FMIN_TYPE,
          .OPERATOR_ELEMENT_ARGFMIN_TYPE, .OPERATOR_ELEMENT_MIN_TYPE,
          .OPERATOR_ELEMENT_ARGMIN_TYPE] → neutral_element op = .ok "INFINITY")
    ∧ (op.type ∉ [operation_node_type.OPERATOR_ADD_TYPE, .OPERATOR_MULT_TYPE,
          .OPERATOR_DIV_TYPE, .OPERATOR_ELEMENT_FMAX_TYPE, .OPERATOR_ELEMENT_ARGFMAX_TYPE,
          .OPERATOR_ELEMENT_MAX_TYPE, .OPERATOR_ELEMENT_ARGMAX_TYPE,
          .OPERATOR_ELEMENT_FMIN_TYPE, .OPERATOR_ELEMENT_ARGFMIN_TYPE,
          .OPERATOR_ELEMENT_MIN_TYPE, .OPERATOR_ELEMENT_ARGMIN_TYPE] →
        neutral_element op = .error (.operation_not_supported_exception
          "Unsupported reduction operator : no neutral element known"))
    ∧ ((∃ value, neutral_element op = .ok value) ↔
        op.type ∈ [operation_node_type.OPERATOR_ADD_TYPE, .OPERATOR_MULT_TYPE,
          .OPERATOR_DIV_TYPE, .OPERATOR_ELEMENT_FMAX_TYPE, .OPERATOR_ELEMENT_ARGFMAX_TYPE,
          .OPERATOR_ELEMENT_MAX_TYPE, .OPERATOR_ELEMENT_ARGMAX_TYPE,
          .OPERATOR_ELEMENT_FMIN_TYPE, .OPERATOR_ELEMENT_ARGFMIN_TYPE,
          .OPERATOR_ELEMENT_MIN_TYPE, .OPERATOR_ELEMENT_ARGMIN_TYPE]) := by
  rcases op with ⟨family, type⟩
  cases type <;> simp [neutral_element]

/-! ## Argument binding -/

/-- Placing a concatenation: the second part starts where the cursor is after the first. -/
theorem placed_from_append (vs ws : List kernel_arg) :
    ∀ c : Nat, placed_from c (vs ++ ws)
      = placed_from c vs ++ placed_from (cursor_after c vs.length) ws := by
  induction vs with
  | nil => intro c; rfl
  | cons v vs ih => intro c; simp [placed_from, cursor_after, ih]

/-- Post-increments compose. -/
theorem cursor_after_add (m n : Nat) :
    ∀ c : Nat, cursor_after c (m + n) = cursor_after (cursor_after c m) n := by
  induction m with
  | zero => intro c; simp [cursor_after]
  | succ m ih =>
    intro c
    rw [Nat.add_right_comm]
    simp [cursor_after, ih]

/-- Placing keeps the values and their number. -/
theorem placed_from_snd (vs : List kernel_arg) :
    ∀ c : Nat, (placed_from c vs).map Prod.snd = vs := by
  induction vs with
  | nil => intro c; rfl
  | cons v vs ih => intro c; simp [placed_from, ih]

/-- Placing keeps the number of values. -/
theorem placed_from_length (vs : List kernel_arg) (c : Nat) :
    (placed_from c vs).length = vs.length := by
  rw [← List.length_map (placed_from c vs) Prod.snd, placed_from_snd]

/-- Without wrap-around the cursor after `k` post-increments is `c + k`. -/
theorem cursor_after_of_lt (k : Nat) : ∀ c : Nat, c + k < 2 ^ 32 → cursor_after c k = c + k := by
  induction k with
  | zero => intro c _; rfl
  | succ k ih =>
    intro c h
    rw [cursor_after, Nat.mod_eq_of_lt (by omega), ih (c + 1) (by omega)]
    omega

/-- Without wrap-around the indices used are `c`, `c+1`, ... -/
theorem placed_from_fst_of_lt (vs : List kernel_arg) :
    ∀ c : Nat, c + vs.length < 2 ^ 32 →
      (placed_from c vs).map Prod.fst = List.range' c vs.length := by
  induction vs with
  | nil => intro c _; rfl
  | cons v vs ih =>
    intro c h
    simp only [List.length_cons] at h
    simp only [placed_from, List.map_cons, List.length_cons, List.range'_succ]
    rw [Nat.mod_eq_of_lt (by omega), ih (c + 1) (by omega)]

/-- Nothing appended. -/
theorem appended_refl {β : Type} (f g : set_arguments_functor β)
    (hk : g.kernel_ = f.kernel_) (hc : g.current_arg_ = f.current_arg_) : appended f g [] := by
  simp [appended, placed_from, cursor_after, hk, hc]

/-- One `setArg(current_arg_++, value)`. -/
theorem appended_setArg_next {β : Type} (f : set_arguments_functor β) (value : kernel_arg) :
    appended f (f.setArg_next value) [value] :=
  ⟨rfl, rfl⟩

/-- Two pieces in a row. -/
theorem appended_trans {β : Type} {f g h : set_arguments_functor β} {vs ws : List kernel_arg}
    (h1 : appended f g vs) (h2 : appended g h ws) : appended f h (vs ++ ws) := by
  obtain ⟨k1, c1⟩ := h1
  obtain ⟨k2, c2⟩ := h2
  refine ⟨?_, ?_⟩
  · rw [k2, k1, c1, placed_from_append, List.append_assoc]
  · rw [c2, c1, List.length_append, cursor_after_add]

/-- A piece followed by one `setArg`. -/
theorem appended_then_setArg_next {β : Type} {f g : set_arguments_functor β}
    {vs : List kernel_arg} (h1 : appended f g vs) (value : kernel_arg) :
    appended f (g.setArg_next value) (vs ++ [value]) :=
  appended_trans h1 (appended_setArg_next g value)

/-- What was appended is what was written, at consecutive indices while the cursor stays in
range. -/
theorem appended_written_consecutively {β : Type} {f g : set_arguments_functor β}
    {vs : List kernel_arg} (h : appended f g vs) : written_consecutively f g := by
  obtain ⟨hk, hc⟩ := h
  have hw : written f g = placed_from f.current_arg_ vs := by
    simp [written, hk]
  unfold written_consecutively
  rw [hw, placed_from_length]
  refine ⟨hk, fun hlt => ⟨placed_from_fst_of_lt vs _ hlt, ?_⟩⟩
  rw [hc, cursor_after_of_lt _ _ hlt]

/-- The array overload appends the pointer and the rank fields on a first sighting, and nothing
otherwise. -/
theorem set_arguments_array_appended {β : Type} (B : symbolic_binder β)
    (f : set_arguments_functor β) (x : array_infos) :
    appended f (set_arguments_array B f x)
      (if (B.bind f.binder_ x.data).1 = true then .mem x.data :: rank_fields x else []) := by
  unfold set_arguments_array
  simp only []
  by_cases hb : (B.bind f.binder_ x.data).1 = true
  · rw [if_pos hb, if_pos hb]
    have h0 : appended f ({ f with binder_ := (B.bind f.binder_ x.data).2 } :
        set_arguments_functor β) [] := appended_refl _ _ rfl rfl
    have h1 := appended_then_setArg_next h0 (.mem x.data)
    by_cases hs : x.shape1 = 1 ∧ x.shape2 = 1
    · rw [if_pos hs]
      have h2 := appended_then_setArg_next h1 (to_cl_uint x.start1)
      simpa [rank_fields, hs, to_cl_uint] using h2
    · rw [if_neg hs]
      by_cases hv : x.shape1 = 1 ∨ x.shape2 = 1
      · rw [if_pos hv]
        have hv2 : (x.shape1 = 1 ∧ x.shape2 ≠ 1) ∨ (x.shape1 ≠ 1 ∧ x.shape2 = 1) := by
          by_cases h1 : x.shape1 = 1
          · exact Or.inl ⟨h1, fun h2 => hs ⟨h1, h2⟩⟩
          · exact Or.inr ⟨h1, hv.resolve_left h1⟩
        have h2 := appended_then_setArg_next
          (appended_then_setArg_next h1 (to_cl_uint (max x.start1 x.start2)))
          (to_cl_uint (max x.stride1 x.stride2))
        simpa [rank_fields, hs, hv2, to_cl_uint] using h2
      · rw [if_neg hv]
        have hv2 : ¬ ((x.shape1 = 1 ∧ x.shape2 ≠ 1) ∨ (x.shape1 ≠ 1 ∧ x.shape2 = 1)) := by
          rintro (⟨h1, _⟩ | ⟨_, h2⟩)
          · exact hv (Or.inl h1)
          · exact hv (Or.inr h2)
        have h2 := appended_then_setArg_next (appended_then_setArg_next
          (appended_then_setArg_next (appended_then_setArg_next (appended_then_setArg_next h1
            (to_cl_uint x.ld)) (to_cl_uint x.start1)) (to_cl_uint x.start2))
            (to_cl_uint x.stride1)) (to_cl_uint x.stride2)
        simpa [rank_fields, hs, hv2, to_cl_uint] using h2
  · rw [if_neg hb, if_neg hb]
    exact appended_refl _ _ rfl rfl

/-- The tuple overload appends `sub1`, `sub2`, `rep1`, `rep2`. -/
theorem set_arguments_tuple_appended {β : Type} (f : set_arguments_functor β)
    (i : repeat_infos) :
    appended f (set_arguments_tuple f i)
      [.cl_uint (i.sub1 % 2 ^ 32), .cl_uint (i.sub2 % 2 ^ 32), .cl_uint (i.rep1 % 2 ^ 32),
       .cl_uint (i.rep2 % 2 ^ 32)] := by
  have h0 : appended f f [] := appended_refl _ _ rfl rfl
  have h := appended_then_setArg_next (appended_then_setArg_next (appended_then_setArg_next
    (appended_then_setArg_next h0 (to_cl_uint i.sub1)) (to_cl_uint i.sub2))
    (to_cl_uint i.rep1)) (to_cl_uint i.rep2)
  simpa [set_arguments_tuple, to_cl_uint] using h

/-- The value overload appends one argument when it returns, and none when it throws. -/
theorem set_arguments_value_appended {β : Type} (f : set_arguments_functor β)
    (dtype : numeric_type) (scal : values_holder) :
    ∃ vs, appended f (set_arguments_value f dtype scal).1 vs
      ∧ vs.length = if (set_arguments_value f dtype scal).2 = none then 1 else 0 := by
  cases dtype
  case INVALID_NUMERIC_TYPE => exact ⟨[], appended_refl _ _ rfl rfl, by simp [set_arguments_value]⟩
  all_goals exact ⟨[_], appended_setArg_next f _, by simp [set_arguments_value]⟩

/-- The element overload appends some values, in a row from the cursor. -/
theorem set_arguments_element_appended {β : Type} (B : symbolic_binder β)
    (f : set_arguments_functor β) (lhs_rhs : lhs_rhs_element) :
    ∃ vs, appended f (set_arguments_element B f lhs_rhs).1 vs := by
  unfold set_arguments_element
  split
  · obtain ⟨vs, h, _⟩ := set_arguments_value_appended f lhs_rhs.dtype lhs_rhs.vscalar
    exact ⟨vs, h⟩
  · exact ⟨_, set_arguments_array_appended B f lhs_rhs.array⟩
  · exact ⟨_, set_arguments_tuple_appended f lhs_rhs.tuple⟩
  · exact ⟨[], appended_refl _ _ rfl rfl⟩

/-- One call of the bind functor appends some values, in a row from the cursor. -/
theorem set_arguments_functor_call_appended {β : Type} (B : symbolic_binder β)
    (e : symbolic_expression) (f : set_arguments_functor β)
    (visit : Fin e.tree.length × leaf_t) :
    ∃ vs, appended f (set_arguments_functor_call B e f visit).1 vs := by
  unfold set_arguments_functor_call
  simp only []
  split_ifs
  · exact set_arguments_element_appended B f _
  · exact set_arguments_element_appended B f _
  · exact ⟨[], appended_refl _ _ rfl rfl⟩

/-- A traversal with the bind functor appends some values, in a row from the cursor. -/
theorem traverse_with_appended {β : Type} (B : symbolic_binder β) (e : symbolic_expression)
    (visits : List (Fin e.tree.length × leaf_t)) :
    ∀ f : set_arguments_functor β,
      ∃ vs, appended f (traverse_with (set_arguments_functor_call B e) f visits).1 vs := by
  induction visits with
  | nil => intro f; exact ⟨[], appended_refl _ _ rfl rfl⟩
  | cons visit visits ih =>
    intro f
    obtain ⟨vs, h1⟩ := set_arguments_functor_call_appended B e f visit
    rcases hcall : set_arguments_functor_call B e f visit with ⟨f1, thrown⟩
    rw [hcall] at h1
    simp only [traverse_with, hcall]
    cases thrown with
    | none =>
      obtain ⟨ws, h2⟩ := ih f1
      exact ⟨vs ++ ws, appended_trans h1 h2⟩
    | some ex => exact ⟨vs, h1⟩

/-- The loop of `set_arguments` over a batch appends some values, in a row from the cursor. -/
theorem set_arguments_loop_appended {β : Type} (B : symbolic_binder β) (traverse : traversal)
    (symbolic_expressions : symbolic_expressions_container) :
    ∀ f : set_arguments_functor β,
      ∃ vs, appended f (set_arguments_loop B traverse f symbolic_expressions).1 vs := by
  induction symbolic_expressions with
  | nil => intro f; exact ⟨[], appended_refl _ _ rfl rfl⟩
  | cons e rest ih =>
    intro f
    obtain ⟨vs, h1⟩ := traverse_with_appended B e (traverse e) f
    rcases hrun : traverse_with (set_arguments_functor_call B e) f (traverse e) with ⟨f1, thrown⟩
    rw [hrun] at h1
    simp only [set_arguments_loop, hrun]
    cases thrown with
    | none =>
      obtain ⟨ws, h2⟩ := ih f1
      exact ⟨vs ++ ws, appended_trans h1 h2⟩
    | some ex => exact ⟨vs, h1⟩

/-- C6. For every array operand `x`, `set_arguments(x)` appends, on a first sighting of the
buffer of `x`, the device pointer followed by `(start1)` for shape `(1,1)`, by
`(max start, max stride)` for a vector (exactly one extent equal to 1) and by
`(ld, start1, start2, stride1, stride2)` for a matrix, each field as an unsigned 32-bit value;
when the buffer was already seen nothing is appended and the cursor is unchanged. -/
theorem set_arguments_array_sequence {β : Type} (B : symbolic_binder β)
    (f : set_arguments_functor β) (x : array_infos) :
    let sighting := B.bind f.binder_ x.data
    let after := set_arguments_array B f x
    after.binder_ = sighting.2
    ∧ after.kernel_ = f.kernel_ ++ placed_from f.current_arg_
        (if sighting.1 = true then .mem x.data :: rank_fields x else [])
    ∧ (sighting.1 = false → after.kernel_ = f.kernel_ ∧ after.current_arg_ = f.current_arg_) := by
  have h := set_arguments_array_appended B f x
  refine ⟨?_, h.1, ?_⟩
  · unfold set_arguments_array
    simp only []
    split_ifs <;> rfl
  · intro hs
    have h1 := h.1
    have h2 := h.2
    simp only [hs, Bool.false_eq_true, if_false, placed_from, List.append_nil, List.length_nil,
      cursor_after] at h1 h2
    exact ⟨h1, h2⟩

/-- C6 at an instance: a fresh per-handle binder, cursor 3, a column vector of 5 elements with
starts `(2, 0)` and strides `(3, 1)` on buffer 7. -/
theorem set_arguments_array_sequence_witness :
    (set_arguments_array binder_vtable
        ⟨make_binder .BIND_TO_HANDLE, 3, []⟩
        ⟨.FLOAT_TYPE, some 7, 5, 1, 2, 0, 3, 1, 5⟩).kernel_
      = [(3, .mem (some 7)), (4, .cl_uint 2), (5, .cl_uint 3)] :=
  (set_arguments_array_sequence binder_vtable ⟨make_binder .BIND_TO_HANDLE, 3, []⟩
    ⟨.FLOAT_TYPE, some 7, 5, 1, 2, 0, 3, 1, 5⟩).2.1.trans (by decide)

/-- What was written, when some values were appended. -/
theorem written_of_appended {β : Type} {f g : set_arguments_functor β} {vs : List kernel_arg}
    (h : appended f g vs) : written f g = placed_from f.current_arg_ vs := by
  simp [written, h.1]

/-- The templates looked up for the five binding kinds. -/
theorem generate_arguments_accessors_lookup (data_type : String) :
    (generate_arguments_accessors data_type).lookup "array0"
        = some "__global #scalartype* #pointer, uint #start,"
    ∧ (generate_arguments_accessors data_type).lookup "array1"
        = some ("__global " ++ data_type ++ "* #pointer, uint #start, uint #stride,")
    ∧ (generate_arguments_accessors data_type).lookup "array2"
        = some ("__global " ++ data_type
          ++ "* #pointer, uint #ld, uint #start1, uint #start2, uint #stride1, uint #stride2,")
    ∧ (generate_arguments_accessors data_type).lookup "host_scalar" = some "#scalartype #name,"
    ∧ (generate_arguments_accessors data_type).lookup "tuple4"
        = some "#scalartype #name0, #scalartype #name1, #scalartype #name2, #scalartype #name3," :=
  ⟨rfl, rfl, rfl, rfl, rfl⟩

/-- The numbers of parameters that the five templates declare, for an element type name
without a comma. -/
theorem declared_parameters_of_table (data_type : String) (h : ',' ∉ data_type.data) :
    declared_parameters_of data_type "array0" = some 2
    ∧ declared_parameters_of data_type "array1" = some 3
    ∧ declared_parameters_of data_type "array2" = some 6
    ∧ declared_parameters_of data_type "host_scalar" = some 1
    ∧ declared_parameters_of data_type "tuple4" = some 4 := by
  have hc : data_type.data.count ',' = 0 := List.count_eq_zero.mpr h
  obtain ⟨h0, h1, h2, h3, h4⟩ := generate_arguments_accessors_lookup data_type
  unfold declared_parameters_of
  rw [h0, h1, h2, h3, h4]
  simp only [Option.map_some', declared_parameters, String.data_append, List.count_append, hc]
  refine ⟨?_, ?_, ?_, ?_, ?_⟩ <;> decide

/-- C7. For each binding kind the declaration template of `generate_arguments` declares as many
parameters as the bind functor appends arguments for an operand of that kind on its first
sighting: 2 for a scalar-shaped array (`array0`), 3 for a vector (`array1`), 6 for a matrix
(`array2`), 1 for a host scalar, 4 for a repeat tuple (`tuple4`), these in the order `sub1`,
`sub2`, `rep1`, `rep2`. The element type name `data_type` holds no comma. -/
theorem declared_parameters_match_arguments (data_type : String)
    (h : ',' ∉ data_type.data) :
    (declared_parameters_of data_type "array0" = some 2
      ∧ ∀ (β : Type) (B : symbolic_binder β) (f : set_arguments_functor β) (x : array_infos),
          (B.bind f.binder_ x.data).1 = true → x.shape1 = 1 ∧ x.shape2 = 1 →
          (written f (set_arguments_array B f x)).length = 2)
    ∧ (declared_parameters_of data_type "array1" = some 3
      ∧ ∀ (β : Type) (B : symbolic_binder β) (f : set_arguments_functor β) (x : array_infos),
          (B.bind f.binder_ x.data).1 = true →
          (x.shape1 = 1 ∧ x.shape2 ≠ 1) ∨ (x.shape1 ≠ 1 ∧ x.shape2 = 1) →
          (written f (set_arguments_array B f x)).length = 3)
    ∧ (declared_parameters_of data_type "array2" = some 6
      ∧ ∀ (β : Type) (B : symbolic_binder β) (f : set_arguments_functor β) (x : array_infos),
          (B.bind f.binder_ x.data).1 = true → x.shape1 ≠ 1 → x.shape2 ≠ 1 →
          (written f (set_arguments_array B f x)).length = 6)
    ∧ (declared_parameters_of data_type "host_scalar" = some 1
      ∧ ∀ (β : Type) (f : set_arguments_functor β) (dtype : numeric_type) (scal : values_holder),
          (set_arguments_value f dtype scal).2 = none →
          (written f (set_arguments_value f dtype scal).1).length = 1)
    ∧ (declared_parameters_of data_type "tuple4" = some 4
      ∧ ∀ (β : Type) (f : set_arguments_functor β) (i : repeat_infos),
          (written f (set_arguments_tuple f i)).map Prod.snd
            = [.cl_uint (i.sub1 % 2 ^ 32), .cl_uint (i.sub2 % 2 ^ 32),
               .cl_uint (i.rep1 % 2 ^ 32), .cl_uint (i.rep2 % 2 ^ 32)]) := by
  obtain ⟨t0, t1, t2, t3, t4⟩ := declared_parameters_of_table data_type h
  refine ⟨⟨t0, ?_⟩, ⟨t1, ?_⟩, ⟨t2, ?_⟩, ⟨t3, ?_⟩, ⟨t4, ?_⟩⟩
  · intro β B f x hb hs
    rw [written_of_appended (set_arguments_array_appended B f x), placed_from_length, if_pos hb]
    simp [rank_fields, hs]
  · intro β B f x hb hv
    have hs : ¬ (x.shape1 = 1 ∧ x.shape2 = 1) := by
      rcases hv with ⟨_, h2⟩ | ⟨h1, _⟩
      · exact fun hs => h2 hs.2
      · exact fun hs => h1 hs.1
    rw [written_of_appended (set_arguments_array_appended B f x), placed_from_length, if_pos hb]
    simp [rank_fields, hs, hv]
  · intro β B f x hb h1 h2
    rw [written_of_appended (set_arguments_array_appended B f x), placed_from_length, if_pos hb]
    simp [rank_fields, h1, h2]
  · intro β f dtype scal hnone
    obtain ⟨vs, hvs, hlen⟩ := set_arguments_value_appended f dtype scal
    rw [written_of_appended hvs, placed_from_length, hlen, if_pos hnone]
  · intro β f i
    rw [written_of_appended (set_arguments_tuple_appended f i), placed_from_snd]

/-- C7 at an instance: element type name `float`. -/
theorem declared_parameters_match_arguments_witness :
    declared_parameters_of "float" "array2" = some 6
    ∧ (written (⟨make_binder .BIND_TO_HANDLE, 0, []⟩ : set_arguments_functor binder_object)
        (set_arguments_array binder_vtable ⟨make_binder .BIND_TO_HANDLE, 0, []⟩
          ⟨.FLOAT_TYPE, some 1, 4, 4, 0, 0, 1, 1, 4⟩)).length = 6 :=
  ⟨(declared_parameters_match_arguments "float" (by decide)).2.2.1.1,
   (declared_parameters_match_arguments "float" (by decide)).2.2.1.2 binder_object binder_vtable
      ⟨make_binder .BIND_TO_HANDLE, 0, []⟩ ⟨.FLOAT_TYPE, some 1, 4, 4, 0, 0, 1, 1, 4⟩
      (by decide) (by decide) (by decide)⟩

/-- C8 as stated fails at the end of the `unsigned int` range: a repeat tuple bound with the
cursor at `4294967295` goes to the indices `4294967295, 0, 1, 2`, and the cursor ends at 3. -/
theorem cursor_wraps_around :
    ((set_arguments_tuple (⟨(), 4294967295, []⟩ : set_arguments_functor Unit)
        ⟨1, 2, 3, 4⟩).kernel_.map Prod.fst = [4294967295, 0, 1, 2]
      ∧ (set_arguments_tuple (⟨(), 4294967295, []⟩ : set_arguments_functor Unit)
        ⟨1, 2, 3, 4⟩).current_arg_ = 3)
    ∧ ¬ ((set_arguments_tuple (⟨(), 4294967295, []⟩ : set_arguments_functor Unit)
          ⟨1, 2, 3, 4⟩).kernel_.map Prod.fst = List.range' 4294967295 4
        ∧ (set_arguments_tuple (⟨(), 4294967295, []⟩ : set_arguments_functor Unit)
          ⟨1, 2, 3, 4⟩).current_arg_ = 4294967295 + 4) := by
  decide

/-- C8, amended. Every step of the bind traversal (host scalar, array, repeat tuple, one call of
the functor) and a whole `set_arguments` call on a batch only add arguments to the kernel; when
the cursor `c` at the start and the number `k` of arguments written satisfy `c + k < 2^32`, the
arguments are written at the indices `c`, `c+1`, ..., `c+k-1` in that order and the cursor ends
at `c+k`. -/
theorem bind_traversal_consecutive :
    (∀ (β : Type) (f : set_arguments_functor β) (dtype : numeric_type) (scal : values_holder),
        written_consecutively f (set_arguments_value f dtype scal).1)
    ∧ (∀ (β : Type) (B : symbolic_binder β) (f : set_arguments_functor β) (x : array_infos),
        written_consecutively f (set_arguments_array B f x))
    ∧ (∀ (β : Type) (f : set_arguments_functor β) (i : repeat_infos),
        written_consecutively f (set_arguments_tuple f i))
    ∧ (∀ (β : Type) (B : symbolic_binder β) (e : symbolic_expression)
        (f : set_arguments_functor β) (visit : Fin e.tree.length × leaf_t),
        written_consecutively f (set_arguments_functor_call B e f visit).1)
    ∧ (∀ (binding_policy_ : binding_policy_t) (traverse : traversal)
        (symbolic_expressions : symbolic_expressions_container)
        (kernel : List (Nat × kernel_arg)) (current_arg : Nat),
        written_consecutively
          ⟨make_binder binding_policy_, current_arg, kernel⟩
          (set_arguments binding_policy_ traverse symbolic_expressions kernel current_arg).1) := by
  refine ⟨?_, ?_, ?_, ?_, ?_⟩
  · intro β f dtype scal
    obtain ⟨vs, h, _⟩ := set_arguments_value_appended f dtype scal
    exact appended_written_consecutively h
  · intro β B f x
    exact appended_written_consecutively (set_arguments_array_appended B f x)
  · intro β f i
    exact appended_written_consecutively (set_arguments_tuple_appended f i)
  · intro β B e f visit
    obtain ⟨vs, h⟩ := set_arguments_functor_call_appended B e f visit
    exact appended_written_consecutively h
  · intro binding_policy_ traverse symbolic_expressions kernel current_arg
    obtain ⟨vs, h⟩ := set_arguments_loop_appended binder_vtable traverse symbolic_expressions
      ⟨make_binder binding_policy_, current_arg, kernel⟩
    exact appended_written_consecutively h

/-- C8 at an instance: a repeat tuple bound with the cursor at 5 goes to the indices 5, 6, 7, 8
and the cursor ends at 9. -/
theorem bind_traversal_consecutive_witness :
    (written (⟨(), 5, []⟩ : set_arguments_functor Unit)
        (set_arguments_tuple ⟨(), 5, []⟩ ⟨1, 2, 3, 4⟩)).map Prod.fst = [5, 6, 7, 8]
    ∧ (set_arguments_tuple (⟨(), 5, []⟩ : set_arguments_functor Unit) ⟨1, 2, 3, 4⟩).current_arg_
        = 9 :=
  (bind_traversal_consecutive.2.2.1 Unit ⟨(), 5, []⟩ ⟨1, 2, 3, 4⟩).2 (by decide)

/-! ## The two traversals -/

/-- C10. `map_functor::create(a)` builds, whenever the element type of `a` has a name, the array
binding with that name, with the identifier that the binder returns for the buffer of `a`, and
with a rank tag decided by the shape alone: `s` for shape `(1,1)`, `c` for `shape1 > 1` and
`shape2 = 1`, `r` for `shape1 = 1` and `shape2 > 1`, and `m` in every other case. -/
theorem create_array_rank {β : Type} (H : helpers) (B : symbolic_binder β) (binder_ : β)
    (a : array_infos) :
    create_array H B binder_ a =
        (match H.numeric_type_to_string a.dtype with
         | .error ex => (.error ex, binder_)
         | .ok name =>
           (.ok (.mapped_array name (B.get binder_ a.data).1 (rank_tag a.shape1 a.shape2)),
            (B.get binder_ a.data).2))
    ∧ (rank_tag a.shape1 a.shape2 = 's' ↔ a.shape1 = 1 ∧ a.shape2 = 1)
    ∧ (rank_tag a.shape1 a.shape2 = 'c' ↔ 1 < a.shape1 ∧ a.shape2 = 1)
    ∧ (rank_tag a.shape1 a.shape2 = 'r' ↔ a.shape1 = 1 ∧ 1 < a.shape2)
    ∧ (rank_tag a.shape1 a.shape2 = 'm' ↔
        ¬ (a.shape1 = 1 ∧ a.shape2 = 1) ∧ ¬ (1 < a.shape1 ∧ a.shape2 = 1)
          ∧ ¬ (a.shape1 = 1 ∧ 1 < a.shape2)) := by
  refine ⟨?_, ?_, ?_, ?_, ?_⟩
  · unfold create_array rank_tag
    cases H.numeric_type_to_string a.dtype with
    | error ex => rfl
    | ok name =>
      simp only [gt_iff_lt]
      split_ifs <;> rfl
  all_goals
    unfold rank_tag
    split_ifs with h1 h2 h3 <;> refine ⟨fun hc => ?_, fun hh => ?_⟩ <;>
      first
      | exact absurd hc (by decide)
      | rfl
      | omega

/-! ## Fetch loops -/

/-- The strided policy: the triple is the caller's texts and the stream is left alone. -/
theorem fetching_loop_info_strided (bound : String) (stream : kernel_generation_stream)
    (init upper_bound inc domain_id domain_size : String) :
    fetching_loop_info .FETCH_FROM_GLOBAL_STRIDED bound stream init upper_bound inc domain_id
        domain_size
      = { stream := stream, init := domain_id, upper_bound := bound, inc := domain_size } :=
  rfl

/-- The contiguous policy: three declarations go to the stream and the triple names the chunk
variables. -/
theorem fetching_loop_info_contiguous (bound : String) (stream : kernel_generation_stream)
    (init upper_bound inc domain_id domain_size : String) :
    fetching_loop_info .FETCH_FROM_GLOBAL_CONTIGUOUS bound stream init upper_bound inc domain_id
        domain_size
      = { stream := emit_line (emit_line (emit_line stream
            ("unsigned int chunk_size = (" ++ bound ++ "+" ++ domain_size ++ "-1)/"
              ++ domain_size ++ ";"))
            ("unsigned int chunk_start =" ++ domain_id ++ "*chunk_size;"))
            ("unsigned int chunk_end = min(chunk_start+chunk_size, " ++ bound ++ ");"),
          init := "chunk_start", upper_bound := "chunk_end", inc := "1" } := by
  unfold fetching_loop_info
  rw [if_neg (by decide), if_pos rfl]
  simp only [emit_line, kernel_generation_stream.put, kernel_generation_stream.endl,
    String.append_assoc]
  rfl

/-- Any other policy: the stream and the three output variables are left as they were. -/
theorem fetching_loop_info_other (policy : fetching_policy_type)
    (h1 : policy ≠ .FETCH_FROM_GLOBAL_STRIDED) (h2 : policy ≠ .FETCH_FROM_GLOBAL_CONTIGUOUS)
    (bound : String) (stream : kernel_generation_stream)
    (init upper_bound inc domain_id domain_size : String) :
    fetching_loop_info policy bound stream init upper_bound inc domain_id domain_size
      = { stream := stream, init := init, upper_bound := upper_bound, inc := inc } := by
  unfold fetching_loop_info
  rw [if_neg h1, if_neg h2]

/-- C11. `fetching_loop_info` returns for the strided policy the triple
`(domain_id, bound, domain_size)` and writes nothing to the stream; for the contiguous policy it
returns `("chunk_start", "chunk_end", "1")` and writes exactly three declarations, in this order:
`chunk_size` as `(bound+domain_size-1)/domain_size`, `chunk_start` as `domain_id*chunk_size` and
`chunk_end` as `min(chunk_start+chunk_size, bound)`. -/
theorem fetching_loop_info_returns (bound : String) (stream : kernel_generation_stream)
    (init upper_bound inc domain_id domain_size : String) :
    fetching_loop_info .FETCH_FROM_GLOBAL_STRIDED bound stream init upper_bound inc domain_id
        domain_size
      = { stream := stream, init := domain_id, upper_bound := bound, inc := domain_size }
    ∧ fetching_loop_info .FETCH_FROM_GLOBAL_CONTIGUOUS bound stream init upper_bound inc
        domain_id domain_size
      = { stream := emit_line (emit_line (emit_line stream
            ("unsigned int chunk_size = (" ++ bound ++ "+" ++ domain_size ++ "-1)/"
              ++ domain_size ++ ";"))
            ("unsigned int chunk_start =" ++ domain_id ++ "*chunk_size;"))
            ("unsigned int chunk_end = min(chunk_start+chunk_size, " ++ bound ++ ");"),
          init := "chunk_start", upper_bound := "chunk_end", inc := "1" } :=
  ⟨fetching_loop_info_strided bound stream init upper_bound inc domain_id domain_size,
   fetching_loop_info_contiguous bound stream init upper_bound inc domain_id domain_size⟩

/-- C18 as stated fails for a policy value other than the two global ones: the output variables
keep what they contained, so two calls with equal policy, bound, domain id and domain size leave
different triples. -/
theorem fetching_loop_info_keeps_outputs :
    (fetching_loop_info (.FETCH_OTHER_POLICY 0) "N" ⟨[], ""⟩ "a" "b" "c" "id" "n").init = "a"
    ∧ (fetching_loop_info (.FETCH_OTHER_POLICY 0) "N" ⟨[], ""⟩ "x" "y" "z" "id" "n").init = "x"
    ∧ (fetching_loop_info (.FETCH_OTHER_POLICY 0) "N" ⟨[], ""⟩ "a" "b" "c" "id" "n").init
      ≠ (fetching_loop_info (.FETCH_OTHER_POLICY 0) "N" ⟨[], ""⟩ "x" "y" "z" "id" "n").init := by
  decide

/-- C18, amended. For the strided and the contiguous policy the triple that
`fetching_loop_info` leaves in its output variables is determined by the policy, the bound, the
domain id and the domain size alone, whatever the output variables and the stream contained
before each call; for every other policy value the call leaves the output variables and the
stream as they were. -/
theorem fetching_loop_info_determined (policy : fetching_policy_type)
    (bound domain_id domain_size : String)
    (stream1 stream2 : kernel_generation_stream)
    (init1 upper_bound1 inc1 init2 upper_bound2 inc2 : String) :
    let call1 := fetching_loop_info policy bound stream1 init1 upper_bound1 inc1 domain_id
      domain_size
    let call2 := fetching_loop_info policy bound stream2 init2 upper_bound2 inc2 domain_id
      domain_size
    (policy = .FETCH_FROM_GLOBAL_STRIDED ∨ policy = .FETCH_FROM_GLOBAL_CONTIGUOUS →
        (call1.init, call1.upper_bound, call1.inc) = (call2.init, call2.upper_bound, call2.inc))
    ∧ (policy ≠ .FETCH_FROM_GLOBAL_STRIDED → policy ≠ .FETCH_FROM_GLOBAL_CONTIGUOUS →
        call1 = { stream := stream1, init := init1, upper_bound := upper_bound1, inc := inc1 })
    := by
  refine ⟨?_, fun h1 h2 => fetching_loop_info_other policy h1 h2 _ _ _ _ _ _ _⟩
  rintro (h | h)
  · subst h
    simp only [fetching_loop_info_strided]
  · subst h
    simp only [fetching_loop_info_contiguous]

/-! ## Vector loads and stores -/

/-- C13. `vload` and `vstore` are plain pointer indexing at width 1 and a call with the width
as suffix otherwise, and `append_width` adds the decimal width to a name unless it is 1. -/
theorem vload_vstore_text (offset ptr value str : String) :
    vload 1 offset ptr = "(" ++ ptr ++ ")[" ++ offset ++ "]"
    ∧ vstore 1 value offset ptr = "(" ++ ptr ++ ")[" ++ offset ++ "] = " ++ value
    ∧ (∀ w : Nat, w ≠ 1 →
        vload w offset ptr = "vload" ++ to_string_unsigned w ++ "(" ++ offset ++ ", " ++ ptr ++ ")")
    ∧ (∀ w : Nat, w ≠ 1 →
        vstore w value offset ptr
          = "vstore" ++ to_string_unsigned w ++ "(" ++ value ++ ", " ++ offset ++ ", " ++ ptr
            ++ ")")
    ∧ append_width str 1 = str
    ∧ (∀ w : Nat, w ≠ 1 → append_width str w = str ++ to_string_unsigned w)
    ∧ (∀ w : Nat, to_string_unsigned w = String.mk (decimal_digits w)) := by
  refine ⟨rfl, rfl, ?_, ?_, rfl, ?_, fun _ => rfl⟩
  · intro w hw
    simp only [vload, append_width, if_neg hw]
  · intro w hw
    simp only [vstore, append_width, if_neg hw]
  · intro w hw
    simp only [append_width, if_neg hw]

/-- The text emitted by `element_wise_loop_1D`, loop by loop. -/
theorem element_wise_loop_1D_eq (stream : kernel_generation_stream)
    (loop_body : kernel_generation_stream → Nat → kernel_generation_stream)
    (fetch : fetching_policy_type) (simd_width : Nat) (i bound domain_id domain_size : String) :
    element_wise_loop_1D stream loop_body fetch simd_width i bound domain_id domain_size
      = if 1 < simd_width then
          emit_loop (emit_loop
            (fetching_loop_info fetch (bound ++ "/" ++ to_string_unsigned simd_width) stream ""
              "" "" domain_id domain_size).stream i
            (fetching_loop_info fetch (bound ++ "/" ++ to_string_unsigned simd_width) stream ""
              "" "" domain_id domain_size).init
            (fetching_loop_info fetch (bound ++ "/" ++ to_string_unsigned simd_width) stream ""
              "" "" domain_id domain_size).upper_bound
            (fetching_loop_info fetch (bound ++ "/" ++ to_string_unsigned simd_width) stream ""
              "" "" domain_id domain_size).inc loop_body simd_width) i
            (bound ++ "/" ++ to_string_unsigned simd_width ++ "*"
              ++ to_string_unsigned simd_width ++ " + " ++ domain_id) bound domain_size
            loop_body 1
        else
          emit_loop
            (fetching_loop_info fetch (bound ++ "/" ++ to_string_unsigned simd_width) stream ""
              "" "" domain_id domain_size).stream i
            (fetching_loop_info fetch (bound ++ "/" ++ to_string_unsigned simd_width) stream ""
              "" "" domain_id domain_size).init
            (fetching_loop_info fetch (bound ++ "/" ++ to_string_unsigned simd_width) stream ""
              "" "" domain_id domain_size).upper_bound
            (fetching_loop_info fetch (bound ++ "/" ++ to_string_unsigned simd_width) stream ""
              "" "" domain_id domain_size).inc loop_body simd_width := by
  unfold element_wise_loop_1D emit_loop emit_line
  simp only [kernel_generation_stream.put, kernel_generation_stream.endl,
    kernel_generation_stream.inc_tab, kernel_generation_stream.dec_tab, String.append_assoc,
    gt_iff_lt]

/-- C12. `element_wise_loop_1D` emits first one main loop whose init, upper bound and increment
are those that `fetching_loop_info` yields for the bound text `bound/simd_width` under the chosen
policy and whose body is the loop body of width `simd_width`; after it, it emits a remainder loop
if and only if `simd_width > 1`, and that loop runs from `bound/simd_width*simd_width + domain_id`
in steps of `domain_size` while below `bound`, with the body of width 1. With `simd_width = 1`
the main loop is the only one. -/
theorem element_wise_loop_1D_loops (stream : kernel_generation_stream)
    (loop_body : kernel_generation_stream → Nat → kernel_generation_stream)
    (fetch : fetching_policy_type) (simd_width : Nat) (i bound domain_id domain_size : String) :
    let strwidth := to_string_unsigned simd_width
    let info := fetching_loop_info fetch (bound ++ "/" ++ strwidth) stream "" "" "" domain_id
      domain_size
    let main := emit_loop info.stream i info.init info.upper_bound info.inc loop_body simd_width
    let remainder := emit_loop main i
      (bound ++ "/" ++ strwidth ++ "*" ++ strwidth ++ " + " ++ domain_id) bound domain_size
      loop_body 1
    let emitted := element_wise_loop_1D stream loop_body fetch simd_width i bound domain_id
      domain_size
    (1 < simd_width → emitted = remainder)
    ∧ (¬ 1 < simd_width → emitted = main)
    ∧ (simd_width = 1 → emitted = main) := by
  have key := element_wise_loop_1D_eq stream loop_body fetch simd_width i bound domain_id
    domain_size
  refine ⟨fun h => ?_, fun h => ?_, fun h => ?_⟩
  · rw [key, if_pos h]
  · rw [key, if_neg h]
  · rw [key, if_neg (by omega)]

/-! ## Index reductions -/

/-- C16. `compute_index_reduction` emits first `acc= select(acc,cur,cur_value>acc_value);` and
then the update `acc_value=P(acc_value,cur_value);` of the value accumulator, where `P` is
`fmax` for the float arg-max operator, `max` for the arg-max operator, `fmin` for the float
arg-min operator and `min` for the arg-min operator; `fmax` is not `max`. -/
theorem compute_index_reduction_text (os : kernel_generation_stream)
    (acc cur acc_value cur_value : String) (op : op_element) :
    let select_line := acc ++ "= select(" ++ acc ++ "," ++ cur ++ "," ++ cur_value ++ ">"
      ++ acc_value ++ ");"
    let update_line := fun P : String =>
      acc_value ++ "=" ++ P ++ "(" ++ acc_value ++ "," ++ cur_value ++ ");"
    let emitted := compute_index_reduction os acc cur acc_value cur_value op
    (op.type = .OPERATOR_ELEMENT_ARGFMAX_TYPE →
        emitted = emit_line (emit_line os select_line) (update_line "fmax"))
    ∧ (op.type = .OPERATOR_ELEMENT_ARGMAX_TYPE →
        emitted = emit_line (emit_line os select_line) (update_line "max"))
    ∧ (op.type = .OPERATOR_ELEMENT_ARGFMIN_TYPE →
        emitted = emit_line (emit_line os select_line) (update_line "fmin"))
    ∧ (op.type = .OPERATOR_ELEMENT_ARGMIN_TYPE →
        emitted = emit_line (emit_line os select_line) (update_line "min"))
    ∧ "fmax" ≠ "max" := by
  refine ⟨fun h => ?_, fun h => ?_, fun h => ?_, fun h => ?_, by decide⟩ <;>
    simp [compute_index_reduction, emit_line, kernel_generation_stream.put,
      kernel_generation_stream.endl, String.append_assoc, h]

/-! ## Failures of the argument binding -/

/-- C17. `set_arguments(lhs_rhs_element)` fails if and only if the family of the operand is none
of value, array and repeat tuple (invalid-expression condition "Unrecognized type family") or
the operand is a value whose element type is none of the ten supported ones (unknown-datatype
condition). A failing call leaves the functor as it was: no argument written, cursor unchanged.
For each of the ten supported types a value operand appends exactly one argument, the field of
the value holder that matches the type. -/
theorem set_arguments_element_failure {β : Type} (B : symbolic_binder β)
    (f : set_arguments_functor β) (lhs_rhs : lhs_rhs_element) :
    let outcome := set_arguments_element B f lhs_rhs
    let unrecognized := lhs_rhs.type_family ∉
      [symbolic_expression_node_type_family.VALUE_TYPE_FAMILY, .ARRAY_TYPE_FAMILY,
       .INFOS_TYPE_FAMILY]
    let unknown := lhs_rhs.type_family = .VALUE_TYPE_FAMILY ∧ lhs_rhs.dtype ∉
      [numeric_type.CHAR_TYPE, .UCHAR_TYPE, .SHORT_TYPE, .USHORT_TYPE, .INT_TYPE, .UINT_TYPE,
       .LONG_TYPE, .ULONG_TYPE, .FLOAT_TYPE, .DOUBLE_TYPE]
    (outcome.2 ≠ none ↔ unrecognized ∨ unknown)
    ∧ (unrecognized → outcome = (f, some (.invalid_exception "Unrecognized type family")))
    ∧ (unknown → outcome = (f, some (.unknown_datatype lhs_rhs.dtype)))
    ∧ (outcome.2 ≠ none → outcome.1 = f)
    ∧ (lhs_rhs.type_family = .VALUE_TYPE_FAMILY →
        ∀ value, matching_field lhs_rhs.dtype lhs_rhs.vscalar = some value →
          outcome = ({ f with kernel_ := f.kernel_ ++ [(f.current_arg_, value)]
                              current_arg_ := (f.current_arg_ + 1) % 2 ^ 32 }, none))
    ∧ (lhs_rhs.dtype ∈
        [numeric_type.CHAR_TYPE, .UCHAR_TYPE, .SHORT_TYPE, .USHORT_TYPE, .INT_TYPE, .UINT_TYPE,
         .LONG_TYPE, .ULONG_TYPE, .FLOAT_TYPE, .DOUBLE_TYPE] →
        ∃ value, matching_field lhs_rhs.dtype lhs_rhs.vscalar = some value) := by
  rcases lhs_rhs with ⟨family, dtype, node_index, vscalar, array, tuple⟩
  cases family <;> cases dtype <;>
    simp [set_arguments_element, set_arguments_value, matching_field,
      set_arguments_functor.setArg_next]

/-! ## Alignment -/

/-- Without wrap-around the second branch of `align` is `(to_round + base - 1)/base * base`. -/
theorem align_of_not_multiple (to_round base : Nat) (hb : 0 < base)
    (h : to_round + base - 1 < 2 ^ 32) (hm : ¬ to_round % base = 0) :
    align to_round base = (to_round + base - 1) / base * base := by
  unfold align
  rw [if_neg hm]
  simp only []
  have h1 : ((to_round + base) % 2 ^ 32 + 2 ^ 32 - 1) % 2 ^ 32 = to_round + base - 1 := by
    omega
  rw [h1]
  exact Nat.mod_eq_of_lt (Nat.lt_of_le_of_lt (Nat.div_mul_le_self _ _) h)

/-- The first branch of `align`: a multiple of the base is returned unchanged. -/
theorem align_of_multiple (to_round base : Nat) (hm : to_round % base = 0) :
    align to_round base = to_round := by
  unfold align
  rw [if_pos hm]

/-- The rounding `(a + b - 1)/b * b` is the least multiple of `b` that is at least `a`. -/
theorem round_up_least (a b : Nat) (hb : 0 < b) :
    b ∣ (a + b - 1) / b * b ∧ a ≤ (a + b - 1) / b * b
    ∧ ∀ m, b ∣ m → a ≤ m → (a + b - 1) / b * b ≤ m := by
  have hdm := Nat.div_add_mod (a + b - 1) b
  have hlt := Nat.mod_lt (a + b - 1) hb
  have hcomm : (a + b - 1) / b * b = b * ((a + b - 1) / b) := Nat.mul_comm _ _
  refine ⟨Dvd.intro_left _ rfl, by omega, ?_⟩
  rintro m ⟨t, rfl⟩ hle
  rw [hcomm]
  apply Nat.mul_le_mul_left
  by_contra hcon
  have h1 : t + 1 ≤ (a + b - 1) / b := by omega
  have h2 : b * (t + 1) ≤ b * ((a + b - 1) / b) := Nat.mul_le_mul_left b h1
  rw [Nat.mul_add, Nat.mul_one] at h2
  omega

/-- When `to_round` is a multiple of `base`, or the sum does not wrap, `align` rounds up. -/
theorem align_rounds_up (to_round base : Nat) (hb : 0 < base)
    (h : base ∣ to_round ∨ to_round + base - 1 < 2 ^ 32) :
    base ∣ align to_round base ∧ to_round ≤ align to_round base
    ∧ ∀ m, base ∣ m → to_round ≤ m → align to_round base ≤ m := by
  by_cases hm : to_round % base = 0
  · rw [align_of_multiple to_round base hm]
    exact ⟨Nat.dvd_of_mod_eq_zero hm, Nat.le_refl _, fun m _ hle => hle⟩
  · rcases h with h | h
    · exact absurd (Nat.mod_eq_zero_of_dvd h) hm
    · rw [align_of_not_multiple to_round base hb h hm]
      exact round_up_least to_round base hb

/-- C14. For `base > 0` and `to_round + base - 1` within the unsigned 32-bit range,
`align(to_round, base)` is the least multiple of `base` that is at least `to_round`; it returns
`to_round` unchanged when that is a multiple of `base`, and it is idempotent. -/
theorem align_least_multiple (to_round base : Nat) (hb : 0 < base)
    (h : to_round + base - 1 < 2 ^ 32) :
    base ∣ align to_round base
    ∧ to_round ≤ align to_round base
    ∧ (∀ m, base ∣ m → to_round ≤ m → align to_round base ≤ m)
    ∧ (base ∣ to_round → align to_round base = to_round)
    ∧ align (align to_round base) base = align to_round base := by
  obtain ⟨h1, h2, h3⟩ := align_rounds_up to_round base hb (Or.inr h)
  exact ⟨h1, h2, h3, fun hd => align_of_multiple _ _ (Nat.mod_eq_zero_of_dvd hd),
    align_of_multiple _ _ (Nat.mod_eq_zero_of_dvd h1)⟩

/-- C14 at an instance: 13 is rounded up to 16 for base 4, and 16 stays. -/
theorem align_least_multiple_witness :
    align 13 4 = 16 ∧ align (align 13 4) 4 = align 13 4 := by
  have h := align_least_multiple 13 4 (by decide) (by decide)
  exact ⟨by decide, h.2.2.2.2⟩

/-- C15 as stated fails where the sum wraps: `align(4294967295, 2)` is 0, which is less than
`to_round`. -/
theorem align_wraps_to_zero :
    align 4294967295 2 = 0
    ∧ ¬ (2 ∣ align 4294967295 2 ∧ 4294967295 ≤ align 4294967295 2) := by
  decide

/-- C15, amended. For `base > 0`, whenever `to_round` is a multiple of `base` or
`to_round + base - 1` stays within the unsigned 32-bit range, `align(to_round, base)` under
wrapping arithmetic rounds the size up: the result is a multiple of `base` and is not less than
`to_round`. -/
theorem align_rounds_up_without_wrap (to_round base : Nat) (hb : 0 < base)
    (h : base ∣ to_round ∨ to_round + base - 1 < 2 ^ 32) :
    base ∣ align to_round base ∧ to_round ≤ align to_round base :=
  ⟨(align_rounds_up to_round base hb h).1, (align_rounds_up to_round base hb h).2.1⟩

/-- C15, amended, at an instance: `4294967294` is a multiple of 2 and stays, although the sum
`to_round + base` wraps. -/
theorem align_rounds_up_without_wrap_witness :
    2 ∣ align 4294967294 2 ∧ 4294967294 ≤ align 4294967294 2 :=
  align_rounds_up_without_wrap 4294967294 2 (by decide) (Or.inl (by decide))

/-! ## The emitted loops read as arithmetic -/

/-- The number of iterations of a loop with a positive increment, against the bound. -/
theorem lt_iterations_iff (span inc k : Nat) (hinc : 0 < inc) :
    k < (span + inc - 1) / inc ↔ inc * k < span := by
  rw [Nat.lt_iff_add_one_le, Nat.le_div_iff_mul_le hinc, Nat.add_mul, Nat.one_mul,
    Nat.mul_comm k inc]
  omega

/-- One more iteration when the variable is still below the bound. -/
theorem iterations_succ (span inc : Nat) (hinc : 0 < inc) (hspan : 0 < span) :
    (span + inc - 1) / inc = (span - inc + inc - 1) / inc + 1 := by
  have h1 : span + inc - 1 = (span - 1) + inc := by omega
  rw [h1, Nat.add_div_right _ hinc]
  congr 1
  by_cases h : inc ≤ span
  · congr 1
    omega
  · rw [Nat.div_eq_of_lt (by omega), Nat.div_eq_of_lt (by omega)]

/-- With a positive increment every fuel of at least `upper_bound - i` gives the same run of
the loop: the values `i`, `i + inc`, ... below the bound. -/
theorem for_loop_fuel_eq (upper_bound inc : Nat) (hinc : 0 < inc) :
    ∀ (fuel i : Nat), upper_bound - i ≤ fuel →
      for_loop_fuel upper_bound inc fuel i
        = List.range' i ((upper_bound - i + inc - 1) / inc) inc := by
  intro fuel
  induction fuel with
  | zero =>
    intro i h
    have h0 : upper_bound - i = 0 := by omega
    rw [h0, Nat.zero_add, Nat.div_eq_of_lt (by omega)]
    rfl
  | succ fuel ih =>
    intro i h
    by_cases hlt : i < upper_bound
    · rw [for_loop_fuel, if_pos hlt, ih (i + inc) (by omega),
        iterations_succ (upper_bound - i) inc hinc (by omega), List.range'_succ]
      have h2 : upper_bound - (i + inc) = upper_bound - i - inc := by omega
      rw [h2]
    · have h0 : upper_bound - i = 0 := by omega
      rw [for_loop_fuel, if_neg hlt, h0, Nat.zero_add, Nat.div_eq_of_lt (by omega)]
      rfl

/-- A loop with a positive increment takes the values `init`, `init + inc`, ... below the
bound. -/
theorem for_loop_eq (init upper_bound inc : Nat) (hinc : 0 < inc) :
    for_loop init upper_bound inc
      = List.range' init ((upper_bound - init + inc - 1) / inc) inc :=
  for_loop_fuel_eq upper_bound inc hinc _ init (Nat.le_refl _)

/-- A loop with increment 1 takes the values of the interval from `init` to the bound. -/
theorem for_loop_one (init upper_bound : Nat) :
    for_loop init upper_bound 1 = List.range' init (upper_bound - init) := by
  rw [for_loop_eq init upper_bound 1 (by decide), Nat.add_sub_cancel, Nat.div_one]

/-- The values taken by a loop with a positive increment. -/
theorem mem_for_loop (init upper_bound inc m : Nat) (hinc : 0 < inc) :
    m ∈ for_loop init upper_bound inc ↔ ∃ k, m = init + inc * k ∧ m < upper_bound := by
  rw [for_loop_eq init upper_bound inc hinc, List.mem_range']
  constructor
  · rintro ⟨k, hk, rfl⟩
    rw [lt_iterations_iff _ _ _ hinc] at hk
    exact ⟨k, rfl, by omega⟩
  · rintro ⟨k, rfl, hlt⟩
    exact ⟨k, (lt_iterations_iff _ _ _ hinc).mpr (by omega), rfl⟩

/-- The workers of a strided loop that starts at `start + domain_id` share the indices from
`start` to the bound: each index is visited once, by one worker. -/
theorem strided_workers_perm (start upper_bound domain_size : Nat) (hn : 0 < domain_size) :
    List.Perm
      (all_workers domain_size (fun id => for_loop (start + id) upper_bound domain_size))
      (List.range' start (upper_bound - start)) := by
  apply (List.perm_ext_iff_of_nodup ?_ (List.nodup_range' start (upper_bound - start))).mpr
  · intro m
    rw [all_workers, List.mem_flatMap, List.mem_range'_1]
    constructor
    · rintro ⟨id, _, hm⟩
      obtain ⟨k, rfl, hlt⟩ := (mem_for_loop _ _ _ _ hn).mp hm
      omega
    · rintro ⟨h1, h2⟩
      refine ⟨(m - start) % domain_size, List.mem_range.mpr (Nat.mod_lt _ hn), ?_⟩
      refine (mem_for_loop _ _ _ _ hn).mpr ⟨(m - start) / domain_size, ?_, by omega⟩
      have := Nat.div_add_mod (m - start) domain_size
      omega
  · rw [all_workers, List.nodup_flatMap]
    refine ⟨fun id _ => ?_, ?_⟩
    · rw [for_loop_eq _ _ _ hn]
      exact List.nodup_range' _ _ domain_size hn
    · apply (List.nodup_range domain_size).pairwise_of_forall_ne
      intro a ha b hb hab
      rw [List.mem_range] at ha hb
      show List.Disjoint _ _
      rw [List.disjoint_left]
      intro m hma hmb
      obtain ⟨k1, e1, _⟩ := (mem_for_loop _ _ _ _ hn).mp hma
      obtain ⟨k2, e2, _⟩ := (mem_for_loop _ _ _ _ hn).mp hmb
      apply hab
      have h3 : (a + domain_size * k1) % domain_size = (b + domain_size * k2) % domain_size := by
        have : a + domain_size * k1 = b + domain_size * k2 := by omega
        rw [this]
      rwa [Nat.add_mul_mod_self_left, Nat.add_mul_mod_self_left, Nat.mod_eq_of_lt ha,
        Nat.mod_eq_of_lt hb] at h3

/-- The loop of the strided policy, with the terms evaluated. -/
theorem strided_visits_eq (bound domain_id domain_size : Nat) :
    strided_visits bound domain_id domain_size = for_loop domain_id bound domain_size :=
  rfl

/-- The loop of the contiguous policy, with the declarations and the terms evaluated. -/
theorem contiguous_visits_eq (bound domain_id domain_size : Nat) :
    contiguous_visits bound domain_id domain_size
      = for_loop (domain_id * ((bound + domain_size - 1) / domain_size))
          (min (domain_id * ((bound + domain_size - 1) / domain_size)
            + (bound + domain_size - 1) / domain_size) bound) 1 :=
  rfl

/-- The remainder loop, with the terms evaluated. -/
theorem remainder_visits_eq (bound simd_width domain_id domain_size : Nat) :
    remainder_visits bound simd_width domain_id domain_size
      = for_loop (bound / simd_width * simd_width + domain_id) bound domain_size :=
  rfl

/-- The chunk size is the quotient of the bound by the number of workers, rounded up. -/
theorem chunk_size_is_ceiling (bound domain_size : Nat) (hn : 0 < domain_size) (k : Nat) :
    (bound + domain_size - 1) / domain_size ≤ k ↔ bound ≤ domain_size * k := by
  constructor
  · intro h
    have h1 := Nat.div_add_mod (bound + domain_size - 1) domain_size
    have h2 := Nat.mod_lt (bound + domain_size - 1) hn
    have h3 : domain_size * ((bound + domain_size - 1) / domain_size) ≤ domain_size * k :=
      Nat.mul_le_mul_left _ h
    omega
  · intro h
    by_contra hcon
    have h1 : k + 1 ≤ (bound + domain_size - 1) / domain_size := by omega
    rw [Nat.le_div_iff_mul_le hn, Nat.add_mul, Nat.one_mul, Nat.mul_comm k domain_size] at h1
    omega

/-- The chunks of the first `m` workers, one after the other, are the interval from 0 to
`min (m * c) bound`. -/
theorem chunks_prefix (bound c : Nat) :
    ∀ m : Nat,
      (List.range m).flatMap (fun id => List.range' (id * c) (min (id * c + c) bound - id * c))
        = List.range (min (m * c) bound) := by
  intro m
  induction m with
  | zero => simp
  | succ m ih =>
    rw [List.range_succ, List.flatMap_append, ih, List.flatMap_singleton, List.range_eq_range',
      List.range_eq_range', Nat.succ_mul]
    by_cases h : m * c ≤ bound
    · rw [Nat.min_eq_left h]
      have h1 := List.range'_append_1 0 (m * c) (min (m * c + c) bound - m * c)
      rw [Nat.zero_add] at h1
      rw [h1]
      congr 1
      omega
    · have h0 : min (m * c + c) bound - m * c = 0 := by omega
      rw [h0, List.range'_zero, List.append_nil]
      congr 1
      omega

/-- The text that `fetching_loop_info` emits under the strided policy is the text of the terms
that `strided_visits` evaluates. -/
theorem fetching_loop_info_strided_terms (texts : caller_text → String)
    (stream : kernel_generation_stream) (init upper_bound inc : String) :
    fetching_loop_info .FETCH_FROM_GLOBAL_STRIDED (texts .bound) stream init upper_bound inc
        (texts .domain_id) (texts .domain_size)
      = { stream := stream,
          init := (c_expr.given .domain_id).render texts,
          upper_bound := (c_expr.given .bound).render texts,
          inc := (c_expr.given .domain_size).render texts } :=
  rfl

/-- The text that `fetching_loop_info` emits under the contiguous policy is the text of the
terms that `contiguous_visits` evaluates. -/
theorem fetching_loop_info_contiguous_terms (texts : caller_text → String)
    (stream : kernel_generation_stream) (init upper_bound inc : String) :
    fetching_loop_info .FETCH_FROM_GLOBAL_CONTIGUOUS (texts .bound) stream init upper_bound inc
        (texts .domain_id) (texts .domain_size)
      = { stream := emit_line (emit_line (emit_line stream
            ("unsigned int chunk_size = " ++ chunk_size_expr.render texts ++ ";"))
            ("unsigned int chunk_start =" ++ chunk_start_expr.render texts ++ ";"))
            ("unsigned int chunk_end = " ++ chunk_end_expr.render texts ++ ";"),
          init := (c_expr.declared "chunk_start").render texts,
          upper_bound := (c_expr.declared "chunk_end").render texts,
          inc := (c_expr.literal 1).render texts } := by
  rw [fetching_loop_info_contiguous]
  simp only [c_expr.render, chunk_size_expr, chunk_start_expr, chunk_end_expr,
    c_operator.symbol, String.append_assoc, Bool.false_eq_true, if_false]
  rfl

/-- The text of the start of the remainder loop is the text of the term that
`remainder_visits` evaluates. -/
theorem remainder_init_text (texts : caller_text → String) (simd_width : Nat) :
    texts .bound ++ "/" ++ to_string_unsigned simd_width ++ "*" ++ to_string_unsigned simd_width
        ++ " + " ++ texts .domain_id
      = (remainder_init_expr simd_width).render texts := by
  simp only [c_expr.render, remainder_init_expr, c_operator.symbol, String.append_assoc,
    Bool.false_eq_true, if_false, if_true, to_string_unsigned]
  rfl

/-- C19. Read in natural-number arithmetic, the loops that `fetching_loop_info` yields make the
workers `0`, ..., `n-1` visit every index below `bound` exactly once and no other index, for
every `bound` and every number `n > 0` of workers and under either policy. Under the strided
policy worker `id` visits `id`, `id+n`, `id+2n`, ... below `bound`; under the contiguous policy
it visits the interval from `id*c` to `min(id*c + c, bound)` with `c` the quotient `bound/n`
rounded up, so the chunks are pairwise disjoint, of length at most `c`, and cover the indices
below `bound`. The terms read are those whose text `fetching_loop_info` emits. -/
theorem fetch_policies_partition (bound domain_size : Nat) (hn : 0 < domain_size) :
    (∀ (texts : caller_text → String) (stream : kernel_generation_stream)
        (init upper_bound inc : String),
        fetching_loop_info .FETCH_FROM_GLOBAL_STRIDED (texts .bound) stream init upper_bound inc
            (texts .domain_id) (texts .domain_size)
          = { stream := stream,
              init := (c_expr.given .domain_id).render texts,
              upper_bound := (c_expr.given .bound).render texts,
              inc := (c_expr.given .domain_size).render texts })
    ∧ (∀ (texts : caller_text → String) (stream : kernel_generation_stream)
        (init upper_bound inc : String),
        fetching_loop_info .FETCH_FROM_GLOBAL_CONTIGUOUS (texts .bound) stream init upper_bound
            inc (texts .domain_id) (texts .domain_size)
          = { stream := emit_line (emit_line (emit_line stream
                ("unsigned int chunk_size = " ++ chunk_size_expr.render texts ++ ";"))
                ("unsigned int chunk_start =" ++ chunk_start_expr.render texts ++ ";"))
                ("unsigned int chunk_end = " ++ chunk_end_expr.render texts ++ ";"),
              init := (c_expr.declared "chunk_start").render texts,
              upper_bound := (c_expr.declared "chunk_end").render texts,
              inc := (c_expr.literal 1).render texts })
    ∧ (∀ id i : Nat, i ∈ strided_visits bound id domain_size
        ↔ ∃ k, i = id + domain_size * k ∧ i < bound)
    ∧ (∀ id : Nat, (strided_visits bound id domain_size).Nodup)
    ∧ List.Perm (all_workers domain_size (fun id => strided_visits bound id domain_size))
        (List.range bound)
    ∧ (∀ k : Nat, (bound + domain_size - 1) / domain_size ≤ k ↔ bound ≤ domain_size * k)
    ∧ (∀ id : Nat, contiguous_visits bound id domain_size
        = List.range' (id * ((bound + domain_size - 1) / domain_size))
            (min (id * ((bound + domain_size - 1) / domain_size)
              + (bound + domain_size - 1) / domain_size) bound
              - id * ((bound + domain_size - 1) / domain_size)))
    ∧ (∀ id : Nat, (contiguous_visits bound id domain_size).length
        ≤ (bound + domain_size - 1) / domain_size)
    ∧ (∀ id1 id2 : Nat, id1 ≠ id2 →
        List.Disjoint (contiguous_visits bound id1 domain_size)
          (contiguous_visits bound id2 domain_size))
    ∧ all_workers domain_size (fun id => contiguous_visits bound id domain_size)
        = List.range bound := by
  have hchunk : ∀ id : Nat, contiguous_visits bound id domain_size
      = List.range' (id * ((bound + domain_size - 1) / domain_size))
          (min (id * ((bound + domain_size - 1) / domain_size)
            + (bound + domain_size - 1) / domain_size) bound
            - id * ((bound + domain_size - 1) / domain_size)) := by
    intro id
    rw [contiguous_visits_eq, for_loop_one]
  refine ⟨fetching_loop_info_strided_terms, fetching_loop_info_contiguous_terms, ?_, ?_, ?_,
    chunk_size_is_ceiling bound domain_size hn, hchunk, ?_, ?_, ?_⟩
  · intro id i
    rw [strided_visits_eq]
    exact mem_for_loop id bound domain_size i hn
  · intro id
    rw [strided_visits_eq, for_loop_eq _ _ _ hn]
    exact List.nodup_range' _ _ domain_size hn
  · have h := strided_workers_perm 0 bound domain_size hn
    simp only [Nat.zero_add, Nat.sub_zero, ← List.range_eq_range'] at h
    exact h
  · intro id
    rw [hchunk, List.length_range', Nat.sub_le_iff_le_add]
    exact Nat.le_trans (Nat.min_le_left _ _) (Nat.le_of_eq (Nat.add_comm _ _))
  · intro id1 id2 hne
    rw [hchunk, hchunk, List.disjoint_left]
    intro m h1 h2
    rw [List.mem_range'_1] at h1 h2
    rcases Nat.lt_or_gt_of_ne hne with h | h
    · have h3 := Nat.mul_le_mul_right ((bound + domain_size - 1) / domain_size)
        (Nat.succ_le_of_lt h)
      rw [Nat.succ_mul] at h3
      omega
    · have h3 := Nat.mul_le_mul_right ((bound + domain_size - 1) / domain_size)
        (Nat.succ_le_of_lt h)
      rw [Nat.succ_mul] at h3
      omega
  · have hcover : bound ≤ domain_size * ((bound + domain_size - 1) / domain_size) :=
      (chunk_size_is_ceiling bound domain_size hn _).mp (Nat.le_refl _)
    have hfun : (fun id => contiguous_visits bound id domain_size)
        = fun id => List.range' (id * ((bound + domain_size - 1) / domain_size))
            (min (id * ((bound + domain_size - 1) / domain_size)
              + (bound + domain_size - 1) / domain_size) bound
              - id * ((bound + domain_size - 1) / domain_size)) := funext hchunk
    rw [all_workers, hfun, chunks_prefix, Nat.min_eq_right]
    exact hcover

/-- C19 at an instance: 10 indices and 3 workers. The chunks are `0..3`, `4..7` and `8..9`. -/
theorem fetch_policies_partition_witness :
    all_workers 3 (fun id => contiguous_visits 10 id 3) = List.range 10
    ∧ contiguous_visits 10 2 3 = [8, 9] :=
  ⟨(fetch_policies_partition 10 3 (by decide)).2.2.2.2.2.2.2.2.2,
   ((fetch_policies_partition 10 3 (by decide)).2.2.2.2.2.2.1 2).trans (by decide)⟩

/-- C20. Read in natural-number arithmetic, the remainder loop that `element_wise_loop_1D`
emits for a width `w > 1` makes the workers `0`, ..., `n-1` (`n > 0`) run the body of width 1
once for each index from `(bound/w)*w` to `bound` and for no other index, `bound mod w` times
in all; when `bound` is a multiple of `w` it runs no iteration. The terms read are those whose
text the remainder loop carries. -/
theorem remainder_loop_tail (bound simd_width domain_size : Nat) (hw : 1 < simd_width)
    (hn : 0 < domain_size) :
    (∀ (texts : caller_text → String) (stream : kernel_generation_stream)
        (loop_body : kernel_generation_stream → Nat → kernel_generation_stream)
        (fetch : fetching_policy_type) (i : String),
        ∃ main : kernel_generation_stream,
          element_wise_loop_1D stream loop_body fetch simd_width i (texts .bound)
              (texts .domain_id) (texts .domain_size)
            = emit_loop main i ((remainder_init_expr simd_width).render texts)
                ((c_expr.given .bound).render texts) ((c_expr.given .domain_size).render texts)
                loop_body 1)
    ∧ (∀ id i : Nat, i ∈ remainder_visits bound simd_width id domain_size
        ↔ ∃ k, i = bound / simd_width * simd_width + id + domain_size * k ∧ i < bound)
    ∧ List.Perm
        (all_workers domain_size (fun id => remainder_visits bound simd_width id domain_size))
        (List.range' (bound / simd_width * simd_width) (bound % simd_width))
    ∧ (all_workers domain_size
        (fun id => remainder_visits bound simd_width id domain_size)).length
        = bound % simd_width
    ∧ (simd_width ∣ bound →
        all_workers domain_size (fun id => remainder_visits bound simd_width id domain_size)
          = []) := by
  have htail : bound - bound / simd_width * simd_width = bound % simd_width := by
    have := Nat.div_add_mod bound simd_width
    rw [Nat.mul_comm] at this
    omega
  have hperm : List.Perm
      (all_workers domain_size (fun id => remainder_visits bound simd_width id domain_size))
      (List.range' (bound / simd_width * simd_width) (bound % simd_width)) := by
    have h := strided_workers_perm (bound / simd_width * simd_width) bound domain_size hn
    rw [htail] at h
    exact h
  refine ⟨?_, ?_, hperm, ?_, ?_⟩
  · intro texts stream loop_body fetch i
    have h := element_wise_loop_1D_eq stream loop_body fetch simd_width i (texts .bound)
      (texts .domain_id) (texts .domain_size)
    rw [if_pos hw, remainder_init_text] at h
    exact ⟨_, h⟩
  · intro id i
    rw [remainder_visits_eq]
    exact mem_for_loop _ bound domain_size i hn
  · rw [hperm.length_eq, List.length_range']
  · intro hdvd
    have h0 : bound % simd_width = 0 := Nat.mod_eq_zero_of_dvd hdvd
    have h1 := hperm
    rw [h0, List.range'_zero] at h1
    exact List.Perm.eq_nil h1

/-- C20 at an instance: bound 10, width 4 and 3 workers. The tail is `8, 9`, visited by the
workers 0 and 1. -/
theorem remainder_loop_tail_witness :
    (all_workers 3 (fun id => remainder_visits 10 4 id 3)).length = 2
    ∧ all_workers 3 (fun id => remainder_visits 10 4 id 3) = [8, 9] :=
  ⟨(remainder_loop_tail 10 4 3 (by decide) (by decide)).2.2.2.1, by decide⟩

/-! ## The kernel name as a function of the label -/

/-- The `while` loop of `fill_kernel_name` stores nothing for the label 0. -/
theorem fill_kernel_name_while_zero : fill_kernel_name_while 0 = [] := by
  rw [fill_kernel_name_while, if_neg (by decide)]

/-- The `while` loop of `fill_kernel_name` stores the last digit first for a positive label. -/
theorem fill_kernel_name_while_pos (label : Nat) (h : 0 < label) :
    fill_kernel_name_while label
      = Char.ofNat ('0'.toNat + label % 10) :: fill_kernel_name_while (label / 10) := by
  rw [fill_kernel_name_while, if_pos h]

/-- Two digits with the same character are the same digit. -/
theorem digit_char_injective :
    ∀ x : Nat, x < 10 → ∀ y : Nat, y < 10 →
      Char.ofNat ('0'.toNat + x) = Char.ofNat ('0'.toNat + y) → x = y := by
  decide

/-- The `while` loop of `fill_kernel_name` stores different characters for different labels. -/
theorem fill_kernel_name_while_injective :
    ∀ a b : Nat, fill_kernel_name_while a = fill_kernel_name_while b → a = b := by
  intro a
  induction a using Nat.strong_induction_on with
  | _ a ih =>
    intro b h
    by_cases ha : 0 < a
    · by_cases hb : 0 < b
      · rw [fill_kernel_name_while_pos a ha, fill_kernel_name_while_pos b hb] at h
        have hhead := digit_char_injective (a % 10) (Nat.mod_lt _ (by decide)) (b % 10)
          (Nat.mod_lt _ (by decide)) (List.cons.inj h).1
        have htail := ih (a / 10) (by omega) (b / 10) (List.cons.inj h).2
        omega
      · have hb0 : b = 0 := by omega
        rw [fill_kernel_name_while_pos a ha, hb0, fill_kernel_name_while_zero] at h
        exact absurd h (by simp)
    · have ha0 : a = 0 := by omega
      by_cases hb : 0 < b
      · rw [fill_kernel_name_while_pos b hb, ha0, fill_kernel_name_while_zero] at h
        exact absurd h (by simp)
      · omega

/-- The digits that `fill_kernel_name` writes are different for different labels. -/
theorem fill_kernel_name_digits_injective (a b : Nat)
    (h : (if a = 0 then ['0'] else fill_kernel_name_while a)
        = (if b = 0 then ['0'] else fill_kernel_name_while b)) : a = b := by
  have hzero : ∀ c : Nat, 0 < c → ['0'] ≠ fill_kernel_name_while c := by
    intro c hc heq
    rw [fill_kernel_name_while_pos c hc] at heq
    have hhead := digit_char_injective 0 (by decide) (c % 10) (Nat.mod_lt _ (by decide))
      (List.cons.inj heq).1
    have htail := (List.cons.inj heq).2
    rw [← fill_kernel_name_while_zero] at htail
    have := fill_kernel_name_while_injective 0 (c / 10) htail
    omega
  by_cases ha : a = 0
  · by_cases hb : b = 0
    · omega
    · rw [if_pos ha, if_neg hb] at h
      exact absurd h (hzero b (by omega))
  · by_cases hb : b = 0
    · rw [if_neg ha, if_pos hb] at h
      exact absurd h.symm (hzero a (by omega))
    · rw [if_neg ha, if_neg hb] at h
      exact fill_kernel_name_while_injective a b h

/-- The kernel names of two labels with the same suffix are equal only for equal labels. -/
theorem fill_kernel_name_label_injective (suffix : List Char) (a b : Nat)
    (h : fill_kernel_name a suffix = fill_kernel_name b suffix) : a = b := by
  unfold fill_kernel_name at h
  have h1 := List.append_cancel_right (List.append_cancel_right h)
  exact fill_kernel_name_digits_injective a b (List.append_cancel_left h1)

/-- The number of characters that `fill_kernel_name` writes. -/
theorem fill_kernel_name_length (label : Nat) (suffix : List Char) :
    (fill_kernel_name label suffix).length
      = 2 + (decimal_digits label).length + suffix.length := by
  rw [fill_kernel_name_eq]
  simp only [decimal_digits, List.length_append, List.length_reverse, List.length_cons,
    List.length_nil]
  omega

/-- A label of 32 bits has ten decimal digits at most. -/
theorem decimal_digits_length_le (label : Nat) (h : label < 2 ^ 32) :
    (decimal_digits label).length ≤ 10 := by
  unfold decimal_digits Nat.toDigits
  exact Nat.toDigitsCore_length 10 (by decide) (label + 1) label 10
    (Nat.lt_of_lt_of_le h (by norm_num)) (by decide)

/-- Claim C23. For a fixed suffix `fill_kernel_name` is injective in the label: two different
labels never give the same kernel name. The number of characters written, the terminating NUL
included, is 2 plus the number of decimal digits of the label plus the length of the suffix,
which is at most 12 plus the length of the suffix for a label of 32 bits, and the greatest label
of 32 bits reaches this bound. -/
theorem fill_kernel_name_injective_and_length (suffix : List Char) :
    (∀ a b : Nat, a ≠ b → fill_kernel_name a suffix ≠ fill_kernel_name b suffix)
    ∧ (∀ label : Nat, (fill_kernel_name label suffix).length
          = 2 + (decimal_digits label).length + suffix.length)
    ∧ (∀ label : Nat, label < 2 ^ 32 →
          (fill_kernel_name label suffix).length ≤ 12 + suffix.length)
    ∧ (fill_kernel_name 4294967295 suffix).length = 12 + suffix.length := by
  refine ⟨fun a b hab h => hab (fill_kernel_name_label_injective suffix a b h),
    fun label => fill_kernel_name_length label suffix, fun label h => ?_, ?_⟩
  · have := decimal_digits_length_le label h
    rw [fill_kernel_name_length]
    omega
  · rw [fill_kernel_name_length]
    have : (decimal_digits 4294967295).length = 10 := by decide
    omega

/-! ## Transposition of a node -/

/-- An operand that is not composite ends the loop of `is_node_trans` at once, whatever the
number of iterations allowed. -/
theorem is_node_trans_while_not_composite (array : List symbolic_expression_node)
    (leaf_type : leaf_t) (fuel : Nat) (node : symbolic_expression_node) (res : Bool)
    (h : (is_node_trans_ptr leaf_type node).type_family ≠ .COMPOSITE_OPERATOR_FAMILY) :
    is_node_trans_while array leaf_type fuel node res = .returned res := by
  cases fuel with
  | zero => rw [is_node_trans_while, if_neg h]
  | succ fuel => rw [is_node_trans_while, if_neg h]

/-- The nodes followed from a node of the tree are nodes of the tree, when composite operands
index the tree. -/
theorem followed_nodes_lt (array : List symbolic_expression_node) (leaf_type : leaf_t)
    (h_index : ∀ node ∈ array,
      (is_node_trans_ptr leaf_type node).type_family = .COMPOSITE_OPERATOR_FAMILY →
        (is_node_trans_ptr leaf_type node).node_index < array.length) :
    ∀ (steps : Nat) (node : symbolic_expression_node), node ∈ array →
      ∀ index ∈ followed_nodes array leaf_type steps node, index < array.length := by
  intro steps
  induction steps with
  | zero =>
    intro node _ index hmem
    simp [followed_nodes] at hmem
  | succ steps ih =>
    intro node hnode index hmem
    by_cases hc : (is_node_trans_ptr leaf_type node).type_family = .COMPOSITE_OPERATOR_FAMILY
    · have hlt := h_index node hnode hc
      rw [followed_nodes, if_pos hc, List.getElem?_eq_getElem hlt] at hmem
      rcases List.mem_cons.1 hmem with h | h
      · omega
      · exact ih _ (List.getElem_mem hlt) index h
    · rw [followed_nodes, if_neg hc] at hmem
      simp at hmem

/-- Flipping a value once more changes the parity of the number of flips. -/
theorem flip_parity (p : Prop) [Decidable p] (c : Nat) (res : Bool) :
    (if c % 2 = 1 then !(if p then !res else res) else (if p then !res else res))
      = (if (c + if decide p = true then 1 else 0) % 2 = 1 then !res else res) := by
  by_cases hp : p <;> rcases Nat.mod_two_eq_zero_or_one c with h | h <;> cases res <;>
    simp [hp, h, Nat.add_mod]

/-- The loop of `is_node_trans` returns, and flips `res` once per transpose node on the chain,
as soon as the chain ends within the iterations allowed. -/
theorem is_node_trans_while_eq (array : List symbolic_expression_node) (leaf_type : leaf_t)
    (h_index : ∀ node ∈ array,
      (is_node_trans_ptr leaf_type node).type_family = .COMPOSITE_OPERATOR_FAMILY →
        (is_node_trans_ptr leaf_type node).node_index < array.length) :
    ∀ (steps : Nat) (node : symbolic_expression_node) (res : Bool) (fuel : Nat),
      node ∈ array →
      (followed_nodes array leaf_type steps node).length < steps →
      (followed_nodes array leaf_type steps node).length ≤ fuel →
      is_node_trans_while array leaf_type fuel node res
        = .returned (if ((followed_nodes array leaf_type steps node).countP
            (is_transpose_node array)) % 2 = 1 then !res else res) := by
  intro steps
  induction steps with
  | zero =>
    intro node res fuel _ hlen _
    exact absurd hlen (Nat.not_lt_zero _)
  | succ steps ih =>
    intro node res fuel hnode hlen hfuel
    by_cases hc : (is_node_trans_ptr leaf_type node).type_family = .COMPOSITE_OPERATOR_FAMILY
    · have hlt := h_index node hnode hc
      rw [followed_nodes, if_pos hc, List.getElem?_eq_getElem hlt] at hlen hfuel ⊢
      simp only [List.length_cons] at hlen hfuel
      cases fuel with
      | zero => omega
      | succ fuel =>
        rw [is_node_trans_while, if_pos hc, List.getElem?_eq_getElem hlt]
        simp only []
        rw [ih _ _ fuel (List.getElem_mem hlt) (by omega) (by omega), List.countP_cons]
        have ht : is_transpose_node array (is_node_trans_ptr leaf_type node).node_index
            = decide ((array[(is_node_trans_ptr leaf_type node).node_index]).op.type
                = .OPERATOR_TRANS_TYPE) := by
          rw [is_transpose_node, List.getElem?_eq_getElem hlt]
        rw [ht]
        exact congrArg is_node_trans_result.returned (flip_parity _ _ _)
    · rw [is_node_trans_while_not_composite array leaf_type fuel node res hc, followed_nodes,
        if_neg hc]
      rfl

/-- A chain without a repeated node, inside a tree of `n` nodes, has at most `n` nodes. -/
theorem nodup_length_le (l : List Nat) (n : Nat) (hnodup : l.Nodup)
    (hlt : ∀ index ∈ l, index < n) : l.length ≤ n := by
  have hsub : l ⊆ List.range n := fun index hmem => List.mem_range.2 (hlt index hmem)
  have := (List.subperm_of_subset hnodup hsub).length_le
  rwa [List.length_range] at this

/-- Function `is_node_trans` on a tree whose chain from the root never revisits a node. -/
theorem is_node_trans_eq (array : List symbolic_expression_node) (root_idx : Nat)
    (leaf_type : leaf_t) (h_root : root_idx < array.length)
    (h_index : ∀ node ∈ array,
      (is_node_trans_ptr leaf_type node).type_family = .COMPOSITE_OPERATOR_FAMILY →
        (is_node_trans_ptr leaf_type node).node_index < array.length)
    (h_acyclic : (root_idx :: chain_from_root array root_idx leaf_type).Nodup) :
    (chain_from_root array root_idx leaf_type).length < array.length
    ∧ ∀ fuel : Nat, (chain_from_root array root_idx leaf_type).length ≤ fuel →
        is_node_trans array root_idx leaf_type fuel
          = .returned (decide (transposes_on_chain array root_idx leaf_type % 2 = 1)) := by
  have hchain : chain_from_root array root_idx leaf_type
      = followed_nodes array leaf_type array.length array[root_idx] := by
    rw [chain_from_root, List.getElem?_eq_getElem h_root]
  have hlen : (chain_from_root array root_idx leaf_type).length < array.length := by
    have hall : ∀ index ∈ root_idx :: chain_from_root array root_idx leaf_type,
        index < array.length := by
      intro index hmem
      rcases List.mem_cons.1 hmem with h | h
      · omega
      · rw [hchain] at h
        exact followed_nodes_lt array leaf_type h_index _ _ (List.getElem_mem h_root) index h
    have := nodup_length_le _ _ h_acyclic hall
    simp only [List.length_cons] at this
    omega
  refine ⟨hlen, fun fuel hfuel => ?_⟩
  rw [hchain] at hlen hfuel
  rw [is_node_trans, List.getElem?_eq_getElem h_root]
  simp only []
  rw [is_node_trans_while_eq array leaf_type h_index _ _ false fuel (List.getElem_mem h_root)
    hlen hfuel, transposes_on_chain, hchain]
  by_cases hodd : (followed_nodes array leaf_type array.length array[root_idx]).countP
      (is_transpose_node array) % 2 = 1
  · rw [if_pos hodd, decide_eq_true hodd]
    rfl
  · rw [if_neg hodd, decide_eq_false hodd]

/-- Claim C24. In a tree where the composite operands of the chosen side index nodes of the
tree and the chain followed from the root never revisits a node, `is_node_trans` terminates:
the chain has fewer nodes than the tree, and with as many iterations as the chain has nodes, or
more, the function returns true if and only if an odd number of nodes of the chain, the root
not counted, carry the transpose operator. The chosen side is `lhs` for the left-operand role
and `rhs` otherwise. When the operand of the root on that side is not composite the function
returns false without any iteration. -/
theorem is_node_trans_parity (array : List symbolic_expression_node) (root_idx : Nat)
    (leaf_type : leaf_t) (h_root : root_idx < array.length)
    (h_index : ∀ node ∈ array,
      (is_node_trans_ptr leaf_type node).type_family = .COMPOSITE_OPERATOR_FAMILY →
        (is_node_trans_ptr leaf_type node).node_index < array.length)
    (h_acyclic : (root_idx :: chain_from_root array root_idx leaf_type).Nodup) :
    (chain_from_root array root_idx leaf_type).length < array.length
    ∧ (∀ fuel : Nat, (chain_from_root array root_idx leaf_type).length ≤ fuel →
        ∃ res : Bool, is_node_trans array root_idx leaf_type fuel = .returned res
          ∧ (res = true ↔ transposes_on_chain array root_idx leaf_type % 2 = 1))
    ∧ (∀ node : symbolic_expression_node,
        is_node_trans_ptr leaf_type node
          = (if leaf_type = .LHS_NODE_TYPE then node.lhs else node.rhs))
    ∧ ((is_node_trans_ptr leaf_type (array.get ⟨root_idx, h_root⟩)).type_family
          ≠ .COMPOSITE_OPERATOR_FAMILY →
        ∀ fuel : Nat, is_node_trans array root_idx leaf_type fuel = .returned false) := by
  have h := is_node_trans_eq array root_idx leaf_type h_root h_index h_acyclic
  refine ⟨h.1, fun fuel hfuel => ⟨_, h.2 fuel hfuel, by simp⟩, fun _ => rfl, fun hc fuel => ?_⟩
  rw [is_node_trans, List.getElem?_eq_getElem h_root]
  exact is_node_trans_while_not_composite array leaf_type fuel _ false hc

/-- C24 at an instance: in the tree of `trans(A * B) + trans(trans(C))` one transpose lies on
the chain of left operands of the root, so the left operand is transposed. -/
theorem is_node_trans_parity_witness :
    chain_from_root transposed_operands_tree 0 .LHS_NODE_TYPE = [1, 2]
    ∧ transposes_on_chain transposed_operands_tree 0 .LHS_NODE_TYPE = 1
    ∧ is_node_trans transposed_operands_tree 0 .LHS_NODE_TYPE 2 = .returned true := by
  obtain ⟨res, hres, hiff⟩ := (is_node_trans_parity transposed_operands_tree 0 .LHS_NODE_TYPE
    (by decide) (by decide) (by decide)).2.1 2 (by decide)
  rw [hres, hiff.2 (by decide)]
  exact ⟨by decide, by decide, rfl⟩

/-! ## Rank at mapping time and layout at binding time -/

/-- The number of arguments that `set_arguments` appends for an array, by its shape. -/
theorem set_arguments_array_written_length {β : Type} (B : symbolic_binder β)
    (f : set_arguments_functor β) (x : array_infos)
    (hbind : (B.bind f.binder_ x.data).1 = true) :
    (written f (set_arguments_array B f x)).length
      = (if x.shape1 = 1 ∧ x.shape2 = 1 then 2
         else if x.shape1 = 1 ∨ x.shape2 = 1 then 3 else 6) := by
  have h := set_arguments_array_appended B f x
  rw [if_pos hbind] at h
  rw [written_of_appended h, placed_from_length, rank_fields]
  split_ifs <;> first | rfl | omega

/-- The tag that `create` gives an array whose element type has a name, by its shape. -/
theorem create_array_tag {β : Type} (H : helpers) (B : symbolic_binder β) (binder_ : β)
    (x : array_infos) (dtype : String) (hdtype : H.numeric_type_to_string x.dtype = .ok dtype) :
    (create_array H B binder_ x).1
      = .ok (.mapped_array dtype (B.get binder_ x.data).1
          (if x.shape1 = 1 ∧ x.shape2 = 1 then 's'
           else if x.shape1 > 1 ∧ x.shape2 = 1 then 'c'
           else if x.shape1 = 1 ∧ x.shape2 > 1 then 'r' else 'm')) := by
  unfold create_array
  rw [hdtype]
  simp only []
  split_ifs <;> rfl

/-- For an array whose two extents are at least 1, on the first sighting of its buffer, the tag
of `create` and the number of arguments of `set_arguments` agree: `s` with the pointer and one
field, `c` or `r` with the pointer and two fields, `m` with the pointer and five fields. -/
theorem create_array_agrees_of_positive_shape {β : Type} (H : helpers) (B : symbolic_binder β)
    (binder_ : β) (f : set_arguments_functor β) (x : array_infos) (dtype : String)
    (hdtype : H.numeric_type_to_string x.dtype = .ok dtype)
    (hbind : (B.bind f.binder_ x.data).1 = true)
    (h1 : 1 ≤ x.shape1) (h2 : 1 ≤ x.shape2) :
    ∃ type : Char,
      (create_array H B binder_ x).1 = .ok (.mapped_array dtype (B.get binder_ x.data).1 type)
      ∧ (type = 's' ↔ (written f (set_arguments_array B f x)).length = 1 + 1)
      ∧ (type = 'c' ∨ type = 'r' ↔ (written f (set_arguments_array B f x)).length = 1 + 2)
      ∧ (type = 'm' ↔ (written f (set_arguments_array B f x)).length = 1 + 5) := by
  refine ⟨_, create_array_tag H B binder_ x dtype hdtype, ?_⟩
  rw [set_arguments_array_written_length B f x hbind]
  split_ifs <;> refine ⟨?_, ?_, ?_⟩ <;> constructor <;> intro h <;>
    first
    | rfl
    | omega
    | exact Or.inl rfl
    | exact Or.inr rfl
    | exact absurd h (by decide)

/-- Claim C21 at the shape (0,1). For an array with `shape1 = 0` and `shape2 = 1`, whatever its
other fields, the binder and the state of the functors, `create` builds the binding with the
tag `m` whenever the element type has a name, while `set_arguments` appends, on the first
sighting of the buffer, the pointer and the two fields of a vector: the greater start and the
greater stride. So the mapping declares the six parameters of a matrix and the binding passes
three arguments. -/
theorem create_matrix_set_arguments_vector {β : Type} (H : helpers) (B : symbolic_binder β)
    (binder_ : β) (f : set_arguments_functor β) (dtype : numeric_type) (data : cl_mem)
    (start1 start2 stride1 stride2 ld : Nat) :
    (create_array H B binder_ ⟨dtype, data, 0, 1, start1, start2, stride1, stride2, ld⟩).1
      = (match H.numeric_type_to_string dtype with
         | .error ex => .error ex
         | .ok name => .ok (.mapped_array name (B.get binder_ data).1 'm'))
    ∧ written f
        (set_arguments_array B f ⟨dtype, data, 0, 1, start1, start2, stride1, stride2, ld⟩)
      = (if (B.bind f.binder_ data).1 = true then
          [(f.current_arg_, .mem data),
           ((f.current_arg_ + 1) % 2 ^ 32, .cl_uint (max start1 start2 % 2 ^ 32)),
           (((f.current_arg_ + 1) % 2 ^ 32 + 1) % 2 ^ 32,
             .cl_uint (max stride1 stride2 % 2 ^ 32))]
         else [])
    ∧ (create_array ⟨fun _ => .ok "float", fun _ => false, fun _ => false⟩ binder_vtable
          (make_binder .BIND_TO_HANDLE) ⟨.FLOAT_TYPE, some 7, 0, 1, 0, 0, 1, 1, 1⟩).1
        = .ok (.mapped_array "float" 0 'm')
    ∧ written ⟨make_binder .BIND_TO_HANDLE, 0, []⟩
        (set_arguments_array binder_vtable ⟨make_binder .BIND_TO_HANDLE, 0, []⟩
          ⟨.FLOAT_TYPE, some 7, 0, 1, 0, 0, 1, 1, 1⟩)
      = [(0, .mem (some 7)), (1, .cl_uint 0), (2, .cl_uint 1)] := by
  refine ⟨?_, ?_, rfl, by decide⟩
  · unfold create_array
    cases H.numeric_type_to_string dtype with
    | error ex => rfl
    | ok name => rfl
  · have h := set_arguments_array_appended B f
      ⟨dtype, data, 0, 1, start1, start2, stride1, stride2, ld⟩
    rw [written_of_appended h]
    by_cases hb : (B.bind f.binder_ data).1 = true
    · rw [if_pos hb, if_pos hb]
      rfl
    · rw [if_neg hb, if_neg hb]
      rfl

/-! ## Index reductions read on numbers -/

/-- The two lines that `compute_index_reduction` emits for an index-reduction operator are the
renderings of the two assignments: `acc= select(acc,cur,cur_value>acc_value);` and
`acc_value=P(acc_value,cur_value);` with the primitive `P` of the operator. -/
theorem compute_index_reduction_terms (os : kernel_generation_stream)
    (acc cur acc_value cur_value : String) (op : op_element) (primitive : reduction_primitive)
    (h : index_reduction_primitive op = some primitive) :
    compute_index_reduction os acc cur acc_value cur_value op
      = emit_line
          (emit_line os (acc ++ "= "
            ++ select_expr.render (reduction_names acc cur acc_value cur_value) ++ ";"))
          (acc_value ++ "="
            ++ (update_expr primitive).render (reduction_names acc cur acc_value cur_value)
            ++ ";") := by
  obtain ⟨family, type⟩ := op
  cases type <;> simp only [index_reduction_primitive, reduceCtorEq] at h <;>
    (cases Option.some.inj h
     simp only [compute_index_reduction, emit_line, kernel_generation_stream.put,
       kernel_generation_stream.endl, select_expr, update_expr, reduction_expr.render,
       reduction_names, reduction_primitive.name, String.append_assoc, if_true, if_false,
       reduceCtorEq]
     rfl)

/-- With the primitives `fmax` and `max` the two statements keep the index with the value: for
two different indices and two different values, the index accumulator holds the current index
afterwards if and only if the value accumulator holds the current value. -/
theorem index_reduction_max_paired (primitive : reduction_primitive)
    (hmax : primitive = .fmax ∨ primitive = .max) (acc cur acc_value cur_value : Int)
    (hindex : acc ≠ cur) (hvalue : acc_value ≠ cur_value) :
    (after_index_reduction primitive (reduction_values acc cur acc_value cur_value) .acc = cur
      ↔ after_index_reduction primitive (reduction_values acc cur acc_value cur_value)
          .acc_value = cur_value)
    ∧ (after_index_reduction primitive (reduction_values acc cur acc_value cur_value) .acc = cur
      ↔ cur_value > acc_value) := by
  rcases hmax with h | h <;> subst h <;>
    simp only [after_index_reduction, assign, select_expr, update_expr, reduction_expr.eval,
      reduction_values, reduction_primitive.apply, if_true, if_false, reduceCtorEq] <;>
    by_cases hgt : cur_value > acc_value <;>
    simp [hgt, hindex, hvalue] <;> omega

/-- With the primitives `fmin` and `min` the two statements part the index from the value: for
two different indices, whatever the values, the index accumulator holds the current index
afterwards if and only if the current value is the greater one, that is, if and only if the
value accumulator does not hold the current value. -/
theorem index_reduction_min_unpaired (primitive : reduction_primitive)
    (hmin : primitive = .fmin ∨ primitive = .min) (acc cur acc_value cur_value : Int)
    (hindex : acc ≠ cur) :
    (after_index_reduction primitive (reduction_values acc cur acc_value cur_value) .acc = cur
      ↔ ¬ after_index_reduction primitive (reduction_values acc cur acc_value cur_value)
          .acc_value = cur_value)
    ∧ (after_index_reduction primitive (reduction_values acc cur acc_value cur_value) .acc = cur
      ↔ cur_value > acc_value) := by
  rcases hmin with h | h <;> subst h <;>
    simp only [after_index_reduction, assign, select_expr, update_expr, reduction_expr.eval,
      reduction_values, reduction_primitive.apply, if_true, if_false, reduceCtorEq] <;>
    by_cases hgt : cur_value > acc_value <;>
    simp [hgt, hindex]

/-- Claim C22 at the operator argmin. For every stream, every four names and every operator
family, the two lines emitted for `OPERATOR_ELEMENT_ARGMIN_TYPE` are
`acc= select(acc,cur,cur_value>acc_value);` and `acc_value=min(acc_value,cur_value);`. Read on
numbers with index accumulator 0, current index 1, accumulated value 5 and current value 3,
they leave the index accumulator at 0 while the value accumulator takes the current value 3:
the index is not replaced although the current value is the smaller one. With accumulated
value 3 and current value 5 the index is replaced by 1 and the value accumulator keeps 3. -/
theorem compute_index_reduction_argmin_unpaired :
    (∀ (os : kernel_generation_stream) (acc cur acc_value cur_value : String)
        (family : operation_node_type_family),
        compute_index_reduction os acc cur acc_value cur_value
            ⟨family, .OPERATOR_ELEMENT_ARGMIN_TYPE⟩
          = emit_line
              (emit_line os (acc ++ "= "
                ++ select_expr.render (reduction_names acc cur acc_value cur_value) ++ ";"))
              (acc_value ++ "="
                ++ (update_expr .min).render (reduction_names acc cur acc_value cur_value)
                ++ ";"))
    ∧ after_index_reduction .min (reduction_values 0 1 5 3) .acc = 0
    ∧ after_index_reduction .min (reduction_values 0 1 5 3) .acc_value = 3
    ∧ after_index_reduction .min (reduction_values 0 1 3 5) .acc = 1
    ∧ after_index_reduction .min (reduction_values 0 1 3 5) .acc_value = 3 := by
  refine ⟨fun os acc cur acc_value cur_value family => ?_, by decide, by decide, by decide,
    by decide⟩
  exact compute_index_reduction_terms os acc cur acc_value cur_value _ .min rfl

end atidlas
